import Mathlib

/-!
# Balsa folder configuration dialogs (src/folder-conf.c)

A shallow embedding of the callbacks of `folder-conf.c`.  The GTK widgets that
the callbacks read or write are represented by the value they hold (an entry
by its text, a toggle button by its active flag, a combo box by its active
index, a widget's sensitivity by a flag).  Objects living on the C heap
(servers, mailbox nodes, dialog data records) are kept in finite maps from
identifiers to records inside `World`.  Calls into the mail library, the
mailbox tree and the notification sink are recorded, in call order, in
`World.trace`; the answers those collaborators give are taken from `Env`.
Reference counting is not represented, and a rescan of the mailbox tree is
recorded as a call: what the tree does to its nodes in response is not part
of the model.
-/

namespace FolderConf

/-! ## Identifiers and constants -/

abbrev NodeId := Nat
abbrev ServerId := Nat
abbrev DataId := Nat
abbrev BrowseId := Nat

/-- GTK response code `GTK_RESPONSE_NONE`. -/
def GTK_RESPONSE_NONE : Int := -1
/-- GTK response code `GTK_RESPONSE_DELETE_EVENT`. -/
def GTK_RESPONSE_DELETE_EVENT : Int := -4
/-- GTK response code `GTK_RESPONSE_OK`. -/
def GTK_RESPONSE_OK : Int := -5
/-- GTK response code `GTK_RESPONSE_CANCEL`. -/
def GTK_RESPONSE_CANCEL : Int := -6
/-- GTK response code `GTK_RESPONSE_HELP`. -/
def GTK_RESPONSE_HELP : Int := -11

/-- The enumerators of `NetClientCryptMode` that the code names.  The
enumeration is declared in a header that is not part of the source at hand,
so the values of the enumerators are a parameter of the model. -/
structure NetClientCryptMode where
  NET_CLIENT_CRYPT_STARTTLS : Int
  NET_CLIENT_CRYPT_NONE : Int
  deriving DecidableEq, Repr

/-- Severity argument of `balsa_information`. -/
inductive InformationLevel where
  | LIBBALSA_INFORMATION_WARNING
  | LIBBALSA_INFORMATION_ERROR
  deriving DecidableEq, Repr

/-! ## External objects -/

/-- Modelled from the spec: the server configuration record behind the server
object API (host, username, password, security mode, anonymous-access flag,
remember-password flag, connection limit, persistent-cache flag, IDLE-usage
flag, fetch-bug-workaround flag, STATUS-usage flag).  `is_imap` is the outcome
of the `LIBBALSA_IS_IMAP_SERVER` type test. -/
structure LibBalsaServer where
  is_imap : Bool
  host : Option String
  username : Option String
  password : Option String
  security : Int
  try_anonymous : Bool
  remember_passwd : Bool
  max_connections : Int
  persistent_cache : Bool
  use_idle : Bool
  bug_fetch : Bool
  use_status : Bool
  deriving DecidableEq, Repr

/-- Modelled from the spec: what the dialogs read from a mailbox object. -/
structure LibBalsaMailbox where
  id : Nat
  name : Option String
  deriving DecidableEq, Repr

/-- Modelled from the spec: the folder node of the mailbox tree (display name,
server reference, remote path, subscribed flag, list-in-inbox flag), with its
parent link, its mailbox, its configuration prefix and the object datum stored
under `BALSA_FOLDER_CONF_IMAP_KEY`. -/
structure BalsaMailboxNode where
  name : Option String
  dir : Option String
  server : Option ServerId
  subscribed : Bool
  list_inbox : Bool
  parent : Option NodeId
  mailbox : Option LibBalsaMailbox
  config_pfx : Option String
  conf_data : Option DataId
  deriving DecidableEq, Repr

/-! ## Dialog data (the structs declared at the top of folder-conf.c) -/

/-- The dialog window owned by a dialog data record: its identity, the
sensitivity of its OK response, its default response, the label of the OK
button, and which of the two static creation slots hold a weak pointer that
is cleared when the window is destroyed. -/
structure GtkDialog where
  id : Nat
  ok_sensitive : Bool
  default_response : Option Int
  ok_label : String
  weak_fcw_new : Bool
  weak_sdd_new : Bool
  deriving DecidableEq, Repr

/-- The struct `_CommonDialogData`.  The `ok` function pointer is represented
by the constructor of `DialogData` that wraps the record. -/
structure CommonDialogData where
  dialog : Option GtkDialog
  mbnode : Option NodeId
  deriving DecidableEq, Repr

/-- Modelled from the spec: the widgets of the absent `BalsaServerConf`
declaration that folder-conf.c reads or writes. -/
structure BalsaServerConf where
  server : String
  security : Int
  need_client_cert : Bool
  need_client_cert_sensitive : Bool
  client_cert_file : Option String
  client_cert_file_sensitive : Bool
  client_cert_passwd_sensitive : Bool
  deriving DecidableEq, Repr

/-- The struct `_FolderDialogData`; the source field `prefix` is `pfx` here. -/
structure FolderDialogData where
  cdd : CommonDialogData
  bsc : BalsaServerConf
  folder_name : String
  username : String
  anonymous : Bool
  anonymous_sensitive : Bool
  remember : Bool
  password : String
  password_sensitive : Bool
  subscribed : Bool
  list_inbox : Bool
  pfx : String
  connection_limit : Int
  enable_persistent : Bool
  use_idle : Bool
  has_bugs : Bool
  use_status : Bool
  deriving DecidableEq, Repr

/-- The struct `_SubfolderDialogData`, with the state of the Browse button
that `folder_conf_imap_sub_node` places next to the parent-folder entry. -/
structure SubfolderDialogData where
  cdd : CommonDialogData
  mcv : Option Nat
  parent_folder : String
  parent_folder_editable : Bool
  folder_name : String
  host_label : String
  old_folder : Option String
  old_parent : Option String
  parent : Option NodeId
  browse_button_sensitive : Bool
  deriving DecidableEq, Repr

/-- A dialog data record together with its `ok` handler: `folder` stands for
`ok = folder_conf_clicked_ok`, `subfolder` for `ok = subfolder_conf_clicked_ok`. -/
inductive DialogData where
  | folder (fcw : FolderDialogData)
  | subfolder (sdd : SubfolderDialogData)
  deriving DecidableEq, Repr

/-- View a dialog data record as its leading `CommonDialogData`. -/
def DialogData.cdd : DialogData → CommonDialogData
  | .folder fcw => fcw.cdd
  | .subfolder sdd => sdd.cdd

/-- Store a `CommonDialogData` into the leading member of a record. -/
def DialogData.set_cdd (c : CommonDialogData) : DialogData → DialogData
  | .folder fcw => .folder { fcw with cdd := c }
  | .subfolder sdd => .subfolder { sdd with cdd := c }

/-- The struct `_BrowseButtonData`. -/
structure BrowseButtonData where
  sdd : DataId
  dialog : Nat
  dialog_ok_sensitive : Bool
  mbnode : Option NodeId
  deriving DecidableEq, Repr

/-! ## Calls to collaborators -/

/-- One entry per call into the mail library, the mailbox tree, the
configuration store, the notification sink or the window system. -/
inductive Event where
  | g_print (text : String)
  | printf (text : String)
  | balsa_information (level : InformationLevel) (text : String)
  | gtk_show_uri_on_window (uri : String)
  | gtk_window_present (dialog : Option Nat)
  | gtk_dialog_new (dialog : Nat) (title : String)
  | gtk_widget_destroy (dialog : Nat)
  | gtk_dialog_run (title : String) (text : String)
  | libbalsa_imap_server_new (s : ServerId) (username : String) (host : String)
  | libbalsa_server_connect_get_password (s : ServerId)
  | libbalsa_server_config_changed (s : Option ServerId)
  | balsa_mailbox_node_new_imap_folder (n : NodeId) (s : Option ServerId)
  | balsa_mblist_mailbox_node_append (n : Option NodeId)
  | balsa_mailbox_node_append_subtree (n : Option NodeId)
  | config_folder_add (n : Option NodeId)
  | connect_config_folder_update (s : Option ServerId) (n : Option NodeId)
  | update_mail_servers
  | balsa_mailbox_node_rescan (n : Option NodeId)
  | balsa_mblist_mailbox_node_redraw (n : Option NodeId)
  | mailbox_conf_view_check (mcv : Option Nat) (mailbox : Nat)
  | balsa_window_close_mbnode (n : Option NodeId)
  | libbalsa_imap_rename_subfolder (mailbox : Option Nat) (parent : String)
      (folder : String) (subscribed : Bool)
  | libbalsa_imap_new_subfolder (parent : String) (folder : String)
      (subscribed : Bool) (server : Option ServerId)
  | config_folder_delete (n : Option NodeId)
  | balsa_mblist_mailbox_node_remove (n : Option NodeId)
  deriving DecidableEq, Repr

/-- Outcome of a library call that reports failure through a `GError`:
`fail none` is a failure that left the error object unset. -/
inductive CallResult where
  | ok
  | fail (message : Option String)
  deriving DecidableEq, Repr

/-- The answers of the collaborators during one callback: the template of a
server made by `libbalsa_imap_server_new`, the error of `gtk_show_uri_on_window`,
the button pressed in the rename-Inbox question and in the delete confirmation,
the outcome of the rename and create requests, the lookup
`balsa_mailbox_node_find_from_dir`, and the two defaults used when a new
folder form is filled in. -/
structure Env where
  new_server : LibBalsaServer
  show_uri_error : Option String
  rename_inbox_answer : Int
  rename_result : CallResult
  new_subfolder_result : CallResult
  find_from_dir : Option ServerId → String → Option NodeId
  delete_answer : Int
  guess_imap_server : Option String
  user_name : String

/-! ## The world -/

/-- The program state the callbacks act on. -/
structure World where
  servers : ServerId → Option LibBalsaServer
  nodes : NodeId → Option BalsaMailboxNode
  cdds : DataId → Option DialogData
  bbds : BrowseId → Option BrowseButtonData
  next_server : Nat
  next_node : Nat
  next_cdd : Nat
  next_bbd : Nat
  next_dialog : Nat
  fcw_new : Option DataId
  sdd_new : Option DataId
  debug : Bool
  trace : List Event

/-- Finite-map update. -/
def upd {α : Type} (h : Nat → Option α) (k : Nat) (v : Option α) : Nat → Option α :=
  fun i => if i = k then v else h i

/-- Append a call to the trace. -/
def World.emit (w : World) (e : Event) : World :=
  { w with trace := w.trace ++ [e] }

/-- The translation function `_()` in the untranslated locale. -/
def gettext (s : String) : String := s

/-- The entry text that results from an initial value that may be NULL. -/
def entry_text (init : Option String) : String := init.getD ""

/-- The glib function `g_strcmp0`: NULL sorts before every string. -/
def g_strcmp0 (a b : Option String) : Int :=
  match a, b with
  | none, none => 0
  | none, some _ => -1
  | some _, none => 1
  | some x, some y => if x = y then 0 else if x < y then -1 else 1

/-! ## validate_folder and the toggle callbacks -/

/-- The value of the local `sensitive` at the end of `validate_folder`. -/
def validate_folder_sensitive (crypt : NetClientCryptMode) (fcw : FolderDialogData) :
    Bool :=
  let sensitive := true
  let sensitive :=
    if fcw.folder_name = "" then false
    else if fcw.bsc.server = "" then false
    else sensitive
  /- encryption w/ client cert requires cert file -/
  let sensitive :=
    if sensitive && (fcw.bsc.security + 1 != crypt.NET_CLIENT_CRYPT_NONE)
        && fcw.bsc.need_client_cert then
      let cert_file := fcw.bsc.client_cert_file
      if cert_file = none || cert_file = some "" then false else sensitive
    else sensitive
  sensitive

/-- The call `gtk_dialog_set_response_sensitive(cdd->dialog, GTK_RESPONSE_OK, v)`. -/
def set_ok_response_sensitive (cdd : CommonDialogData) (v : Bool) : CommonDialogData :=
  { cdd with dialog := cdd.dialog.map (fun d => { d with ok_sensitive := v }) }

/-- The call `gtk_dialog_set_default_response(cdd->dialog, r)`. -/
def set_default_response (cdd : CommonDialogData) (r : Int) : CommonDialogData :=
  { cdd with dialog := cdd.dialog.map (fun d => { d with default_response := some r }) }

/-- The function `validate_folder`. -/
def validate_folder (crypt : NetClientCryptMode) (fcw : FolderDialogData) :
    FolderDialogData :=
  { fcw with cdd := set_ok_response_sensitive fcw.cdd (validate_folder_sensitive crypt fcw) }

/-- The callback `anonymous_cb`; `button` is the toggle the handler is
connected to, `fcw->anonymous`. -/
def anonymous_cb (fcw : FolderDialogData) : FolderDialogData :=
  { fcw with anonymous_sensitive := fcw.anonymous }

/-- The callback `remember_cb`; `button` is the toggle the handler is
connected to, `fcw->remember`. -/
def remember_cb (fcw : FolderDialogData) : FolderDialogData :=
  { fcw with password_sensitive := fcw.remember }

/-- The callback `security_cb`; `combo` is `fcw->bsc.security`. -/
def security_cb (crypt : NetClientCryptMode) (fcw : FolderDialogData) :
    FolderDialogData :=
  let sensitive := fcw.bsc.security + 1 != crypt.NET_CLIENT_CRYPT_NONE
  let fcw := { fcw with bsc := { fcw.bsc with need_client_cert_sensitive := sensitive } }
  let sensitive := sensitive && fcw.bsc.need_client_cert
  let fcw := { fcw with bsc := { fcw.bsc with client_cert_file_sensitive := sensitive } }
  let fcw := { fcw with bsc := { fcw.bsc with client_cert_passwd_sensitive := sensitive } }
  validate_folder crypt fcw

/-! ## The server and node API -/

/-- Modelled from the spec: node getter `balsa_mailbox_node_get_server`
(NULL for a NULL node). -/
def balsa_mailbox_node_get_server (w : World) (mn : Option NodeId) : Option ServerId :=
  mn.bind (fun n => (w.nodes n).bind (fun nd => nd.server))

/-- Modelled from the spec: node getter `balsa_mailbox_node_get_parent`. -/
def balsa_mailbox_node_get_parent (w : World) (mn : Option NodeId) : Option NodeId :=
  mn.bind (fun n => (w.nodes n).bind (fun nd => nd.parent))

/-- Modelled from the spec: node getter `balsa_mailbox_node_get_mailbox`. -/
def balsa_mailbox_node_get_mailbox (w : World) (mn : Option NodeId) : Option LibBalsaMailbox :=
  mn.bind (fun n => (w.nodes n).bind (fun nd => nd.mailbox))

/-- Modelled from the spec: node getter `balsa_mailbox_node_get_dir`. -/
def balsa_mailbox_node_get_dir (w : World) (mn : Option NodeId) : Option String :=
  mn.bind (fun n => (w.nodes n).bind (fun nd => nd.dir))

/-- Modelled from the spec: node getter `balsa_mailbox_node_get_name`. -/
def balsa_mailbox_node_get_name (w : World) (mn : Option NodeId) : Option String :=
  mn.bind (fun n => (w.nodes n).bind (fun nd => nd.name))

/-- Modelled from the spec: node getter `balsa_mailbox_node_get_config_prefix`. -/
def balsa_mailbox_node_get_config_pfx (w : World) (mn : Option NodeId) : Option String :=
  mn.bind (fun n => (w.nodes n).bind (fun nd => nd.config_pfx))

/-- Modelled from the spec: node getter `balsa_mailbox_node_get_subscribed`
(FALSE for a NULL node). -/
def balsa_mailbox_node_get_subscribed (w : World) (mn : Option NodeId) : Bool :=
  match mn.bind w.nodes with
  | some nd => nd.subscribed
  | none => false

/-- Modelled from the spec: node getter `balsa_mailbox_node_get_list_inbox`. -/
def balsa_mailbox_node_get_list_inbox (w : World) (mn : Option NodeId) : Bool :=
  match mn.bind w.nodes with
  | some nd => nd.list_inbox
  | none => false

/-- The datum `g_object_get_data(mn, BALSA_FOLDER_CONF_IMAP_KEY)`. -/
def get_conf_data (w : World) (mn : Option NodeId) : Option DataId :=
  mn.bind (fun n => (w.nodes n).bind (fun nd => nd.conf_data))

/-- The type test `LIBBALSA_IS_IMAP_SERVER`, FALSE for NULL. -/
def LIBBALSA_IS_IMAP_SERVER (w : World) (s : Option ServerId) : Bool :=
  match s.bind w.servers with
  | some sv => sv.is_imap
  | none => false

/-- Apply a setter of the node API to the node `mn` (nothing for NULL). -/
def node_set (w : World) (mn : Option NodeId) (f : BalsaMailboxNode → BalsaMailboxNode) :
    World :=
  match mn with
  | none => w
  | some n =>
    match w.nodes n with
    | none => w
    | some nd => { w with nodes := upd w.nodes n (some (f nd)) }

/-- Apply a setter of the server API to the server `s` (nothing for NULL). -/
def server_set (w : World) (s : Option ServerId) (f : LibBalsaServer → LibBalsaServer) :
    World :=
  match s with
  | none => w
  | some i =>
    match w.servers i with
    | none => w
    | some sv => { w with servers := upd w.servers i (some (f sv)) }

/-- Modelled from the spec: server setter "set security mode". -/
def libbalsa_server_set_security (w : World) (s : Option ServerId) (v : Int) : World :=
  server_set w s (fun sv => { sv with security := v })

/-- Modelled from the spec: server setter "set connection limit". -/
def libbalsa_imap_server_set_max_connections (w : World) (s : Option ServerId) (v : Int) :
    World :=
  server_set w s (fun sv => { sv with max_connections := v })

/-- Modelled from the spec: server setter for the persistent-cache flag. -/
def libbalsa_imap_server_enable_persistent_cache (w : World) (s : Option ServerId)
    (v : Bool) : World :=
  server_set w s (fun sv => { sv with persistent_cache := v })

/-- Modelled from the spec: server setter for the IDLE-usage flag. -/
def libbalsa_imap_server_set_use_idle (w : World) (s : Option ServerId) (v : Bool) : World :=
  server_set w s (fun sv => { sv with use_idle := v })

/-- Modelled from the spec: server setter for the fetch-bug-workaround flag
(`libbalsa_imap_server_set_bug` with `ISBUG_FETCH`). -/
def libbalsa_imap_server_set_bug_fetch (w : World) (s : Option ServerId) (v : Bool) : World :=
  server_set w s (fun sv => { sv with bug_fetch := v })

/-- Modelled from the spec: server setter for the STATUS-usage flag. -/
def libbalsa_imap_server_set_use_status (w : World) (s : Option ServerId) (v : Bool) : World :=
  server_set w s (fun sv => { sv with use_status := v })

/-- Modelled from the spec: server setter for the user name. -/
def libbalsa_server_set_username (w : World) (s : Option ServerId) (v : String) : World :=
  server_set w s (fun sv => { sv with username := some v })

/-- Modelled from the spec: server setter for the anonymous-access flag. -/
def libbalsa_server_set_try_anonymous (w : World) (s : Option ServerId) (v : Bool) : World :=
  server_set w s (fun sv => { sv with try_anonymous := v })

/-- Modelled from the spec: server setter for the remember-password flag. -/
def libbalsa_server_set_remember_passwd (w : World) (s : Option ServerId) (v : Bool) : World :=
  server_set w s (fun sv => { sv with remember_passwd := v })

/-- Modelled from the spec: server setter for the password. -/
def libbalsa_server_set_password (w : World) (s : Option ServerId) (v : String) : World :=
  server_set w s (fun sv => { sv with password := some v })

/-- Modelled from the spec: server setter for the host. -/
def libbalsa_server_set_host (w : World) (s : Option ServerId) (v : String) : World :=
  server_set w s (fun sv => { sv with host := some v })

/-- Modelled from the spec: node setter for the remote path. -/
def balsa_mailbox_node_set_dir (w : World) (mn : Option NodeId) (v : String) : World :=
  node_set w mn (fun nd => { nd with dir := some v })

/-- Modelled from the spec: node setter for the display name. -/
def balsa_mailbox_node_set_name (w : World) (mn : Option NodeId) (v : String) : World :=
  node_set w mn (fun nd => { nd with name := some v })

/-- Modelled from the spec: node setter for the subscribed flag. -/
def balsa_mailbox_node_set_subscribed (w : World) (mn : Option NodeId) (v : Bool) : World :=
  node_set w mn (fun nd => { nd with subscribed := v })

/-- Modelled from the spec: node setter for the list-in-inbox flag. -/
def balsa_mailbox_node_set_list_inbox (w : World) (mn : Option NodeId) (v : Bool) : World :=
  node_set w mn (fun nd => { nd with list_inbox := v })

/-- Modelled from the spec: the security mode selected in the server form
(`balsa_server_conf_get_security`), read the way `validate_folder` and
`security_cb` read the selector: the combo index plus one. -/
def balsa_server_conf_get_security (bsc : BalsaServerConf) : Int :=
  bsc.security + 1

/-- Modelled from the spec: `libbalsa_imap_server_new(username, host)` makes a
fresh IMAP server object holding the given user name and host. -/
def libbalsa_imap_server_new (env : Env) (username host : String) (w : World) :
    ServerId × World :=
  let s := w.next_server
  let sv := { env.new_server with is_imap := true, username := some username,
                                  host := some host }
  (s, ({ w with servers := upd w.servers s (some sv), next_server := s + 1 }).emit
        (.libbalsa_imap_server_new s username host))

/-- Modelled from the spec: `balsa_mailbox_node_new_imap_folder(s, NULL)` makes
a fresh folder node that refers to server `s` and has no mailbox. -/
def balsa_mailbox_node_new_imap_folder (s : Option ServerId) (w : World) : NodeId × World :=
  let n := w.next_node
  let nd : BalsaMailboxNode :=
    { name := none, dir := none, server := s, subscribed := false, list_inbox := false,
      parent := none, mailbox := none, config_pfx := none, conf_data := none }
  (n, ({ w with nodes := upd w.nodes n (some nd), next_node := n + 1 }).emit
        (.balsa_mailbox_node_new_imap_folder n s))

/-! ## folder_conf_clicked_ok -/

/-- The function `folder_conf_clicked_ok`.  `c` is the address of `fcw`; the
result carries the updated record (its `mbnode` member is assigned when a
node is created). -/
def folder_conf_clicked_ok (env : Env) (c : DataId) (fcw : FolderDialogData) (w : World) :
    Bool × FolderDialogData × World :=
  let host := fcw.bsc.server
  let username := fcw.username
  let (insert, s, w) :=
    match fcw.cdd.mbnode with
    | some _ => (false, balsa_mailbox_node_get_server w fcw.cdd.mbnode, w)
    | none =>
      let (s, w) := libbalsa_imap_server_new env username host w
      (true, some s, w.emit (.libbalsa_server_connect_get_password s))
  let w := libbalsa_server_set_security w s (balsa_server_conf_get_security fcw.bsc)
  let w := libbalsa_imap_server_set_max_connections w s fcw.connection_limit
  let w := libbalsa_imap_server_enable_persistent_cache w s fcw.enable_persistent
  let w := libbalsa_imap_server_set_use_idle w s fcw.use_idle
  let w := libbalsa_imap_server_set_bug_fetch w s fcw.has_bugs
  let w := libbalsa_imap_server_set_use_status w s fcw.use_status
  let w := libbalsa_server_set_username w s username
  let w := libbalsa_server_set_try_anonymous w s fcw.anonymous
  let w := libbalsa_server_set_remember_passwd w s fcw.remember
  let w := libbalsa_server_set_password w s fcw.password
  let (fcw, w) :=
    match fcw.cdd.mbnode with
    | some _ => (fcw, w)
    | none =>
      let (n, w) := balsa_mailbox_node_new_imap_folder s w
      /- The mailbox node takes over ownership of the FolderDialogData. -/
      ({ fcw with cdd := { fcw.cdd with mbnode := some n } },
       node_set w (some n) (fun nd => { nd with conf_data := some c }))
  let w := balsa_mailbox_node_set_dir w fcw.cdd.mbnode fcw.pfx
  let w := balsa_mailbox_node_set_name w fcw.cdd.mbnode fcw.folder_name
  let w := balsa_mailbox_node_set_subscribed w fcw.cdd.mbnode fcw.subscribed
  let w := balsa_mailbox_node_set_list_inbox w fcw.cdd.mbnode fcw.list_inbox
  let w := libbalsa_server_set_host w s host
  let w := w.emit (.libbalsa_server_config_changed s)
  let w :=
    if insert then
      let w := w.emit (.balsa_mblist_mailbox_node_append fcw.cdd.mbnode)
      let w := w.emit (.balsa_mailbox_node_append_subtree fcw.cdd.mbnode)
      let w := w.emit (.config_folder_add fcw.cdd.mbnode)
      let w := w.emit (.connect_config_folder_update s fcw.cdd.mbnode)
      w.emit .update_mail_servers
    else
      let w := w.emit (.balsa_mailbox_node_rescan fcw.cdd.mbnode)
      w.emit (.balsa_mblist_mailbox_node_redraw fcw.cdd.mbnode)
  (true, fcw, w)

/-! ## validate_sub_folder and the Browse button callbacks -/

/-- The function `validate_sub_folder`. -/
def validate_sub_folder (w : World) (sdd : SubfolderDialogData) : SubfolderDialogData :=
  let mn := sdd.parent
  /- Allow typing in the parent_folder entry box only if we already
     have the server information in mn -/
  let have_server :=
    mn.isSome && LIBBALSA_IS_IMAP_SERVER w (balsa_mailbox_node_get_server w mn)
  let sdd := { sdd with parent_folder_editable := have_server }
  /- We'll allow a null parent name, although some IMAP servers will deny permission -/
  { sdd with cdd := set_ok_response_sensitive sdd.cdd
                      (have_server && sdd.folder_name != "") }

/-- Run a handler on the `FolderDialogData` stored at address `c`. -/
def World.on_folder (w : World) (c : DataId) (f : FolderDialogData → FolderDialogData) :
    World :=
  match w.cdds c with
  | some (.folder fcw) => { w with cdds := upd w.cdds c (some (.folder (f fcw))) }
  | _ => w

/-- Run a handler on the `SubfolderDialogData` stored at address `c`. -/
def World.on_subfolder (w : World) (c : DataId)
    (f : SubfolderDialogData → SubfolderDialogData) : World :=
  match w.cdds c with
  | some (.subfolder sdd) => { w with cdds := upd w.cdds c (some (.subfolder (f sdd))) }
  | _ => w

/-- The callback `browse_button_cb` for the subfolder dialog at `c`: a picker
dialog and its `BrowseButtonData` are made, the Browse button is desensitized
and the picker's OK response starts insensitive. -/
def browse_button_cb (c : DataId) (w : World) : World :=
  let dialog := w.next_dialog
  let w := { w with next_dialog := dialog + 1 }
  let w := w.emit (.gtk_dialog_new dialog (gettext "Select parent folder"))
  let b := w.next_bbd
  let bbd : BrowseButtonData :=
    { sdd := c, dialog := dialog, dialog_ok_sensitive := true, mbnode := none }
  let w := { w with bbds := upd w.bbds b (some bbd), next_bbd := b + 1 }
  /- To prevent multiple dialogs, desensitize the browse button. -/
  let w := w.on_subfolder c (fun sdd => { sdd with browse_button_sensitive := false })
  /- OK button is insensitive until some row is selected. -/
  { w with bbds := upd w.bbds b (some { bbd with dialog_ok_sensitive := false }) }

/-- The callback `browse_button_select_row_cb`; `selection` is the row node
that `gtk_tree_selection_get_selected` reports, if any. -/
def browse_button_select_row_cb (selection : Option NodeId) (b : BrowseId) (w : World) :
    World :=
  match w.bbds b with
  | none => w
  | some bbd =>
    let selected := selection.isSome
    let bbd := { bbd with dialog_ok_sensitive := selected }
    let bbd := if selected then { bbd with mbnode := selection } else bbd
    { w with bbds := upd w.bbds b (some bbd) }

/-- The callback `browse_button_response`. -/
def browse_button_response (response : Int) (b : BrowseId) (w : World) : World :=
  match w.bbds b with
  | none => w
  | some bbd =>
    let step : Option World :=
      if response = GTK_RESPONSE_OK then
        let mbnode := bbd.mbnode
        match mbnode with
        | none => none
        | some _ =>
          let w := w.on_subfolder bbd.sdd (fun sdd => { sdd with parent := mbnode })
          let dir := balsa_mailbox_node_get_dir w mbnode
          let w :=
            match dir with
            | some d => w.on_subfolder bbd.sdd (fun sdd => { sdd with parent_folder := d })
            | none => w
          let server := balsa_mailbox_node_get_server w mbnode
          match server with
          | some s =>
            /- gtk_label_set_label leaves the label alone when given NULL -/
            let host := (w.servers s).bind (fun sv => sv.host)
            some (w.on_subfolder bbd.sdd
                    (fun sdd => { sdd with host_label := host.getD sdd.host_label }))
          | none => some w
      else some w
    match step with
    | none => w
    | some w =>
      let w := w.on_subfolder bbd.sdd (validate_sub_folder w)
      let w := w.on_subfolder bbd.sdd (fun sdd => { sdd with browse_button_sensitive := true })
      let w := w.emit (.gtk_widget_destroy bbd.dialog)
      /- the weak reference on the picker frees bbd -/
      { w with bbds := upd w.bbds b none }

/-- The callback `browse_button_row_activated`: it emits the OK response on
the picker, which runs `browse_button_response`. -/
def browse_button_row_activated (b : BrowseId) (w : World) : World :=
  browse_button_response GTK_RESPONSE_OK b w

/-! ## subfolder_conf_clicked_ok -/

/-- The glib function `g_str_has_prefix (str, prefix)`. -/
def g_str_has_prefix (str pre : String) : Bool :=
  pre.data.isPrefixOf str.data

/-- What the C library prints for a `%s` argument that may be NULL. -/
def fmt_s (s : Option String) : String := s.getD "(null)"

/-- The loop of the "moved it sideways" branch: starting from `mb`, follow
parent links while the node has no mailbox and has a parent.  `none` means
the loop did not finish within `fuel` tests of its condition. -/
def sideways_walk (w : World) : Nat → Option NodeId → Option (Option NodeId)
  | 0, _ => none
  | fuel + 1, mb =>
    if (balsa_mailbox_node_get_mailbox w mb).isNone
        && (balsa_mailbox_node_get_parent w mb).isSome then
      sideways_walk w fuel (balsa_mailbox_node_get_parent w mb)
    else some mb

/-- The text of the rename-Inbox question. -/
def rename_inbox_msg (folder parent : String) : String :=
  "Renaming Inbox is special!\nYou will create a subfolder " ++ folder ++ " in " ++ parent
    ++ "\ncontaining the messages from Inbox.\nInbox and its subfolders will remain.\n"
    ++ "What would you like to do?"

/-- The part of `subfolder_conf_clicked_ok` that follows a successful rename:
the node's directory is set and as little of the tree as possible is rescanned. -/
def rescan_after_rename (env : Env) (fuel : Nat) (sdd : SubfolderDialogData)
    (parent : String) (w : World) : Option World :=
  let w := balsa_mailbox_node_set_dir w sdd.cdd.mbnode parent
  /- Rescan as little of the tree as possible. -/
  let up :=
    match sdd.old_parent with
    | some old_parent => ( g_str_has_prefix old_parent parent)
    | none => false
  let down :=
    match sdd.old_parent with
    | some old_parent => ( g_str_has_prefix parent old_parent)
    | none => false
  if up then
    /- moved it up the tree -/
    let mbnode := env.find_from_dir (balsa_mailbox_node_get_server w sdd.parent) parent
    match mbnode with
    | some _ => some (w.emit (.balsa_mailbox_node_rescan mbnode))
    | none => some (w.emit (.printf "Parent not found!?\n"))
  else if down then
    /- moved it down the tree -/
    let mbnode :=
      env.find_from_dir (balsa_mailbox_node_get_server w sdd.parent) (entry_text sdd.old_parent)
    match mbnode with
    | some _ => some (w.emit (.balsa_mailbox_node_rescan mbnode))
    | none => some w
  else
    /- moved it sideways: a chain of folders might go away, so we'd better
       rescan from higher up -/
    match sideways_walk w fuel (balsa_mailbox_node_get_parent w sdd.cdd.mbnode) with
    | none => none
    | some mb =>
      let w := w.emit (.balsa_mailbox_node_rescan mb)
      some (w.emit (.balsa_mailbox_node_rescan sdd.cdd.mbnode))

/-- The function `subfolder_conf_clicked_ok`; `none` means that the sideways
loop did not finish within `fuel`. -/
def subfolder_conf_clicked_ok (env : Env) (fuel : Nat) (sdd : SubfolderDialogData)
    (w : World) : Option (Bool × World) :=
  let parent := sdd.parent_folder
  let folder := sdd.folder_name
  let w :=
    if w.debug then
      w.emit (.g_print ("sdd->old_parent=" ++ fmt_s sdd.old_parent ++ "\nsdd->old_folder="
                          ++ fmt_s sdd.old_folder ++ "\n"))
    else w
  match sdd.cdd.mbnode with
  | some _ =>
    /- Views stuff. -/
    let mailbox := balsa_mailbox_node_get_mailbox w sdd.cdd.mbnode
    let w :=
      match mailbox with
      | some m => w.emit (.mailbox_conf_view_check sdd.mcv m.id)
      | none => w
    /- rename -/
    if g_strcmp0 (some parent) sdd.old_parent != 0
        || g_strcmp0 (some folder) sdd.old_folder != 0 then
      let button := GTK_RESPONSE_OK
      let (button, w) :=
        if g_strcmp0 sdd.old_folder (some "INBOX") == 0
            && (sdd.old_parent = none || sdd.old_parent = some "") then
          (env.rename_inbox_answer,
           w.emit (.gtk_dialog_run (gettext "Question") (rename_inbox_msg folder parent)))
        else (button, w)
      if button = GTK_RESPONSE_OK then
        /- Close the mailbox before renaming, otherwise the rescan will try
           to close it under its old name. -/
        let w := w.emit (.balsa_window_close_mbnode sdd.cdd.mbnode)
        let w := w.emit (.libbalsa_imap_rename_subfolder
                    ((balsa_mailbox_node_get_mailbox w sdd.cdd.mbnode).map (fun m => m.id))
                    parent folder (balsa_mailbox_node_get_subscribed w sdd.cdd.mbnode))
        match env.rename_result with
        | .fail err =>
          let w := w.emit (.balsa_information .LIBBALSA_INFORMATION_ERROR
                      (gettext "Folder rename failed. Reason: " ++ err.getD "unknown"))
          some (false, w)
        | .ok => (rescan_after_rename env fuel sdd parent w).map (fun w => (true, w))
      else some (true, w)
    else some (true, w)
  | none =>
    /- create and subscribe, if parent was. -/
    let w := w.emit (.libbalsa_imap_new_subfolder parent folder
                (balsa_mailbox_node_get_subscribed w sdd.parent)
                (balsa_mailbox_node_get_server w sdd.parent))
    match env.new_subfolder_result with
    | .ok =>
      /- see it as server sees it: -/
      some (true, w.emit (.balsa_mailbox_node_rescan sdd.parent))
    | .fail err =>
      let w := w.emit (.balsa_information .LIBBALSA_INFORMATION_ERROR
                  (gettext "Folder creation failed. Reason: " ++ err.getD "unknown"))
      some (false, w)

/-! ## Closing a dialog: folder_conf_destroy_cdd and folder_conf_response -/

/-- The statement `g_free(cdd)`. -/
def g_free_cdd (c : DataId) (w : World) : World :=
  { w with cdds := upd w.cdds c none }

/-- The assignment `cdd->mbnode = v`. -/
def set_mbnode (c : DataId) (v : Option NodeId) (w : World) : World :=
  match w.cdds c with
  | none => w
  | some d => { w with cdds := upd w.cdds c (some (d.set_cdd { d.cdd with mbnode := v })) }

/-- The statement `g_clear_pointer(&cdd->dialog, gtk_widget_destroy)`: the
member is cleared, the window is destroyed, the static creation slots that
hold a weak pointer on the window are cleared, and the pickers that were
opened from the window go away with it together with their data. -/
def destroy_dialog (c : DataId) (w : World) : World :=
  match w.cdds c with
  | none => w
  | some d =>
    match d.cdd.dialog with
    | none => w
    | some dlg =>
      let w := { w with cdds := upd w.cdds c (some (d.set_cdd { d.cdd with dialog := none })) }
      let w := w.emit (.gtk_widget_destroy dlg.id)
      let w := if dlg.weak_fcw_new then { w with fcw_new := none } else w
      let w := if dlg.weak_sdd_new then { w with sdd_new := none } else w
      { w with bbds := fun b =>
          match w.bbds b with
          | some bbd => if bbd.sdd = c then none else some bbd
          | none => none }

/-- The destroy notification `folder_conf_destroy_cdd`.  When the dialog is
still open, `gtk_dialog_response(.., GTK_RESPONSE_NONE)` re-enters
`folder_conf_response` with `cdd->mbnode == NULL`, whose `default:` arm
destroys the dialog and frees the record. -/
def folder_conf_destroy_cdd (c : DataId) (w : World) : World :=
  match w.cdds c with
  | none => w
  | some d =>
    if d.cdd.dialog.isSome then
      /- The mailbox node was destroyed. Close the dialog, but don't
         trigger further calls to folder_conf_destroy_cdd. -/
      let w := set_mbnode c none w
      g_free_cdd c (destroy_dialog c w)
    else g_free_cdd c w

/-- The call `g_object_set_data(mbnode, BALSA_FOLDER_CONF_IMAP_KEY, NULL)`:
the datum is cleared and the destroy notification of the old datum runs. -/
def g_object_set_data_null (mn : NodeId) (w : World) : World :=
  let old := get_conf_data w (some mn)
  let w := node_set w (some mn) (fun nd => { nd with conf_data := none })
  match old with
  | some c => folder_conf_destroy_cdd c w
  | none => w

/-- The call `cdd->ok(cdd)`, with the record written back to its address. -/
def cdd_ok (env : Env) (fuel : Nat) (c : DataId) (d : DialogData) (w : World) :
    Option (Bool × World) :=
  match d with
  | .folder fcw =>
    let (r, fcw, w) := folder_conf_clicked_ok env c fcw w
    some (r, { w with cdds := upd w.cdds c (some (.folder fcw)) })
  | .subfolder sdd => subfolder_conf_clicked_ok env fuel sdd w

/-- The `default:` arm of the switch in `folder_conf_response`. -/
def folder_conf_response_default (c : DataId) (w : World) : World :=
  let w := destroy_dialog c w
  match w.cdds c with
  | none => w
  | some d =>
    match d.cdd.mbnode with
    | some mbnode =>
      /- Clearing the data signifies that the dialog has been destroyed. It
         also triggers a call to folder_conf_destroy_cdd, which will free cdd -/
      g_object_set_data_null mbnode w
    | none =>
      /- Cancelling, without creating a mailbox node. Nobody owns the
         xDialogData, so we'll free it here. -/
      g_free_cdd c w

/-- The signal handler `folder_conf_response` for the record at address `c`;
`none` means that the `ok` handler did not finish within `fuel`. -/
def folder_conf_response (env : Env) (fuel : Nat) (response : Int) (c : DataId)
    (w : World) : Option World :=
  match w.cdds c with
  | none => some w
  | some d =>
    if response = GTK_RESPONSE_HELP then
      let w := w.emit (.gtk_show_uri_on_window "help:balsa/folder-config")
      let w :=
        match env.show_uri_error with
        | some message =>
          w.emit (.balsa_information .LIBBALSA_INFORMATION_WARNING
                    (gettext "Error displaying config help: " ++ message ++ "\n"))
        | none => w
      /- g_clear_object(&cdd->mbnode) -/
      some (set_mbnode c none w)
    else if response = GTK_RESPONSE_OK then
      match cdd_ok env fuel c d w with
      | none => none
      | some (false, w) => some w
      | some (true, w) =>
        /- ...or fall over -/
        some (folder_conf_response_default c w)
    else some (folder_conf_response_default c w)

/-! ## folder_conf_delete -/

/-- The text of the delete confirmation. -/
def delete_msg (name : Option String) : String :=
  "This will remove the folder “" ++ fmt_s name ++ "” from the list.\n"
    ++ "You may use “New IMAP Folder” later to add this folder again.\n"

/-- The function `folder_conf_delete`. -/
def folder_conf_delete (env : Env) (mbnode : Option NodeId) (w : World) : World :=
  if (balsa_mailbox_node_get_config_pfx w mbnode).isNone then
    w.emit (.balsa_information .LIBBALSA_INFORMATION_ERROR
      (gettext ("This folder is not stored in configuration. "
        ++ "I do not yet know how to remove it from remote server.")))
  else
    let w := w.emit (.gtk_dialog_run (gettext "Confirm")
                (gettext (delete_msg (balsa_mailbox_node_get_name w mbnode))))
    let response := env.delete_answer
    if response ≠ GTK_RESPONSE_OK then w
    else
      /- Delete it from the config file and internal nodes -/
      let w := w.emit (.config_folder_delete mbnode)
      /- Remove the node from balsa's mailbox list -/
      let w := w.emit (.balsa_mblist_mailbox_node_remove mbnode)
      w.emit .update_mail_servers

/-! ## Opening a dialog: folder_conf_imap_node and folder_conf_imap_sub_node -/

/-- Read a property of the server `s` through the server API; `dflt` is what
the getter yields for NULL. -/
def server_get {α : Type} (w : World) (s : Option ServerId) (f : LibBalsaServer → α)
    (dflt : α) : α :=
  match s.bind w.servers with
  | some sv => f sv
  | none => dflt

/-- The labels appended to the security selector, in order. -/
def security_labels : List String :=
  [gettext "IMAP over SSL (IMAPS)", gettext "TLS required",
   gettext "TLS if possible (not recommended)", gettext "None (not recommended)"]

/-- The GTK call `gtk_combo_box_set_active` on a selector with `items` rows
whose active index is `cur`: an index below -1 is rejected, an index past the
last row leaves no row active. -/
def gtk_combo_box_set_active (items : Nat) (cur index : Int) : Int :=
  if index < -1 then cur else if index < items then index else -1

/-- The value a spin button with range `lo .. hi` holds after being given `v`. -/
def spin_button_value (lo hi v : Int) : Int := max lo (min hi v)

/-- The dialog data that `folder_conf_imap_node` builds for `mn` before the
final call of `validate_folder`; `dialog` is the identity of the new window and
`bsc0` the state in which `balsa_server_conf_get_advanced_widget` leaves the
server form. -/
def folder_conf_imap_node_form (crypt : NetClientCryptMode) (env : Env)
    (bsc0 : BalsaServerConf) (dialog : Nat)
    (mn : Option NodeId) (w : World) : FolderDialogData :=
  let s := if mn.isSome then balsa_mailbox_node_get_server w mn else none
  { cdd :=
      { dialog := some
          { id := dialog, ok_sensitive := true, default_response := none,
            ok_label := if mn.isSome then gettext "_Update" else gettext "C_reate",
            weak_fcw_new := mn.isNone, weak_sdd_new := false },
        mbnode := mn },
    bsc :=
      { bsc0 with
        server := entry_text
          (if s.isSome then server_get w s (fun sv => sv.host) none
           else env.guess_imap_server),
        security := gtk_combo_box_set_active security_labels.length (-1)
          (if s.isSome then server_get w s (fun sv => sv.security) 0 - 1
           else crypt.NET_CLIENT_CRYPT_STARTTLS - 1) },
    /- Limit number of connections -/
    connection_limit := spin_button_value 1 40
      (if s.isSome then server_get w s (fun sv => sv.max_connections) 0 else 20),
    enable_persistent := s.isNone || server_get w s (fun sv => sv.persistent_cache) false,
    use_idle := s.isSome && server_get w s (fun sv => sv.use_idle) false,
    has_bugs := s.isSome && server_get w s (fun sv => sv.bug_fetch) false,
    use_status := s.isSome && server_get w s (fun sv => sv.use_status) false,
    folder_name := entry_text (if mn.isSome then balsa_mailbox_node_get_name w mn else none),
    username := entry_text
      (if s.isSome then server_get w s (fun sv => sv.username) none else some env.user_name),
    password := entry_text
      (if s.isSome then server_get w s (fun sv => sv.password) none else none),
    password_sensitive := true,
    anonymous := if s.isSome then server_get w s (fun sv => sv.try_anonymous) false else false,
    anonymous_sensitive := true,
    remember := if s.isSome then server_get w s (fun sv => sv.remember_passwd) false else true,
    subscribed := if mn.isSome then balsa_mailbox_node_get_subscribed w mn else false,
    list_inbox := if mn.isSome then balsa_mailbox_node_get_list_inbox w mn else true,
    pfx := entry_text (if mn.isSome then balsa_mailbox_node_get_dir w mn else none) }

/-- The function `folder_conf_imap_node`. -/
def folder_conf_imap_node (crypt : NetClientCryptMode) (env : Env) (bsc0 : BalsaServerConf)
    (mn : Option NodeId)
    (w : World) : World :=
  /- Allow only one dialog per mailbox node, and one with mn == NULL
     for creating a new folder. -/
  let fcw := if mn.isSome then get_conf_data w mn else w.fcw_new
  match fcw with
  | some c =>
    w.emit (.gtk_window_present (((w.cdds c).bind (fun d => d.cdd.dialog)).map (fun d => d.id)))
  | none =>
    let c := w.next_cdd
    let dialog := w.next_dialog
    let fcw := folder_conf_imap_node_form crypt env bsc0 dialog mn w
    let w := { w with next_cdd := c + 1, next_dialog := dialog + 1 }
    let w := w.emit (.gtk_dialog_new dialog (gettext "Remote IMAP folder"))
    let w :=
      match mn with
      | some _ => node_set w mn (fun nd => { nd with conf_data := some c })
      | none => { w with fcw_new := some c }
    let fcw := validate_folder crypt fcw
    let fcw :=
      { fcw with cdd := set_default_response fcw.cdd
                          (if mn.isSome then GTK_RESPONSE_OK else GTK_RESPONSE_CANCEL) }
    { w with cdds := upd w.cdds c (some (.folder fcw)) }

/-- The function `folder_conf_imap_sub_node`.  The permission and quota labels
that the update form shows are static text and are not part of the dialog data. -/
def folder_conf_imap_sub_node (mn : Option NodeId) (w : World) : World :=
  /- Allow only one dialog per mailbox node, and one with mn == NULL
     for creating a new subfolder. -/
  let sdd := if mn.isSome then get_conf_data w mn else w.sdd_new
  match sdd with
  | some c =>
    w.emit (.gtk_window_present (((w.cdds c).bind (fun d => d.cdd.dialog)).map (fun d => d.id)))
  | none =>
    let mailbox := balsa_mailbox_node_get_mailbox w mn
    if mn.isSome && mailbox.isNone then
      w.emit (.balsa_information .LIBBALSA_INFORMATION_ERROR
        (gettext ("An IMAP folder that is not a mailbox\n"
          ++ "has no properties that can be changed.")))
    else
      let c := w.next_cdd
      let dialog := w.next_dialog
      let parent := if mn.isSome then balsa_mailbox_node_get_parent w mn else none
      let old_folder := if mn.isSome then mailbox.bind (fun m => m.name) else none
      let old_parent :=
        if mn.isSome then balsa_mailbox_node_get_dir w (balsa_mailbox_node_get_parent w mn)
        else none
      let server := if mn.isSome then balsa_mailbox_node_get_server w mn else none
      let sdd : SubfolderDialogData :=
        { cdd :=
            { dialog := some
                { id := dialog, ok_sensitive := true,
                  /- Enter key => Create -/
                  default_response := some GTK_RESPONSE_OK,
                  ok_label := if mn.isSome then gettext "_Update" else gettext "_Create",
                  weak_fcw_new := false, weak_sdd_new := mn.isNone },
              mbnode := mn },
          mcv := none,
          parent_folder := entry_text old_parent,
          parent_folder_editable := false,
          folder_name := entry_text old_folder,
          host_label :=
            if server.isSome then entry_text (server_get w server (fun sv => sv.host) none)
            else "",
          old_folder := old_folder,
          old_parent := old_parent,
          parent := parent,
          browse_button_sensitive := true }
      let w := { w with next_cdd := c + 1, next_dialog := dialog + 1 }
      let w := w.emit (.gtk_dialog_new dialog (gettext "Remote IMAP subfolder"))
      let w :=
        match mn with
        | some _ => node_set w mn (fun nd => { nd with conf_data := some c })
        | none => { w with sdd_new := some c }
      let sdd :=
        if mn.isNone then validate_sub_folder w sdd
        else { sdd with mcv := mailbox.map (fun m => m.id) }
      let sdd := { sdd with cdd := set_ok_response_sensitive sdd.cdd false }
      { w with cdds := upd w.cdds c (some (.subfolder sdd)) }

/-- The callback `folder_conf_add_imap_cb`. -/
def folder_conf_add_imap_cb (crypt : NetClientCryptMode) (env : Env) (bsc0 : BalsaServerConf)
    (w : World) : World :=
  folder_conf_imap_node crypt env bsc0 none w

/-- The callback `folder_conf_add_imap_sub_cb`. -/
def folder_conf_add_imap_sub_cb (w : World) : World :=
  folder_conf_imap_sub_node none w

/-- The callback `folder_conf_edit_imap_cb`. -/
def folder_conf_edit_imap_cb (crypt : NetClientCryptMode) (env : Env)
    (bsc0 : BalsaServerConf) (data : Option NodeId)
    (w : World) : World :=
  folder_conf_imap_node crypt env bsc0 data w

/-- The callback `folder_conf_delete_cb`. -/
def folder_conf_delete_cb (env : Env) (data : Option NodeId) (w : World) : World :=
  folder_conf_delete env data w

/-! ## Example states -/

/-- A server form with nothing filled in. -/
def bsc_empty : BalsaServerConf :=
  { server := "", security := -1, need_client_cert := false,
    need_client_cert_sensitive := true, client_cert_file := none,
    client_cert_file_sensitive := true, client_cert_passwd_sensitive := true }

/-- A dialog window with identity 0. -/
def dialog_ex : GtkDialog :=
  { id := 0, ok_sensitive := true, default_response := none, ok_label := "_Update",
    weak_fcw_new := false, weak_sdd_new := false }

/-- A filled-in folder form for an existing node 0: TLS required, a client
certificate is demanded and a certificate file is chosen. -/
def fcw_ex : FolderDialogData :=
  { cdd := { dialog := some dialog_ex, mbnode := some 0 },
    bsc := { bsc_empty with server := "imap.example.org", security := 1,
                            need_client_cert := true,
                            client_cert_file := some "/home/u/cert.pem" },
    folder_name := "Work", username := "u", anonymous := false,
    anonymous_sensitive := true, remember := true, password := "secret",
    password_sensitive := true, subscribed := true, list_inbox := false, pfx := "INBOX.",
    connection_limit := 7, enable_persistent := true, use_idle := false,
    has_bugs := true, use_status := false }

/-- An IMAP server. -/
def server_ex : LibBalsaServer :=
  { is_imap := true, host := some "imap.example.org", username := some "u",
    password := none, security := 2, try_anonymous := false, remember_passwd := false,
    max_connections := 20, persistent_cache := true, use_idle := true, bug_fetch := false,
    use_status := false }

/-- A configured IMAP folder node on server 0. -/
def node_folder_ex : BalsaMailboxNode :=
  { name := some "Work", dir := some "", server := some 0, subscribed := false,
    list_inbox := true, parent := none, mailbox := none, config_pfx := some "folder-1",
    conf_data := none }

/-- A subfolder node below node 0, with a mailbox. -/
def node_sub_ex : BalsaMailboxNode :=
  { name := some "Sent", dir := some "INBOX/Sent", server := some 0, subscribed := true,
    list_inbox := false, parent := some 0, mailbox := some { id := 0, name := some "Sent" },
    config_pfx := none, conf_data := none }

/-- A world with server 0, folder node 0 and subfolder node 1, no dialog open. -/
def world_ex : World :=
  { servers := upd (fun _ => none) 0 (some server_ex),
    nodes := upd (upd (fun _ => none) 0 (some node_folder_ex)) 1 (some node_sub_ex),
    cdds := fun _ => none, bbds := fun _ => none,
    next_server := 1, next_node := 2, next_cdd := 0, next_bbd := 0, next_dialog := 0,
    fcw_new := none, sdd_new := none, debug := false, trace := [] }

/-- A numbering of the enumerators for the examples: the modes are counted
from 1 in the order of the rows of the security selector, so that TLS required
is 2 and no encryption is 4. -/
def crypt_ex : NetClientCryptMode :=
  { NET_CLIENT_CRYPT_STARTTLS := 2, NET_CLIENT_CRYPT_NONE := 4 }

/-- Collaborators that answer OK to every question and succeed in every request. -/
def env_ex : Env :=
  { new_server := { server_ex with host := none, username := none },
    show_uri_error := none, rename_inbox_answer := GTK_RESPONSE_OK,
    rename_result := .ok, new_subfolder_result := .ok,
    find_from_dir := fun _ _ => none, delete_answer := GTK_RESPONSE_OK,
    guess_imap_server := some "imap", user_name := "u" }

/-- The example form as filled in for a new folder (no node yet). -/
def fcw_create_ex : FolderDialogData :=
  { fcw_ex with cdd := { dialog := some dialog_ex, mbnode := none } }

/-- A subfolder form whose parent is node 0 and whose folder name is typed in. -/
def sdd_ex : SubfolderDialogData :=
  { cdd := { dialog := some dialog_ex, mbnode := none }, mcv := none,
    parent_folder := "", parent_folder_editable := false, folder_name := "Drafts",
    host_label := "imap.example.org", old_folder := none, old_parent := none,
    parent := some 0, browse_button_sensitive := true }

/-! ## Classification of trace entries -/

/-- Calls of `libbalsa_server_config_changed`. -/
def Event.is_config_changed : Event → Bool
  | .libbalsa_server_config_changed _ => true
  | _ => false

/-- Calls of `balsa_mailbox_node_rescan`. -/
def Event.is_rescan : Event → Bool
  | .balsa_mailbox_node_rescan _ => true
  | _ => false

/-- Calls of `balsa_mailbox_node_append_subtree`. -/
def Event.is_append_subtree : Event → Bool
  | .balsa_mailbox_node_append_subtree _ => true
  | _ => false

/-- Calls of `balsa_information`. -/
def Event.is_information : Event → Bool
  | .balsa_information _ _ => true
  | _ => false

/-- Calls of `libbalsa_imap_rename_subfolder`. -/
def Event.is_rename : Event → Bool
  | .libbalsa_imap_rename_subfolder _ _ _ _ => true
  | _ => false

/-- Calls of `libbalsa_imap_new_subfolder`. -/
def Event.is_new_subfolder : Event → Bool
  | .libbalsa_imap_new_subfolder _ _ _ _ => true
  | _ => false

/-- Calls that create an object or insert a node: `libbalsa_imap_server_new`,
`balsa_mailbox_node_new_imap_folder`, `balsa_mblist_mailbox_node_append`,
`config_folder_add`. -/
def Event.is_creation : Event → Bool
  | .libbalsa_imap_server_new _ _ _ => true
  | .balsa_mailbox_node_new_imap_folder _ _ => true
  | .balsa_mblist_mailbox_node_append _ => true
  | .config_folder_add _ => true
  | _ => false

/-- Calls that remove a folder: `config_folder_delete`,
`balsa_mblist_mailbox_node_remove`, `update_mail_servers`. -/
def Event.is_removal : Event → Bool
  | .config_folder_delete _ => true
  | .balsa_mblist_mailbox_node_remove _ => true
  | .update_mail_servers => true
  | _ => false

/-- The trace entries of `folder_conf_clicked_ok` when it creates a folder on
the new server `s` with the new node `n`. -/
def create_events (s : ServerId) (n : NodeId) (username host : String) : List Event :=
  [.libbalsa_imap_server_new s username host,
   .libbalsa_server_connect_get_password s,
   .balsa_mailbox_node_new_imap_folder n (some s),
   .libbalsa_server_config_changed (some s),
   .balsa_mblist_mailbox_node_append (some n),
   .balsa_mailbox_node_append_subtree (some n),
   .config_folder_add (some n),
   .connect_config_folder_update (some s) (some n),
   .update_mail_servers]

/-- The trace entries of `folder_conf_clicked_ok` when it updates node `n`
whose server is `s`. -/
def update_events (s : Option ServerId) (mn : Option NodeId) : List Event :=
  [.libbalsa_server_config_changed s,
   .balsa_mailbox_node_rescan mn,
   .balsa_mblist_mailbox_node_redraw mn]

/-- The server fields and the node fields (name, dir, subscribed, list-inbox)
of `w1` are those of `w`. -/
def frame_eq (w w1 : World) : Prop :=
  w1.servers = w.servers ∧
  ∀ n, (w1.nodes n).map (fun nd => (nd.name, nd.dir, nd.subscribed, nd.list_inbox))
     = (w.nodes n).map (fun nd => (nd.name, nd.dir, nd.subscribed, nd.list_inbox))

/-- Calls of `gtk_dialog_run`. -/
def Event.is_dialog_run : Event → Bool
  | .gtk_dialog_run _ _ => true
  | _ => false

/-- The debug output at the start of `subfolder_conf_clicked_ok`. -/
def debug_events (sdd : SubfolderDialogData) (w : World) : List Event :=
  if w.debug then
    [.g_print ("sdd->old_parent=" ++ fmt_s sdd.old_parent ++ "\nsdd->old_folder="
                ++ fmt_s sdd.old_folder ++ "\n")]
  else []

/-- The view check that `subfolder_conf_clicked_ok` makes for a node with a mailbox. -/
def view_events (sdd : SubfolderDialogData) (w : World) : List Event :=
  match balsa_mailbox_node_get_mailbox w sdd.cdd.mbnode with
  | some m => [.mailbox_conf_view_check sdd.mcv m.id]
  | none => []

/-- The rename-Inbox question, asked when the old name is INBOX at top level. -/
def question_events (sdd : SubfolderDialogData) : List Event :=
  if g_strcmp0 sdd.old_folder (some "INBOX") == 0
      && (sdd.old_parent = none || sdd.old_parent = some "") then
    [.gtk_dialog_run (gettext "Question") (rename_inbox_msg sdd.folder_name sdd.parent_folder)]
  else []

/-- Collaborators whose rename and create requests fail. -/
def env_fail_ex : Env :=
  { env_ex with rename_result := .fail none, new_subfolder_result := .fail (some "denied") }

/-- The form of the subfolder dialog for node 1 after the name was changed
from Sent to Sent2. -/
def sdd_rename_ex : SubfolderDialogData :=
  { cdd := { dialog := some dialog_ex, mbnode := some 1 }, mcv := some 0,
    parent_folder := "", parent_folder_editable := true, folder_name := "Sent2",
    host_label := "imap.example.org", old_folder := some "Sent", old_parent := some "",
    parent := some 0, browse_button_sensitive := true }

/-- The example world after the folder dialog for node 0 was opened: its data
record is stored at address 0. -/
def world_open_ex : World :=
  folder_conf_imap_node crypt_ex env_ex bsc_empty (some 0) world_ex

/-! ## Dialog bookkeeping: reachable worlds and their invariant -/

/-- What the bookkeeping of open dialogs reads from a dialog data record: its
kind, its node, and of its window the identity and the two weak-pointer flags. -/
structure DialogKey where
  is_folder : Bool
  mbnode : Option NodeId
  dialog : Option (Nat × Bool × Bool)
  deriving DecidableEq, Repr

/-- The bookkeeping view of a dialog data record. -/
def DialogData.key (d : DialogData) : DialogKey :=
  { is_folder := match d with
      | .folder _ => true
      | .subfolder _ => false,
    mbnode := d.cdd.mbnode,
    dialog := d.cdd.dialog.map (fun g => (g.id, g.weak_fcw_new, g.weak_sdd_new)) }

/-- The bookkeeping view of the dialog data heap. -/
def World.keys (w : World) : DataId → Option DialogKey :=
  fun c => (w.cdds c).map DialogData.key

/-- For every node, the datum registered under `BALSA_FOLDER_CONF_IMAP_KEY`. -/
def World.regs (w : World) : NodeId → Option (Option DataId) :=
  fun n => (w.nodes n).map (fun nd => nd.conf_data)

/-- A world in which no dialog is open: no dialog data exists, both static
creation slots are NULL, no node carries a datum, and node addresses from
`next_node` on are unused. -/
def World.no_dialogs (w : World) : Prop :=
  (∀ c, w.cdds c = none) ∧ w.fcw_new = none ∧ w.sdd_new = none ∧
  (∀ n nd, w.nodes n = some nd → nd.conf_data = none ∧ n < w.next_node)

/-- The finalization of node `n` by the mailbox tree: the destroy notification
of the datum stored on the node, `folder_conf_destroy_cdd`, runs and the node
is gone. -/
def node_finalize (n : NodeId) (w : World) : World :=
  let w :=
    match get_conf_data w (some n) with
    | some c => folder_conf_destroy_cdd c w
    | none => w
  { w with nodes := upd w.nodes n none }

/-- The worlds reached from a world without dialogs by opening dialogs
(for no node or for an existing node), by OK, Cancel and close responses
delivered to dialog data records, by the finalization of nodes, and by edits
of the forms that leave the record's node and window alone. -/
inductive Reachable : World → Prop where
  | init (w : World) : w.no_dialogs → Reachable w
  | open_folder (crypt : NetClientCryptMode) (env : Env) (bsc0 : BalsaServerConf)
      (mn : Option NodeId) (w : World) :
      Reachable w → (∀ n, mn = some n → w.nodes n ≠ none) →
      Reachable (folder_conf_imap_node crypt env bsc0 mn w)
  | open_subfolder (mn : Option NodeId) (w : World) :
      Reachable w → (∀ n, mn = some n → w.nodes n ≠ none) →
      Reachable (folder_conf_imap_sub_node mn w)
  | response (env : Env) (fuel : Nat) (r : Int) (c : DataId) (w w1 : World) :
      Reachable w → r ≠ GTK_RESPONSE_HELP →
      folder_conf_response env fuel r c w = some w1 → Reachable w1
  | finalize (n : NodeId) (w : World) : Reachable w → Reachable (node_finalize n w)
  | edit_folder (c : DataId) (f : FolderDialogData → FolderDialogData) (w : World) :
      Reachable w → (∀ x, (DialogData.folder (f x)).key = (DialogData.folder x).key) →
      Reachable (w.on_folder c f)
  | edit_subfolder (c : DataId) (f : SubfolderDialogData → SubfolderDialogData) (w : World) :
      Reachable w → (∀ x, (DialogData.subfolder (f x)).key = (DialogData.subfolder x).key) →
      Reachable (w.on_subfolder c f)

/-- The bookkeeping invariant: dialog data addresses and node addresses are
allocated below the counters; a datum registered on a node is a live record
for that node; every live record has an open window and is either the datum
registered on its node or, when it has no node, the content of the static
creation slot of its kind (with exactly that slot's weak pointer on the
window); and each static slot holds a live record of its kind without node. -/
structure Inv (w : World) : Prop where
  cdd_fresh : ∀ c, w.next_cdd ≤ c → w.keys c = none
  node_fresh : ∀ n, w.next_node ≤ n → w.regs n = none
  registered : ∀ n c, w.regs n = some (some c) → ∃ k, w.keys c = some k ∧ k.mbnode = some n
  live : ∀ c k, w.keys c = some k → ∃ id wf ws, k.dialog = some (id, wf, ws) ∧
    (match k.mbnode with
     | some n => w.regs n = some (some c) ∧ wf = false ∧ ws = false
     | none =>
       if k.is_folder then w.fcw_new = some c ∧ wf = true ∧ ws = false
       else w.sdd_new = some c ∧ wf = false ∧ ws = true)
  fcw_new_ok : ∀ c, w.fcw_new = some c →
    ∃ k, w.keys c = some k ∧ k.is_folder = true ∧ k.mbnode = none
  sdd_new_ok : ∀ c, w.sdd_new = some c →
    ∃ k, w.keys c = some k ∧ k.is_folder = false ∧ k.mbnode = none

/-- The bookkeeping fields of two worlds agree. -/
def same_view (w w1 : World) : Prop :=
  w1.cdds = w.cdds ∧ w1.regs = w.regs ∧ w1.fcw_new = w.fcw_new ∧ w1.sdd_new = w.sdd_new ∧
  w1.next_cdd = w.next_cdd ∧ w1.next_node = w.next_node

/-! ## The parent-folder picker: folder_selection_func -/

/-- The function `folder_selection_func`; `row` is the node stored in the
row of the tree model that `path` points to. -/
def folder_selection_func (sdd : SubfolderDialogData) (row : Option NodeId) (w : World) : Bool :=
  let mbnode := row
  let server := balsa_mailbox_node_get_server w mbnode
  let retval :=
    LIBBALSA_IS_IMAP_SERVER w server
      && (sdd.cdd.mbnode = none
          || balsa_mailbox_node_get_server w sdd.cdd.mbnode = server)
  retval

/-! ## The rescan after a rename, in the words of the specification -/

/-- The three ways a renamed folder can have moved. -/
inductive RescanStrategy where
  | up
  | down
  | sideways
  deriving DecidableEq, Repr

/-- The strategy as the specification words it: up when the old parent is
set and starts with the new parent string; otherwise down when the old parent
is set and the new parent starts with it; otherwise sideways. -/
def rescan_strategy (old_parent : Option String) (parent : String) : RescanStrategy :=
  match old_parent with
  | none => .sideways
  | some old =>
    if ( g_str_has_prefix old parent) then .up
    else if ( g_str_has_prefix parent old) then .down
    else .sideways

/-- The node reached from `mb` by following `k` parent links. -/
def parent_iter (w : World) : Nat → Option NodeId → Option NodeId
  | 0, mb => mb
  | k + 1, mb => parent_iter w k (balsa_mailbox_node_get_parent w mb)

/-- The components of a path: the pieces between occurrences of the
hierarchy delimiter. -/
def split_path (delim : Char) : List Char → List (List Char)
  | [] => [[]]
  | c :: cs =>
    if c = delim then [] :: split_path delim cs
    else
      match split_path delim cs with
      | [] => [[c]]
      | p :: ps => (c :: p) :: ps

/-- The component sequence of a path string. -/
def path_components (delim : Char) (path : String) : List (List Char) :=
  split_path delim path.data

/-! ## The permission and quota labels of folder_conf_imap_sub_node -/

/-- The static array `std_acls`: rights strings at even indices, their
display names at odd indices, a NULL key before the last name. -/
def std_acls : List (Option String) :=
  [some "lrs", some "read-only",
   some "lrswipkxte", some "read-write",
   some "lrswipkxtea", some "admin",
   some "lrsp", some "post",
   some "lrsip", some "append",
   some "lrxte", some "delete",
   none, some "special"]

/-- How a search through `std_acls` ends: the loop stops at index `n`, or it
reads the array at an index `n` that lies outside the array, or the search
did not finish within the fuel. -/
inductive AclSearch where
  | found (n : Nat)
  | out_of_bounds (n : Nat)
  | out_of_fuel
  deriving DecidableEq, Repr

/-- The loop `for (n = 0; g_strcmp0(std_acls[n], rights) != 0; n += 2);`
started at index `n`. -/
def std_acls_search (rights : Option String) : Nat → Nat → AclSearch
  | 0, _ => .out_of_fuel
  | fuel + 1, n =>
    match std_acls.get? n with
    | none => .out_of_bounds n
    | some entry =>
      if g_strcmp0 entry rights != 0 then std_acls_search rights fuel (n + 2)
      else .found n

/-- A number of loop tests that covers every even index of the 14 entries of
`std_acls` and the first index behind them. -/
def std_acls_fuel : Nat := 8

/-- The entry `std_acls[n]` as text, for an index inside the array. -/
def std_acls_text (n : Nat) : String :=
  match std_acls.get? n with
  | some (some s) => s
  | _ => ""

/-- The text appended for one rights string: the paired name when the search
stopped at a non-NULL key, the last name followed by the rights in
parentheses when it stopped at the NULL key; `none` when the search left the
array. -/
def rights_name (rights : String) : Option String :=
  match std_acls_search (some rights) std_acls_fuel 0 with
  | .found n =>
    match std_acls.get? n with
    | some (some _) => some (std_acls_text (n + 1))
    | _ => some (std_acls_text (n + 1) ++ " (" ++ rights ++ ")")
  | _ => none

/-- The lines appended for the pairs of the ACL list, in order; `none` when
a search left the array. -/
def acl_lines : List (String × String) → Option String
  | [] => some ""
  | (uid, rights) :: rest =>
    match rights_name rights, acl_lines rest with
    | some name, some more => some ("\nuid '" ++ uid ++ "': " ++ name ++ more)
    | _, _ => none

/-- What the update form reads from the mailbox of the node: the read-only
flag, whether the mailbox is connected, the answer of
`libbalsa_imap_get_rights`, the answer of `libbalsa_imap_get_acls` as
(uid, rights) pairs, and the answer of `libbalsa_imap_get_quota` as
(max, used), `none` when the query fails. -/
structure ImapMailboxInfo where
  readonly : Bool
  connected : Bool
  rights : Option String
  acls : Option (List (String × String))
  quota : Option (Nat × Nat)

/-- The text of the permissions label built by `folder_conf_imap_sub_node`;
`none` when a search through `std_acls` left the array. -/
def permissions_text (m : ImapMailboxInfo) : Option String :=
  /- mailbox closed: no detailed permissions available -/
  if !m.connected then
    some (std_acls_text (if m.readonly then 1 else 3)
      ++ gettext "\ndetailed permissions are available only for open folders")
  else
    match m.rights with
    | none =>
      some (std_acls_text (if m.readonly then 1 else 3)
        ++ gettext "\nthe server does not support ACLs")
    | some rights =>
      /- my rights -/
      match rights_name rights with
      | none => none
      | some name =>
        let rights_str := gettext "mine: " ++ name
        /- acl's - only available if I have admin privileges -/
        match m.acls with
        | some acls => (acl_lines acls).map (fun lines => rights_str ++ lines)
        | none => some rights_str

/-! ### The percentage: the C arithmetic of `100.0 * (float) used / (float) max`

The operands are unsigned 64-bit counts, so every value that occurs lies far
inside the exponent range of both floating-point types; what is represented
is the rounding of the significand, to nearest with ties to even. -/

/-- The number of binary digits of `n`, counted with `fuel` halvings. -/
def bit_length_aux : Nat → Nat → Nat
  | 0, _ => 0
  | fuel + 1, n => if n = 0 then 0 else bit_length_aux fuel (n / 2) + 1

/-- The number of binary digits of `n` (0 for 0). -/
def bit_length (n : Nat) : Nat := bit_length_aux n n

/-- The integer nearest to `a / b`, the even one of two nearest (`b` not 0). -/
def round_div (a b : Nat) : Nat :=
  let q := a / b
  let r := a % b
  if b < 2 * r ∨ (2 * r = b ∧ q % 2 = 1) then q + 1 else q

/-- The number with a significand of at most `p` bits nearest to the
integer `n`, ties to even. -/
def round_to_bits (p n : Nat) : Nat :=
  let k := bit_length n - p
  round_div n (2 ^ k) * 2 ^ k

/-- The conversion `(float) n` of an unsigned long: single precision has a
significand of 24 bits. -/
def c_float_of_ulong (n : Nat) : Nat := round_to_bits 24 n

/-- A value of type `double` that is not negative: the finite number
`num / den` with `den` a power of two, infinity, or not a number. -/
inductive CDouble where
  | finite (num den : Nat)
  | inf
  | nan
  deriving DecidableEq, Repr

/-- The product `x * y` of two integers in double precision: a significand of
53 bits. -/
def c_double_mul (x y : Nat) : Nat := round_to_bits 53 (x * y)

/-- The quotient `a / b` of two integers in double precision.  Division of a
number other than 0 by 0 gives infinity, 0 by 0 is not a number; otherwise the
quotient is scaled by a power of two so that it has 53 bits before the point,
and rounded. -/
def c_double_div (a b : Nat) : CDouble :=
  if b = 0 then (if a = 0 then .nan else .inf)
  else if a = 0 then .finite 0 1
  else
    let la := bit_length a
    let lb := bit_length b
    let e := if b * 2 ^ (la - lb) ≤ a * 2 ^ (lb - la) then 52 + lb else 53 + lb
    let m := round_div (a * 2 ^ (e - la)) (b * 2 ^ (la - e))
    .finite (m * 2 ^ (la - e)) (2 ^ (e - la))

/-- What the C library prints for `%.1f`: the decimal number with one digit
after the point nearest to the value, ties to even.  For a value that is not a
number the text is the one printed for the result of the x86 division 0 / 0;
the quota label never prints it, since 0 of 0 is the no-limits case. -/
def printf_1f : CDouble → String
  | .finite num den =>
    let k := round_div (10 * num) den
    toString (k / 10) ++ "." ++ toString (k % 10)
  | .inf => "inf"
  | .nan => "-nan"

/-- The value of the expression `100.0 * (float) used / (float) max`. -/
def quota_percent (used max : Nat) : CDouble :=
  c_double_div (c_double_mul 100 (c_float_of_ulong used)) (c_float_of_ulong max)

/-- The text of the quota label built by `folder_conf_imap_sub_node`.  The
function `libbalsa_size_to_gchar` is not part of the source at hand and is an
argument. -/
def quota_text (libbalsa_size_to_gchar : Nat → String) (m : ImapMailboxInfo) : String :=
  /- mailbox closed: no quota available -/
  if !m.connected then gettext "quota information available only for open folders"
  else
    match m.quota with
    | none => gettext "the server does not support quotas"
    | some (max, used) =>
      if max = 0 ∧ used = 0 then gettext "no limits"
      else
        let use_str := libbalsa_size_to_gchar (used * 1024 % 2 ^ 64)
        let max_str := libbalsa_size_to_gchar (max * 1024 % 2 ^ 64)
        use_str ++ " of " ++ max_str ++ " (" ++ printf_1f (quota_percent used max)
          ++ "%) used"

/-- Calls of `balsa_window_close_mbnode`. -/
def Event.is_close_mbnode : Event → Bool
  | .balsa_window_close_mbnode _ => true
  | _ => false

/-- Calls of `printf`. -/
def Event.is_printf : Event → Bool
  | .printf _ => true
  | _ => false

/-- Collaborators whose user declines the rename-Inbox question. -/
def env_decline_ex : Env :=
  { env_ex with rename_inbox_answer := GTK_RESPONSE_CANCEL }

/-- The form of the subfolder dialog for node 1, taken to be the top-level
Inbox, after the name was changed to Archive. -/
def sdd_inbox_ex : SubfolderDialogData :=
  { cdd := { dialog := some dialog_ex, mbnode := some 1 }, mcv := some 0,
    parent_folder := "", parent_folder_editable := true, folder_name := "Archive",
    host_label := "imap.example.org", old_folder := some "INBOX", old_parent := some "",
    parent := some 0, browse_button_sensitive := true }

/-- A world with a longer chain: node 2 lies below node 3, a folder without a
mailbox, which lies below node 1 of the example world. -/
def world_chain_ex : World :=
  { world_ex with
    nodes := upd (upd world_ex.nodes 2
        (some { node_sub_ex with name := some "Old", dir := some "Work", parent := some 3,
                                 mailbox := some { id := 1, name := some "Old" } }))
      3 (some { node_sub_ex with name := some "Mid", dir := some "INBOX/Sent/Mid",
                                 parent := some 1, mailbox := none }),
    next_node := 4 }

/-- The form of the subfolder dialog for node 2 after its parent path was
changed from Work to Home. -/
def sdd_move_ex : SubfolderDialogData :=
  { cdd := { dialog := some dialog_ex, mbnode := some 2 }, mcv := some 0,
    parent_folder := "Home", parent_folder_editable := true, folder_name := "Old",
    host_label := "imap.example.org", old_folder := some "Old", old_parent := some "Work",
    parent := some 0, browse_button_sensitive := true }

/-- The form of the subfolder dialog for node 2 after its parent path was
changed from INBOX/Work2 to INBOX/Work, a sibling folder. -/
def sdd_sibling_ex : SubfolderDialogData :=
  { sdd_move_ex with old_parent := some "INBOX/Work2", parent_folder := "INBOX/Work" }

/-- Collaborators as in the example, where the tree has node 3 for the
directory INBOX/Work and node 1 for the directory INBOX/Work2. -/
def env_find_ex : Env :=
  { env_ex with
    find_from_dir := fun _ dir =>
      if dir = "INBOX/Work" then some 3 else if dir = "INBOX/Work2" then some 1 else none }

/-- The table of the specification: the six standard rights strings, each
with the name that is displayed for it. -/
def standard_rights : List (String × String) :=
  [("lrs", "read-only"), ("lrswipkxte", "read-write"), ("lrswipkxtea", "admin"),
   ("lrsp", "post"), ("lrsip", "append"), ("lrxte", "delete")]

/-- The name the specification pairs with a rights string, if it is standard. -/
def standard_name (rights : String) : Option String :=
  (standard_rights.find? (fun p => p.1 = rights)).map (fun p => p.2)

/-- A connected mailbox that reports the rights lrsip for the user and an
ACL list with a read-only and an admin user. -/
def mailbox_info_ex : ImapMailboxInfo :=
  { readonly := false, connected := true, rights := some "lrsip",
    acls := some [("anna", "lrs"), ("root", "lrswipkxtea")], quota := some (2048, 512) }

/-- A connected mailbox that reports the rights lr, which are not in the table. -/
def mailbox_info_special_ex : ImapMailboxInfo :=
  { readonly := false, connected := true, rights := some "lr", acls := none, quota := none }

/-- A stand-in for `libbalsa_size_to_gchar` in the examples: the number of
bytes in decimal. -/
def size_bytes_ex (n : Nat) : String := toString n ++ " bytes"

/-- A connected mailbox whose quota query reports 5 KB used and the limit 0. -/
def mailbox_info_zero_max_ex : ImapMailboxInfo :=
  { mailbox_info_ex with quota := some (0, 5) }

/-! # Theorems -/

/-! ## Frame lemmas for the setters -/

@[simp] theorem emit_trace (w : World) (e : Event) : (w.emit e).trace = w.trace ++ [e] := rfl
@[simp] theorem emit_servers (w : World) (e : Event) : (w.emit e).servers = w.servers := rfl
@[simp] theorem emit_nodes (w : World) (e : Event) : (w.emit e).nodes = w.nodes := rfl
@[simp] theorem emit_cdds (w : World) (e : Event) : (w.emit e).cdds = w.cdds := rfl
@[simp] theorem emit_bbds (w : World) (e : Event) : (w.emit e).bbds = w.bbds := rfl
@[simp] theorem emit_next_server (w : World) (e : Event) :
    (w.emit e).next_server = w.next_server := rfl
@[simp] theorem emit_next_node (w : World) (e : Event) :
    (w.emit e).next_node = w.next_node := rfl
@[simp] theorem emit_next_cdd (w : World) (e : Event) : (w.emit e).next_cdd = w.next_cdd := rfl
@[simp] theorem emit_next_dialog (w : World) (e : Event) :
    (w.emit e).next_dialog = w.next_dialog := rfl
@[simp] theorem emit_fcw_new (w : World) (e : Event) : (w.emit e).fcw_new = w.fcw_new := rfl
@[simp] theorem emit_sdd_new (w : World) (e : Event) : (w.emit e).sdd_new = w.sdd_new := rfl
@[simp] theorem emit_debug (w : World) (e : Event) : (w.emit e).debug = w.debug := rfl

theorem server_set_eq (w : World) (s : Option ServerId) (f : LibBalsaServer → LibBalsaServer) :
    server_set w s f = { w with servers := (server_set w s f).servers } := by
  unfold server_set
  split
  · rfl
  · split <;> rfl

theorem node_set_eq (w : World) (mn : Option NodeId) (f : BalsaMailboxNode → BalsaMailboxNode) :
    node_set w mn f = { w with nodes := (node_set w mn f).nodes } := by
  unfold node_set
  split
  · rfl
  · split <;> rfl

@[simp] theorem server_set_trace (w : World) (s : Option ServerId)
    (f : LibBalsaServer → LibBalsaServer) : (server_set w s f).trace = w.trace := by
  rw [server_set_eq]
@[simp] theorem server_set_nodes (w : World) (s : Option ServerId)
    (f : LibBalsaServer → LibBalsaServer) : (server_set w s f).nodes = w.nodes := by
  rw [server_set_eq]
@[simp] theorem server_set_cdds (w : World) (s : Option ServerId)
    (f : LibBalsaServer → LibBalsaServer) : (server_set w s f).cdds = w.cdds := by
  rw [server_set_eq]
@[simp] theorem server_set_next_server (w : World) (s : Option ServerId)
    (f : LibBalsaServer → LibBalsaServer) :
    (server_set w s f).next_server = w.next_server := by
  rw [server_set_eq]
@[simp] theorem server_set_next_node (w : World) (s : Option ServerId)
    (f : LibBalsaServer → LibBalsaServer) : (server_set w s f).next_node = w.next_node := by
  rw [server_set_eq]
@[simp] theorem server_set_fcw_new (w : World) (s : Option ServerId)
    (f : LibBalsaServer → LibBalsaServer) : (server_set w s f).fcw_new = w.fcw_new := by
  rw [server_set_eq]
@[simp] theorem server_set_sdd_new (w : World) (s : Option ServerId)
    (f : LibBalsaServer → LibBalsaServer) : (server_set w s f).sdd_new = w.sdd_new := by
  rw [server_set_eq]

@[simp] theorem node_set_trace (w : World) (mn : Option NodeId)
    (f : BalsaMailboxNode → BalsaMailboxNode) : (node_set w mn f).trace = w.trace := by
  rw [node_set_eq]
@[simp] theorem node_set_servers (w : World) (mn : Option NodeId)
    (f : BalsaMailboxNode → BalsaMailboxNode) : (node_set w mn f).servers = w.servers := by
  rw [node_set_eq]
@[simp] theorem node_set_cdds (w : World) (mn : Option NodeId)
    (f : BalsaMailboxNode → BalsaMailboxNode) : (node_set w mn f).cdds = w.cdds := by
  rw [node_set_eq]
@[simp] theorem node_set_bbds (w : World) (mn : Option NodeId)
    (f : BalsaMailboxNode → BalsaMailboxNode) : (node_set w mn f).bbds = w.bbds := by
  rw [node_set_eq]
@[simp] theorem node_set_next_server (w : World) (mn : Option NodeId)
    (f : BalsaMailboxNode → BalsaMailboxNode) :
    (node_set w mn f).next_server = w.next_server := by
  rw [node_set_eq]
@[simp] theorem node_set_next_node (w : World) (mn : Option NodeId)
    (f : BalsaMailboxNode → BalsaMailboxNode) : (node_set w mn f).next_node = w.next_node := by
  rw [node_set_eq]
@[simp] theorem node_set_next_cdd (w : World) (mn : Option NodeId)
    (f : BalsaMailboxNode → BalsaMailboxNode) : (node_set w mn f).next_cdd = w.next_cdd := by
  rw [node_set_eq]
@[simp] theorem node_set_next_dialog (w : World) (mn : Option NodeId)
    (f : BalsaMailboxNode → BalsaMailboxNode) :
    (node_set w mn f).next_dialog = w.next_dialog := by
  rw [node_set_eq]
@[simp] theorem node_set_fcw_new (w : World) (mn : Option NodeId)
    (f : BalsaMailboxNode → BalsaMailboxNode) : (node_set w mn f).fcw_new = w.fcw_new := by
  rw [node_set_eq]
@[simp] theorem node_set_sdd_new (w : World) (mn : Option NodeId)
    (f : BalsaMailboxNode → BalsaMailboxNode) : (node_set w mn f).sdd_new = w.sdd_new := by
  rw [node_set_eq]

theorem server_set_other (w : World) (s : Option ServerId) (f : LibBalsaServer → LibBalsaServer)
    (i : ServerId) (h : s ≠ some i) : (server_set w s f).servers i = w.servers i := by
  unfold server_set
  split
  · rfl
  · rename_i k
    split
    · rfl
    · have hik : i ≠ k := fun e => h (by rw [e])
      simp [upd, hik]

theorem node_set_other (w : World) (mn : Option NodeId) (f : BalsaMailboxNode → BalsaMailboxNode)
    (j : NodeId) (h : mn ≠ some j) : (node_set w mn f).nodes j = w.nodes j := by
  unfold node_set
  split
  · rfl
  · rename_i k
    split
    · rfl
    · have hjk : j ≠ k := fun e => h (by rw [e])
      simp [upd, hjk]

/-- Every setter leaves a node in place and can only change the fields `f` changes. -/
theorem node_set_get (w : World) (mn : Option NodeId) (f : BalsaMailboxNode → BalsaMailboxNode)
    (j : NodeId) :
    (node_set w mn f).nodes j = if mn = some j then (w.nodes j).map f else w.nodes j := by
  unfold node_set
  split
  · simp
  · rename_i k
    split
    · rename_i hk
      by_cases hjk : k = j
      · subst hjk; simp [hk]
      · simp [hjk]
    · rename_i nd hk
      by_cases hjk : k = j
      · subst hjk; simp [upd, hk]
      · have : j ≠ k := fun e => hjk e.symm
        simp [upd, hjk, this]

theorem server_set_get (w : World) (s : Option ServerId) (f : LibBalsaServer → LibBalsaServer)
    (i : ServerId) :
    (server_set w s f).servers i = if s = some i then (w.servers i).map f else w.servers i := by
  unfold server_set
  split
  · simp
  · rename_i k
    split
    · rename_i hk
      by_cases hik : k = i
      · subst hik; simp [hk]
      · simp [hik]
    · rename_i sv hk
      by_cases hik : k = i
      · subst hik; simp [upd, hk]
      · have : i ≠ k := fun e => hik e.symm
        simp [upd, hik, this]

/-! ## validate_folder -/

/-- C1: validate_folder makes the OK response of the dialog sensitive exactly
when the descriptive name is non-empty, the host is non-empty, and it is not
the case that the selected security mode (index + 1) differs from
NET_CLIENT_CRYPT_NONE while need-client-cert is active and the certificate file
name is NULL or empty; nothing else of the dialog window changes, and the user
name, password and prefix entries have no influence on the result. -/
theorem validate_folder_ok_sensitive_iff (crypt : NetClientCryptMode)
    (fcw : FolderDialogData) (d : GtkDialog)
    (h : fcw.cdd.dialog = some d) :
    (∃ d1 : GtkDialog, (validate_folder crypt fcw).cdd.dialog = some d1 ∧
      d1 = { d with ok_sensitive := d1.ok_sensitive } ∧
      (d1.ok_sensitive = true ↔
        fcw.folder_name ≠ "" ∧ fcw.bsc.server ≠ "" ∧
        ¬ (fcw.bsc.security + 1 ≠ crypt.NET_CLIENT_CRYPT_NONE ∧
            fcw.bsc.need_client_cert = true ∧
            (fcw.bsc.client_cert_file = none ∨ fcw.bsc.client_cert_file = some "")))) ∧
    ∀ u p x : String,
      (validate_folder crypt { fcw with username := u, password := p, pfx := x }).cdd.dialog
        = (validate_folder crypt fcw).cdd.dialog := by
  refine ⟨⟨{ d with ok_sensitive := validate_folder_sensitive crypt fcw }, ?_, rfl, ?_⟩, ?_⟩
  · simp [validate_folder, set_ok_response_sensitive, h]
  · simp only [validate_folder_sensitive]
    by_cases h1 : fcw.folder_name = "" <;> by_cases h2 : fcw.bsc.server = "" <;>
      by_cases h3 : fcw.bsc.security + 1 = crypt.NET_CLIENT_CRYPT_NONE <;>
      by_cases h4 : fcw.bsc.need_client_cert = true <;>
      by_cases h5 : fcw.bsc.client_cert_file = none <;>
      by_cases h6 : fcw.bsc.client_cert_file = some "" <;>
      simp [h1, h2, h3, h4, h5, h6]
  · intro u p x
    rfl

/-- Witness for C1 on the filled-in example form: OK becomes sensitive. -/
theorem validate_folder_ok_sensitive_iff_witness :
    fcw_ex.cdd.dialog = some dialog_ex ∧
    (∃ d1 : GtkDialog, (validate_folder crypt_ex fcw_ex).cdd.dialog = some d1 ∧
      d1 = { dialog_ex with ok_sensitive := d1.ok_sensitive } ∧
      (d1.ok_sensitive = true ↔
        fcw_ex.folder_name ≠ "" ∧ fcw_ex.bsc.server ≠ "" ∧
        ¬ (fcw_ex.bsc.security + 1 ≠ crypt_ex.NET_CLIENT_CRYPT_NONE ∧
            fcw_ex.bsc.need_client_cert = true ∧
            (fcw_ex.bsc.client_cert_file = none ∨ fcw_ex.bsc.client_cert_file = some "")))) :=
  ⟨rfl, (validate_folder_ok_sensitive_iff crypt_ex fcw_ex dialog_ex rfl).1⟩

/-! ## validate_sub_folder -/

/-- C2: validate_sub_folder makes the OK response sensitive exactly when a
parent node is set, that parent's server is an IMAP server and the folder-name
entry is non-empty; the text of the parent-folder entry (empty or not) has no
influence; and the parent-folder entry is editable exactly when a parent node
with an IMAP server is present. -/
theorem validate_sub_folder_ok_sensitive_iff (w : World) (sdd : SubfolderDialogData)
    (d : GtkDialog) (h : sdd.cdd.dialog = some d) :
    (∃ d1 : GtkDialog, (validate_sub_folder w sdd).cdd.dialog = some d1 ∧
      d1 = { d with ok_sensitive := d1.ok_sensitive } ∧
      (d1.ok_sensitive = true ↔
        sdd.parent ≠ none ∧
        LIBBALSA_IS_IMAP_SERVER w (balsa_mailbox_node_get_server w sdd.parent) = true ∧
        sdd.folder_name ≠ "")) ∧
    (∀ p : String,
      (validate_sub_folder w { sdd with parent_folder := p }).cdd.dialog
        = (validate_sub_folder w sdd).cdd.dialog) ∧
    ((validate_sub_folder w sdd).parent_folder_editable = true ↔
      sdd.parent ≠ none ∧
      LIBBALSA_IS_IMAP_SERVER w (balsa_mailbox_node_get_server w sdd.parent) = true) := by
  refine ⟨⟨{ d with ok_sensitive :=
      (sdd.parent.isSome && LIBBALSA_IS_IMAP_SERVER w (balsa_mailbox_node_get_server w sdd.parent))
        && sdd.folder_name != "" }, ?_, rfl, ?_⟩, ?_, ?_⟩
  · simp [validate_sub_folder, set_ok_response_sensitive, h]
  · cases hp : sdd.parent <;> simp [and_assoc]
  · intro p
    rfl
  · cases hp : sdd.parent <;> simp [validate_sub_folder, hp]

/-- Witness for C2: parent node 0 is on an IMAP server and a name is typed in. -/
theorem validate_sub_folder_ok_sensitive_iff_witness :
    sdd_ex.cdd.dialog = some dialog_ex ∧
    ((validate_sub_folder world_ex sdd_ex).parent_folder_editable = true ↔
      sdd_ex.parent ≠ none ∧
      LIBBALSA_IS_IMAP_SERVER world_ex (balsa_mailbox_node_get_server world_ex sdd_ex.parent)
        = true) :=
  ⟨rfl, (validate_sub_folder_ok_sensitive_iff world_ex sdd_ex dialog_ex rfl).2.2⟩

/-! ## folder_conf_clicked_ok -/

/-- C3: after folder_conf_clicked_ok the dialog's node and that node's server
hold the form values field by field: security = selected mode, max
connections = spinner, persistent cache, IDLE, FETCH-bug workaround and STATUS
= their checkboxes, user name, try-anonymous, remember-password, password and
host = their entries and checkboxes; node dir = prefix entry, node name =
descriptive name entry, subscribed and list-inbox = their checkboxes.  For an
update the node and its server are assumed to exist. -/
theorem folder_conf_clicked_ok_fields (env : Env) (c : DataId) (fcw : FolderDialogData)
    (w : World)
    (h : ∀ n, fcw.cdd.mbnode = some n →
      ∃ nd s sv, w.nodes n = some nd ∧ nd.server = some s ∧ w.servers s = some sv) :
    ∃ n, (folder_conf_clicked_ok env c fcw w).2.1.cdd.mbnode = some n ∧
    ∃ nd, (folder_conf_clicked_ok env c fcw w).2.2.nodes n = some nd ∧
      nd.dir = some fcw.pfx ∧
      nd.name = some fcw.folder_name ∧
      nd.subscribed = fcw.subscribed ∧
      nd.list_inbox = fcw.list_inbox ∧
    ∃ s, nd.server = some s ∧
    ∃ sv, (folder_conf_clicked_ok env c fcw w).2.2.servers s = some sv ∧
      sv.security = balsa_server_conf_get_security fcw.bsc ∧
      sv.max_connections = fcw.connection_limit ∧
      sv.persistent_cache = fcw.enable_persistent ∧
      sv.use_idle = fcw.use_idle ∧
      sv.bug_fetch = fcw.has_bugs ∧
      sv.use_status = fcw.use_status ∧
      sv.username = some fcw.username ∧
      sv.try_anonymous = fcw.anonymous ∧
      sv.remember_passwd = fcw.remember ∧
      sv.password = some fcw.password ∧
      sv.host = some fcw.bsc.server := by
  cases hm : fcw.cdd.mbnode with
  | none =>
    simp [folder_conf_clicked_ok, hm, libbalsa_imap_server_new,
      balsa_mailbox_node_new_imap_folder, World.emit, server_set, node_set, upd,
      libbalsa_server_set_security, libbalsa_imap_server_set_max_connections,
      libbalsa_imap_server_enable_persistent_cache, libbalsa_imap_server_set_use_idle,
      libbalsa_imap_server_set_bug_fetch, libbalsa_imap_server_set_use_status,
      libbalsa_server_set_username, libbalsa_server_set_try_anonymous,
      libbalsa_server_set_remember_passwd, libbalsa_server_set_password,
      libbalsa_server_set_host, balsa_mailbox_node_set_dir, balsa_mailbox_node_set_name,
      balsa_mailbox_node_set_subscribed, balsa_mailbox_node_set_list_inbox]
  | some n =>
    obtain ⟨nd, s, sv, hn, hs, hsv⟩ := h n hm
    simp [folder_conf_clicked_ok, hm, balsa_mailbox_node_get_server, hn, hs, hsv,
      World.emit, server_set, node_set, upd,
      libbalsa_server_set_security, libbalsa_imap_server_set_max_connections,
      libbalsa_imap_server_enable_persistent_cache, libbalsa_imap_server_set_use_idle,
      libbalsa_imap_server_set_bug_fetch, libbalsa_imap_server_set_use_status,
      libbalsa_server_set_username, libbalsa_server_set_try_anonymous,
      libbalsa_server_set_remember_passwd, libbalsa_server_set_password,
      libbalsa_server_set_host, balsa_mailbox_node_set_dir, balsa_mailbox_node_set_name,
      balsa_mailbox_node_set_subscribed, balsa_mailbox_node_set_list_inbox]

/-- What `folder_conf_clicked_ok` does for a dialog that has a node. -/
theorem folder_conf_clicked_ok_update (env : Env) (c : DataId) (fcw : FolderDialogData)
    (w : World) (n : NodeId) (hm : fcw.cdd.mbnode = some n) :
    (folder_conf_clicked_ok env c fcw w).1 = true ∧
    (folder_conf_clicked_ok env c fcw w).2.1 = fcw ∧
    (folder_conf_clicked_ok env c fcw w).2.2.trace
      = w.trace ++ update_events (balsa_mailbox_node_get_server w (some n)) (some n) ∧
    (folder_conf_clicked_ok env c fcw w).2.2.next_server = w.next_server ∧
    (folder_conf_clicked_ok env c fcw w).2.2.next_node = w.next_node ∧
    (folder_conf_clicked_ok env c fcw w).2.2.cdds = w.cdds ∧
    (∀ i, balsa_mailbox_node_get_server w (some n) ≠ some i →
      (folder_conf_clicked_ok env c fcw w).2.2.servers i = w.servers i) ∧
    (∀ j, j ≠ n → (folder_conf_clicked_ok env c fcw w).2.2.nodes j = w.nodes j) := by
  simp only [folder_conf_clicked_ok, hm,
      libbalsa_server_set_security, libbalsa_imap_server_set_max_connections,
      libbalsa_imap_server_enable_persistent_cache, libbalsa_imap_server_set_use_idle,
      libbalsa_imap_server_set_bug_fetch, libbalsa_imap_server_set_use_status,
      libbalsa_server_set_username, libbalsa_server_set_try_anonymous,
      libbalsa_server_set_remember_passwd, libbalsa_server_set_password,
      libbalsa_server_set_host, balsa_mailbox_node_set_dir, balsa_mailbox_node_set_name,
      balsa_mailbox_node_set_subscribed, balsa_mailbox_node_set_list_inbox]
  refine ⟨?_, ?_, ?_, ?_, ?_, ?_, ?_, ?_⟩
  · trivial
  · trivial
  · simp [update_events]
  · simp
  · simp
  · simp
  · intro i hi
    simp [server_set_other, hi]
  · intro j hj
    have : (some n : Option NodeId) ≠ some j := fun e => hj (Option.some.inj e).symm
    simp [node_set_other, this]

/-- What `folder_conf_clicked_ok` does for a dialog that has no node. -/
theorem folder_conf_clicked_ok_create (env : Env) (c : DataId) (fcw : FolderDialogData)
    (w : World) (hm : fcw.cdd.mbnode = none) :
    (folder_conf_clicked_ok env c fcw w).1 = true ∧
    (folder_conf_clicked_ok env c fcw w).2.1
      = { fcw with cdd := { fcw.cdd with mbnode := some w.next_node } } ∧
    (folder_conf_clicked_ok env c fcw w).2.2.trace
      = w.trace ++ create_events w.next_server w.next_node fcw.username fcw.bsc.server ∧
    (folder_conf_clicked_ok env c fcw w).2.2.next_server = w.next_server + 1 ∧
    (folder_conf_clicked_ok env c fcw w).2.2.next_node = w.next_node + 1 ∧
    (folder_conf_clicked_ok env c fcw w).2.2.cdds = w.cdds ∧
    (∀ i, i ≠ w.next_server →
      (folder_conf_clicked_ok env c fcw w).2.2.servers i = w.servers i) ∧
    (∀ j, j ≠ w.next_node → (folder_conf_clicked_ok env c fcw w).2.2.nodes j = w.nodes j) ∧
    ((folder_conf_clicked_ok env c fcw w).2.2.nodes w.next_node).map (fun nd => nd.server)
      = some (some w.next_server) ∧
    ((folder_conf_clicked_ok env c fcw w).2.2.servers w.next_server).map (fun sv => sv.is_imap)
      = some true := by
  simp only [folder_conf_clicked_ok, hm, libbalsa_imap_server_new,
      balsa_mailbox_node_new_imap_folder,
      libbalsa_server_set_security, libbalsa_imap_server_set_max_connections,
      libbalsa_imap_server_enable_persistent_cache, libbalsa_imap_server_set_use_idle,
      libbalsa_imap_server_set_bug_fetch, libbalsa_imap_server_set_use_status,
      libbalsa_server_set_username, libbalsa_server_set_try_anonymous,
      libbalsa_server_set_remember_passwd, libbalsa_server_set_password,
      libbalsa_server_set_host, balsa_mailbox_node_set_dir, balsa_mailbox_node_set_name,
      balsa_mailbox_node_set_subscribed, balsa_mailbox_node_set_list_inbox]
  refine ⟨?_, ?_, ?_, ?_, ?_, ?_, ?_, ?_, ?_, ?_⟩
  · trivial
  · simp
  · simp [create_events]
  · simp
  · simp
  · simp
  · intro i hi
    have : (some w.next_server : Option ServerId) ≠ some i :=
      fun e => hi (Option.some.inj e).symm
    simp [server_set_other, this, upd, hi]
  · intro j hj
    have : (some w.next_node : Option NodeId) ≠ some j := fun e => hj (Option.some.inj e).symm
    simp [node_set_other, this, upd, hj]
  · simp [node_set_get, upd]
  · simp [server_set_get, upd]

/-- Witness for C3 on the example form, which updates node 0 on server 0. -/
theorem folder_conf_clicked_ok_fields_witness :
    (∀ n, fcw_ex.cdd.mbnode = some n →
      ∃ nd s sv, world_ex.nodes n = some nd ∧ nd.server = some s ∧
        world_ex.servers s = some sv) ∧
    ∃ n, (folder_conf_clicked_ok env_ex 0 fcw_ex world_ex).2.1.cdd.mbnode = some n ∧
    ∃ nd, (folder_conf_clicked_ok env_ex 0 fcw_ex world_ex).2.2.nodes n = some nd ∧
      nd.dir = some fcw_ex.pfx :=
  have h : ∀ n, fcw_ex.cdd.mbnode = some n →
      ∃ nd s sv, world_ex.nodes n = some nd ∧ nd.server = some s ∧
        world_ex.servers s = some sv := by
    intro n hn
    have h0 : n = 0 := by
      simp [fcw_ex] at hn
      exact hn.symm
    subst h0
    exact ⟨node_folder_ex, 0, server_ex, rfl, rfl, rfl⟩
  ⟨h, by
    obtain ⟨n, h1, nd, h2, h3, _⟩ := folder_conf_clicked_ok_fields env_ex 0 fcw_ex world_ex h
    exact ⟨n, h1, nd, h2, h3⟩⟩

/-- C4, as stated, fails when a folder is created: the confirmation of the
example creation form calls libbalsa_server_config_changed once but never
calls balsa_mailbox_node_rescan. -/
theorem folder_conf_clicked_ok_create_no_rescan :
    (folder_conf_clicked_ok env_ex 0 fcw_create_ex world_ex).2.2.trace
      = create_events 1 2 "u" "imap.example.org" ∧
    (folder_conf_clicked_ok env_ex 0 fcw_create_ex world_ex).2.2.trace.filter Event.is_rescan
      = [] := by
  decide

/-- C4 (amended): every run of folder_conf_clicked_ok calls
libbalsa_server_config_changed exactly once.  When the dialog has a node
(update), balsa_mailbox_node_rescan is called exactly once, on that node, and
balsa_mailbox_node_append_subtree is not called; when the dialog has no node
(creation), balsa_mailbox_node_rescan is not called and
balsa_mailbox_node_append_subtree is called exactly once, on the new node. -/
theorem folder_conf_clicked_ok_persist_and_scan (env : Env) (c : DataId)
    (fcw : FolderDialogData) (w : World) :
    ∃ evs, (folder_conf_clicked_ok env c fcw w).2.2.trace = w.trace ++ evs ∧
      (evs.filter Event.is_config_changed).length = 1 ∧
      evs.filter Event.is_rescan
        = (match fcw.cdd.mbnode with
           | some n => [.balsa_mailbox_node_rescan (some n)]
           | none => []) ∧
      evs.filter Event.is_append_subtree
        = (match fcw.cdd.mbnode with
           | some _ => []
           | none => [.balsa_mailbox_node_append_subtree (some w.next_node)]) := by
  cases hm : fcw.cdd.mbnode with
  | none =>
    refine ⟨_, (folder_conf_clicked_ok_create env c fcw w hm).2.2.1, ?_, ?_, ?_⟩ <;>
      simp [create_events, List.filter, Event.is_config_changed, Event.is_rescan,
        Event.is_append_subtree]
  | some n =>
    refine ⟨_, (folder_conf_clicked_ok_update env c fcw w n hm).2.2.1, ?_, ?_, ?_⟩ <;>
      simp [update_events, List.filter, Event.is_config_changed, Event.is_rescan,
        Event.is_append_subtree]

/-- C6: folder_conf_clicked_ok returns TRUE and leaves cdd->mbnode non-NULL.
It calls the creating and inserting functions (libbalsa_imap_server_new,
balsa_mailbox_node_new_imap_folder, balsa_mblist_mailbox_node_append,
config_folder_add) exactly when the dialog has no node on entry.  In that case
one server and one node are allocated, the new node refers to the new IMAP
server and becomes cdd->mbnode, and no other server or node is touched.
Otherwise no server and no node is allocated, only the node's own server and
the node itself may change, and the node is rescanned and redrawn. -/
theorem folder_conf_clicked_ok_creates_iff (env : Env) (c : DataId)
    (fcw : FolderDialogData) (w : World) :
    ∃ fcw1 w1 evs, folder_conf_clicked_ok env c fcw w = (true, fcw1, w1) ∧
      fcw1.cdd.mbnode ≠ none ∧
      w1.trace = w.trace ++ evs ∧
      (evs.filter Event.is_creation ≠ [] ↔ fcw.cdd.mbnode = none) ∧
      if fcw.cdd.mbnode = none then
        evs = create_events w.next_server w.next_node fcw.username fcw.bsc.server ∧
        w1.next_server = w.next_server + 1 ∧ w1.next_node = w.next_node + 1 ∧
        fcw1.cdd.mbnode = some w.next_node ∧
        (w1.nodes w.next_node).map (fun nd => nd.server) = some (some w.next_server) ∧
        (w1.servers w.next_server).map (fun sv => sv.is_imap) = some true ∧
        (∀ i, i ≠ w.next_server → w1.servers i = w.servers i) ∧
        (∀ j, j ≠ w.next_node → w1.nodes j = w.nodes j)
      else
        evs = update_events (balsa_mailbox_node_get_server w fcw.cdd.mbnode) fcw.cdd.mbnode ∧
        w1.next_server = w.next_server ∧ w1.next_node = w.next_node ∧
        fcw1 = fcw ∧
        (∀ i, balsa_mailbox_node_get_server w fcw.cdd.mbnode ≠ some i →
          w1.servers i = w.servers i) ∧
        (∀ j, fcw.cdd.mbnode ≠ some j → w1.nodes j = w.nodes j) := by
  cases hm : fcw.cdd.mbnode with
  | none =>
    obtain ⟨h1, h2, h3, h4, h5, _, h7, h8, h9, h10⟩ :=
      folder_conf_clicked_ok_create env c fcw w hm
    generalize folder_conf_clicked_ok env c fcw w = r at h1 h2 h3 h4 h5 h7 h8 h9 h10
    obtain ⟨b, fcw1, w1⟩ := r
    simp only at h1 h2 h3 h4 h5 h7 h8 h9 h10
    subst h1
    refine ⟨fcw1, w1, _, rfl, ?_, h3, ?_, ?_⟩
    · rw [h2]; simp
    · simp [create_events, List.filter, Event.is_creation]
    · simp only [if_true]
      exact ⟨trivial, h4, h5, by rw [h2], h9, h10, h7, h8⟩
  | some n =>
    obtain ⟨h1, h2, h3, h4, h5, _, h7, h8⟩ := folder_conf_clicked_ok_update env c fcw w n hm
    generalize folder_conf_clicked_ok env c fcw w = r at h1 h2 h3 h4 h5 h7 h8
    obtain ⟨b, fcw1, w1⟩ := r
    simp only at h1 h2 h3 h4 h5 h7 h8
    subst h1
    refine ⟨fcw1, w1, _, rfl, ?_, h3, ?_, ?_⟩
    · rw [h2, hm]; simp
    · simp [update_events, List.filter, Event.is_creation]
    · simp only [if_false, reduceCtorEq]
      refine ⟨trivial, h4, h5, h2, h7, ?_⟩
      intro j hj
      exact h8 j (fun e => hj (by rw [e]))

/-! ## Frame lemmas for the dialog bookkeeping -/

@[simp] theorem on_folder_servers (w : World) (c : DataId)
    (f : FolderDialogData → FolderDialogData) : (w.on_folder c f).servers = w.servers := by
  unfold World.on_folder; split <;> rfl
@[simp] theorem on_folder_nodes (w : World) (c : DataId)
    (f : FolderDialogData → FolderDialogData) : (w.on_folder c f).nodes = w.nodes := by
  unfold World.on_folder; split <;> rfl
@[simp] theorem on_subfolder_servers (w : World) (c : DataId)
    (f : SubfolderDialogData → SubfolderDialogData) :
    (w.on_subfolder c f).servers = w.servers := by
  unfold World.on_subfolder; split <;> rfl
@[simp] theorem on_subfolder_nodes (w : World) (c : DataId)
    (f : SubfolderDialogData → SubfolderDialogData) : (w.on_subfolder c f).nodes = w.nodes := by
  unfold World.on_subfolder; split <;> rfl
@[simp] theorem on_subfolder_trace (w : World) (c : DataId)
    (f : SubfolderDialogData → SubfolderDialogData) : (w.on_subfolder c f).trace = w.trace := by
  unfold World.on_subfolder; split <;> rfl
@[simp] theorem on_subfolder_bbds (w : World) (c : DataId)
    (f : SubfolderDialogData → SubfolderDialogData) : (w.on_subfolder c f).bbds = w.bbds := by
  unfold World.on_subfolder; split <;> rfl

@[simp] theorem g_free_cdd_servers (c : DataId) (w : World) :
    (g_free_cdd c w).servers = w.servers := rfl
@[simp] theorem g_free_cdd_nodes (c : DataId) (w : World) :
    (g_free_cdd c w).nodes = w.nodes := rfl
@[simp] theorem g_free_cdd_trace (c : DataId) (w : World) :
    (g_free_cdd c w).trace = w.trace := rfl

@[simp] theorem set_mbnode_servers (c : DataId) (v : Option NodeId) (w : World) :
    (set_mbnode c v w).servers = w.servers := by
  unfold set_mbnode; split <;> rfl
@[simp] theorem set_mbnode_nodes (c : DataId) (v : Option NodeId) (w : World) :
    (set_mbnode c v w).nodes = w.nodes := by
  unfold set_mbnode; split <;> rfl
@[simp] theorem set_mbnode_trace (c : DataId) (v : Option NodeId) (w : World) :
    (set_mbnode c v w).trace = w.trace := by
  unfold set_mbnode; split <;> rfl

@[simp] theorem destroy_dialog_servers (c : DataId) (w : World) :
    (destroy_dialog c w).servers = w.servers := by
  unfold destroy_dialog
  split
  · rfl
  · split
    · rfl
    · simp only []
      split <;> split <;> rfl
@[simp] theorem destroy_dialog_nodes (c : DataId) (w : World) :
    (destroy_dialog c w).nodes = w.nodes := by
  unfold destroy_dialog
  split
  · rfl
  · split
    · rfl
    · simp only []
      split <;> split <;> rfl

@[simp] theorem folder_conf_destroy_cdd_servers (c : DataId) (w : World) :
    (folder_conf_destroy_cdd c w).servers = w.servers := by
  unfold folder_conf_destroy_cdd
  split
  · rfl
  · split <;> simp
@[simp] theorem folder_conf_destroy_cdd_nodes (c : DataId) (w : World) :
    (folder_conf_destroy_cdd c w).nodes = w.nodes := by
  unfold folder_conf_destroy_cdd
  split
  · rfl
  · split <;> simp

theorem frame_eq_refl (w : World) : frame_eq w w := ⟨rfl, fun _ => rfl⟩

theorem frame_eq_of_eq (w w1 : World) (hs : w1.servers = w.servers) (hn : w1.nodes = w.nodes) :
    frame_eq w w1 := ⟨hs, fun n => by rw [hn]⟩

theorem frame_eq_trans (w w1 w2 : World) (h1 : frame_eq w w1) (h2 : frame_eq w1 w2) :
    frame_eq w w2 := ⟨h2.1.trans h1.1, fun n => (h2.2 n).trans (h1.2 n)⟩

theorem g_object_set_data_null_frame (mn : NodeId) (w : World) :
    frame_eq w (g_object_set_data_null mn w) := by
  unfold g_object_set_data_null
  have hf : frame_eq w (node_set w (some mn) (fun nd => { nd with conf_data := none })) := by
    refine ⟨by simp, fun n => ?_⟩
    rw [node_set_get]
    split
    · cases w.nodes n <;> rfl
    · rfl
  dsimp only
  split
  · exact frame_eq_trans _ _ _ hf (frame_eq_of_eq _ _ (by simp) (by simp))
  · exact hf

theorem folder_conf_response_default_frame (c : DataId) (w : World) :
    frame_eq w (folder_conf_response_default c w) := by
  unfold folder_conf_response_default
  have hd : frame_eq w (destroy_dialog c w) := frame_eq_of_eq _ _ (by simp) (by simp)
  dsimp only
  split
  · exact hd
  · split
    · exact frame_eq_trans _ _ _ hd (g_object_set_data_null_frame _ _)
    · exact frame_eq_trans _ _ _ hd (frame_eq_of_eq _ _ (by simp) (by simp))

theorem browse_button_response_frame (r : Int) (b : BrowseId) (w : World) :
    frame_eq w (browse_button_response r b w) := by
  unfold browse_button_response
  split
  · exact frame_eq_refl w
  · apply frame_eq_of_eq
    · simp only []
      split
      · rfl
      · rename_i w1 hw1
        simp only [on_subfolder_servers, emit_servers]
        split at hw1
        · split at hw1
          · cases hw1
          · split at hw1
            · split at hw1 <;> (cases hw1; simp)
            · split at hw1 <;> (cases hw1; simp)
        · cases hw1; rfl
    · simp only []
      split
      · rfl
      · rename_i w1 hw1
        simp only [on_subfolder_nodes, emit_nodes]
        split at hw1
        · split at hw1
          · cases hw1
          · split at hw1
            · split at hw1 <;> (cases hw1; simp)
            · split at hw1 <;> (cases hw1; simp)
        · cases hw1; rfl

/-! ## Only the confirm action changes servers and nodes -/

/-- C5: a response other than OK handled by folder_conf_response (Cancel,
close, delete-event, none, Help) always finishes and leaves every server
record and the name, dir, subscribed and list-inbox fields of every node as
they were; so does every run of validate_folder, validate_sub_folder,
anonymous_cb, remember_cb, security_cb and of the Browse callbacks
browse_button_cb, browse_button_select_row_cb, browse_button_row_activated and
browse_button_response (with any response). -/
theorem confirm_only_mutates (crypt : NetClientCryptMode) (env : Env) (fuel : Nat)
    (response : Int) (c : DataId)
    (b : BrowseId) (selection : Option NodeId) (w : World)
    (h : response ≠ GTK_RESPONSE_OK) :
    (∃ w1, folder_conf_response env fuel response c w = some w1 ∧ frame_eq w w1) ∧
    frame_eq w (w.on_folder c (validate_folder crypt)) ∧
    frame_eq w (w.on_subfolder c (validate_sub_folder w)) ∧
    frame_eq w (w.on_folder c anonymous_cb) ∧
    frame_eq w (w.on_folder c remember_cb) ∧
    frame_eq w (w.on_folder c (security_cb crypt)) ∧
    frame_eq w (browse_button_cb c w) ∧
    frame_eq w (browse_button_select_row_cb selection b w) ∧
    frame_eq w (browse_button_row_activated b w) ∧
    ∀ r, frame_eq w (browse_button_response r b w) := by
  refine ⟨?_, ?_, ?_, ?_, ?_, ?_, ?_, ?_, ?_, ?_⟩
  · unfold folder_conf_response
    split
    · exact ⟨w, rfl, frame_eq_refl w⟩
    · split
      · exact ⟨_, rfl, frame_eq_of_eq _ _ (by split <;> simp) (by split <;> simp)⟩
      · exact ⟨_, rfl, folder_conf_response_default_frame c w⟩
  · exact frame_eq_of_eq _ _ (by simp) (by simp)
  · exact frame_eq_of_eq _ _ (by simp) (by simp)
  · exact frame_eq_of_eq _ _ (by simp) (by simp)
  · exact frame_eq_of_eq _ _ (by simp) (by simp)
  · exact frame_eq_of_eq _ _ (by simp) (by simp)
  · exact frame_eq_of_eq _ _ (by simp [browse_button_cb]) (by simp [browse_button_cb])
  · apply frame_eq_of_eq <;> (unfold browse_button_select_row_cb; split <;> rfl)
  · exact browse_button_response_frame _ b w
  · intro r
    exact browse_button_response_frame r b w

/-- Witness for C5: Cancel on the open folder dialog of node 0. -/
theorem confirm_only_mutates_witness :
    GTK_RESPONSE_CANCEL ≠ GTK_RESPONSE_OK ∧
    ∃ w1, folder_conf_response env_ex 0 GTK_RESPONSE_CANCEL 0 world_open_ex = some w1 ∧
      frame_eq world_open_ex w1 :=
  ⟨by decide,
   (confirm_only_mutates crypt_ex env_ex 0 GTK_RESPONSE_CANCEL 0 0 none world_open_ex
     (by decide)).1⟩

/-! ## subfolder_conf_clicked_ok and folder_conf_delete -/

theorem g_strcmp0_eq_zero (a b : Option String) : g_strcmp0 a b = 0 ↔ a = b := by
  unfold g_strcmp0
  cases a <;> cases b <;> simp
  rename_i x y
  by_cases h : x = y
  · simp [h]
  · simp only [h, if_false, iff_false]
    split <;> simp

theorem g_strcmp0_bne_zero (a b : Option String) : (g_strcmp0 a b != 0) = true ↔ a ≠ b := by
  rw [bne_iff_ne, Ne, g_strcmp0_eq_zero]

@[simp] theorem get_mailbox_emit (w : World) (e : Event) (mn : Option NodeId) :
    balsa_mailbox_node_get_mailbox (w.emit e) mn = balsa_mailbox_node_get_mailbox w mn := rfl
@[simp] theorem get_subscribed_emit (w : World) (e : Event) (mn : Option NodeId) :
    balsa_mailbox_node_get_subscribed (w.emit e) mn = balsa_mailbox_node_get_subscribed w mn :=
  rfl
@[simp] theorem get_server_emit (w : World) (e : Event) (mn : Option NodeId) :
    balsa_mailbox_node_get_server (w.emit e) mn = balsa_mailbox_node_get_server w mn := rfl
@[simp] theorem get_parent_emit (w : World) (e : Event) (mn : Option NodeId) :
    balsa_mailbox_node_get_parent (w.emit e) mn = balsa_mailbox_node_get_parent w mn := rfl

@[simp] theorem get_mailbox_with_trace (w : World) (t : List Event) (mn : Option NodeId) :
    balsa_mailbox_node_get_mailbox { w with trace := t } mn
      = balsa_mailbox_node_get_mailbox w mn := rfl
@[simp] theorem get_subscribed_with_trace (w : World) (t : List Event) (mn : Option NodeId) :
    balsa_mailbox_node_get_subscribed { w with trace := t } mn
      = balsa_mailbox_node_get_subscribed w mn := rfl
@[simp] theorem get_server_with_trace (w : World) (t : List Event) (mn : Option NodeId) :
    balsa_mailbox_node_get_server { w with trace := t } mn
      = balsa_mailbox_node_get_server w mn := rfl
@[simp] theorem get_parent_with_trace (w : World) (t : List Event) (mn : Option NodeId) :
    balsa_mailbox_node_get_parent { w with trace := t } mn
      = balsa_mailbox_node_get_parent w mn := rfl

/-- The world after the debug output of `subfolder_conf_clicked_ok`. -/
theorem debug_emit_eq (sdd : SubfolderDialogData) (w : World) :
    (if w.debug = true then
      w.emit (.g_print ("sdd->old_parent=" ++ fmt_s sdd.old_parent ++ "\nsdd->old_folder="
                          ++ fmt_s sdd.old_folder ++ "\n"))
     else w) = { w with trace := w.trace ++ debug_events sdd w } := by
  unfold debug_events
  split <;> simp [World.emit]

/-- A failed rename: the entries `subfolder_conf_clicked_ok` adds to the trace. -/
theorem subfolder_conf_clicked_ok_rename_fail (env : Env) (fuel : Nat)
    (sdd : SubfolderDialogData) (w : World) (n : NodeId) (err : Option String)
    (hm : sdd.cdd.mbnode = some n)
    (hdue : some sdd.parent_folder ≠ sdd.old_parent ∨ some sdd.folder_name ≠ sdd.old_folder)
    (hbtn : (sdd.old_folder = some "INBOX" ∧
              (sdd.old_parent = none ∨ sdd.old_parent = some "")) →
            env.rename_inbox_answer = GTK_RESPONSE_OK)
    (hfail : env.rename_result = .fail err) :
    subfolder_conf_clicked_ok env fuel sdd w
      = some (false, { w with trace := w.trace ++
          (debug_events sdd w ++ view_events sdd w ++ question_events sdd ++
            [.balsa_window_close_mbnode (some n),
             .libbalsa_imap_rename_subfolder
               ((balsa_mailbox_node_get_mailbox w (some n)).map (fun m => m.id))
               sdd.parent_folder sdd.folder_name
               (balsa_mailbox_node_get_subscribed w (some n)),
             .balsa_information .LIBBALSA_INFORMATION_ERROR
               ("Folder rename failed. Reason: " ++ err.getD "unknown")]) }) := by
  have hdue1 : (g_strcmp0 (some sdd.parent_folder) sdd.old_parent != 0
      || g_strcmp0 (some sdd.folder_name) sdd.old_folder != 0) = true := by
    rw [Bool.or_eq_true, g_strcmp0_bne_zero, g_strcmp0_bne_zero]
    exact hdue
  unfold subfolder_conf_clicked_ok
  simp only [hm, hdue1, if_true, hfail, debug_emit_eq]
  by_cases hq : (g_strcmp0 sdd.old_folder (some "INBOX") == 0
      && (decide (sdd.old_parent = none) || decide (sdd.old_parent = some ""))) = true
  · have hans : env.rename_inbox_answer = GTK_RESPONSE_OK := by
      apply hbtn
      simpa [g_strcmp0_eq_zero] using hq
    cases hmb : balsa_mailbox_node_get_mailbox w (some n) <;>
      simp [hq, hans, view_events, question_events, hm, hmb, World.emit, gettext]
  · cases hmb : balsa_mailbox_node_get_mailbox w (some n) <;>
      simp [hq, view_events, question_events, hm, hmb, World.emit, gettext]

/-- C7: when a rename of an existing subfolder is attempted and
libbalsa_imap_rename_subfolder fails, subfolder_conf_clicked_ok returns FALSE
for every fuel, changes nothing in the world except the trace (in particular
the node's directory is untouched), issues exactly one notification, the error
"Folder rename failed. Reason: ..." with reason "unknown" when no error object
was returned, calls rename exactly once and rescans nothing. -/
theorem subfolder_rename_failure (env : Env) (fuel : Nat) (sdd : SubfolderDialogData)
    (w : World) (n : NodeId) (err : Option String)
    (hm : sdd.cdd.mbnode = some n)
    (hdue : some sdd.parent_folder ≠ sdd.old_parent ∨ some sdd.folder_name ≠ sdd.old_folder)
    (hbtn : (sdd.old_folder = some "INBOX" ∧
              (sdd.old_parent = none ∨ sdd.old_parent = some "")) →
            env.rename_inbox_answer = GTK_RESPONSE_OK)
    (hfail : env.rename_result = .fail err) :
    ∃ evs, subfolder_conf_clicked_ok env fuel sdd w
        = some (false, { w with trace := w.trace ++ evs }) ∧
      evs.filter Event.is_information
        = [.balsa_information .LIBBALSA_INFORMATION_ERROR
            ("Folder rename failed. Reason: " ++ err.getD "unknown")] ∧
      evs.filter Event.is_rename
        = [.libbalsa_imap_rename_subfolder
            ((balsa_mailbox_node_get_mailbox w (some n)).map (fun m => m.id))
            sdd.parent_folder sdd.folder_name (balsa_mailbox_node_get_subscribed w (some n))] ∧
      evs.filter Event.is_rescan = [] := by
  refine ⟨_, subfolder_conf_clicked_ok_rename_fail env fuel sdd w n err hm hdue hbtn hfail,
    ?_, ?_, ?_⟩
  · simp only [List.filter_append, debug_events, view_events, question_events]
    split <;> split <;> split <;> simp [List.filter, Event.is_information]
  · simp only [List.filter_append, debug_events, view_events, question_events]
    split <;> split <;> split <;> simp [List.filter, Event.is_rename]
  · simp only [List.filter_append, debug_events, view_events, question_events]
    split <;> split <;> split <;> simp [List.filter, Event.is_rescan]

/-- Witness for C7: renaming Sent to Sent2 on node 1 with a failing server. -/
theorem subfolder_rename_failure_witness :
    ∃ evs, subfolder_conf_clicked_ok env_fail_ex 0 sdd_rename_ex world_ex
        = some (false, { world_ex with trace := world_ex.trace ++ evs }) ∧
      evs.filter Event.is_information
        = [.balsa_information .LIBBALSA_INFORMATION_ERROR
            ("Folder rename failed. Reason: " ++ (none : Option String).getD "unknown")] ∧
      evs.filter Event.is_rename
        = [.libbalsa_imap_rename_subfolder
            ((balsa_mailbox_node_get_mailbox world_ex (some 1)).map (fun m => m.id))
            sdd_rename_ex.parent_folder sdd_rename_ex.folder_name
            (balsa_mailbox_node_get_subscribed world_ex (some 1))] ∧
      evs.filter Event.is_rescan = [] :=
  subfolder_rename_failure env_fail_ex 0 sdd_rename_ex world_ex 1 none rfl
    (by decide) (by decide) rfl

/-- C8: when the dialog has no node, subfolder_conf_clicked_ok calls
libbalsa_imap_new_subfolder exactly once, with the entered parent path, the
entered folder name, the subscribed flag of the selected parent node and the
parent's server.  On success it rescans the selected parent node, issues no
notification and returns TRUE; on failure it issues exactly one notification,
the error "Folder creation failed. Reason: ...", rescans nothing and returns
FALSE.  Nothing but the trace changes, for every fuel. -/
theorem subfolder_create (env : Env) (fuel : Nat) (sdd : SubfolderDialogData) (w : World)
    (hm : sdd.cdd.mbnode = none) :
    ∃ r evs, subfolder_conf_clicked_ok env fuel sdd w
        = some (r, { w with trace := w.trace ++ evs }) ∧
      evs.filter Event.is_new_subfolder
        = [.libbalsa_imap_new_subfolder sdd.parent_folder sdd.folder_name
            (balsa_mailbox_node_get_subscribed w sdd.parent)
            (balsa_mailbox_node_get_server w sdd.parent)] ∧
      (match env.new_subfolder_result with
       | .ok =>
         r = true ∧ evs.filter Event.is_rescan = [.balsa_mailbox_node_rescan sdd.parent] ∧
         evs.filter Event.is_information = []
       | .fail err =>
         r = false ∧ evs.filter Event.is_rescan = [] ∧
         evs.filter Event.is_information
           = [.balsa_information .LIBBALSA_INFORMATION_ERROR
               ("Folder creation failed. Reason: " ++ err.getD "unknown")]) := by
  unfold subfolder_conf_clicked_ok
  simp only [hm, debug_emit_eq]
  cases hr : env.new_subfolder_result with
  | ok =>
    refine ⟨true, debug_events sdd w ++
      [.libbalsa_imap_new_subfolder sdd.parent_folder sdd.folder_name
        (balsa_mailbox_node_get_subscribed w sdd.parent)
        (balsa_mailbox_node_get_server w sdd.parent),
       .balsa_mailbox_node_rescan sdd.parent], ?_, ?_, ?_⟩
    · simp [World.emit]
    · simp only [List.filter_append, debug_events]
      split <;> simp [List.filter, Event.is_new_subfolder]
    · simp only [List.filter_append, debug_events]
      split <;> simp [List.filter, Event.is_rescan, Event.is_information]
  | fail err =>
    refine ⟨false, debug_events sdd w ++
      [.libbalsa_imap_new_subfolder sdd.parent_folder sdd.folder_name
        (balsa_mailbox_node_get_subscribed w sdd.parent)
        (balsa_mailbox_node_get_server w sdd.parent),
       .balsa_information .LIBBALSA_INFORMATION_ERROR
         ("Folder creation failed. Reason: " ++ err.getD "unknown")], ?_, ?_, ?_⟩
    · simp [World.emit, gettext]
    · simp only [List.filter_append, debug_events]
      split <;> simp [List.filter, Event.is_new_subfolder]
    · simp only [List.filter_append, debug_events]
      split <;> simp [List.filter, Event.is_rescan, Event.is_information]

/-- Witness for C8: creating Drafts below node 0 on a server that accepts it. -/
theorem subfolder_create_witness :
    ∃ r evs, subfolder_conf_clicked_ok env_ex 0 sdd_ex world_ex
        = some (r, { world_ex with trace := world_ex.trace ++ evs }) ∧
      evs.filter Event.is_new_subfolder
        = [.libbalsa_imap_new_subfolder "" "Drafts" false (some 0)] :=
  have h := subfolder_create env_ex 0 sdd_ex world_ex rfl
  h.elim fun r h1 => h1.elim fun evs h2 => ⟨r, evs, h2.1, h2.2.1⟩

/-- C10: folder_conf_delete changes nothing but the trace.  It calls
config_folder_delete, then balsa_mblist_mailbox_node_remove, then
update_mail_servers exactly when the node has a configuration prefix and the
confirmation is answered with OK, and calls none of them otherwise.  Without a
configuration prefix it issues exactly one error notification and asks no
confirmation; with a prefix it asks the confirmation once and issues no
notification. -/
theorem folder_conf_delete_removes_iff (env : Env) (mbnode : Option NodeId) (w : World) :
    ∃ evs, folder_conf_delete env mbnode w = { w with trace := w.trace ++ evs } ∧
      evs.filter Event.is_removal
        = (if (balsa_mailbox_node_get_config_pfx w mbnode).isSome
              ∧ env.delete_answer = GTK_RESPONSE_OK then
            [.config_folder_delete mbnode, .balsa_mblist_mailbox_node_remove mbnode,
             .update_mail_servers]
           else []) ∧
      (evs.filter Event.is_information).length
        = (if (balsa_mailbox_node_get_config_pfx w mbnode).isSome then 0 else 1) ∧
      (evs.filter Event.is_dialog_run).length
        = (if (balsa_mailbox_node_get_config_pfx w mbnode).isSome then 1 else 0) := by
  unfold folder_conf_delete
  cases hp : balsa_mailbox_node_get_config_pfx w mbnode with
  | none =>
    exact ⟨_, rfl, by simp [List.filter, Event.is_removal],
      by simp [List.filter, Event.is_information], by simp [List.filter, Event.is_dialog_run]⟩
  | some p =>
    by_cases ha : env.delete_answer = GTK_RESPONSE_OK
    · refine ⟨[.gtk_dialog_run (gettext "Confirm")
          (gettext (delete_msg (balsa_mailbox_node_get_name w mbnode))),
        .config_folder_delete mbnode, .balsa_mblist_mailbox_node_remove mbnode,
        .update_mail_servers], ?_, ?_, ?_, ?_⟩
      · simp [ha, World.emit]
      · simp [ha, List.filter, Event.is_removal]
      · simp [List.filter, Event.is_information]
      · simp [List.filter, Event.is_dialog_run]
    · refine ⟨[.gtk_dialog_run (gettext "Confirm")
          (gettext (delete_msg (balsa_mailbox_node_get_name w mbnode)))], ?_, ?_, ?_, ?_⟩
      · simp [ha, World.emit]
      · simp [ha, List.filter, Event.is_removal]
      · simp [List.filter, Event.is_information]
      · simp [List.filter, Event.is_dialog_run]

/-! ## The bookkeeping invariant -/

theorem inv_of_no_dialogs (w : World) (h : w.no_dialogs) : Inv w := by
  obtain ⟨h1, h2, h3, h4⟩ := h
  have hk : ∀ c, w.keys c = none := fun c => by simp [World.keys, h1]
  refine ⟨fun c _ => hk c, ?_, ?_, ?_, ?_, ?_⟩
  · intro n hn
    cases hnd : w.nodes n with
    | none => simp [World.regs, hnd]
    | some nd => exact absurd (h4 n nd hnd).2 (Nat.not_lt.mpr hn)
  · intro n c hreg
    simp only [World.regs] at hreg
    cases hnd : w.nodes n with
    | none => simp [hnd] at hreg
    | some nd =>
      simp [hnd, (h4 n nd hnd).1] at hreg
  · intro c k hc
    rw [hk] at hc
    cases hc
  · intro c hc
    rw [h2] at hc
    cases hc
  · intro c hc
    rw [h3] at hc
    cases hc

/-- The invariant reads only the bookkeeping view of the world. -/
theorem inv_congr (w w1 : World) (h : Inv w) (hk : w1.keys = w.keys) (hr : w1.regs = w.regs)
    (hf : w1.fcw_new = w.fcw_new) (hs : w1.sdd_new = w.sdd_new)
    (hc : w1.next_cdd = w.next_cdd) (hn : w1.next_node = w.next_node) : Inv w1 := by
  obtain ⟨a1, a2, a3, a4, a5, a6⟩ := h
  refine ⟨?_, ?_, ?_, ?_, ?_, ?_⟩
  · rw [hk, hc]; exact a1
  · rw [hr, hn]; exact a2
  · rw [hk, hr]; exact a3
  · rw [hk, hr, hf, hs]; exact a4
  · rw [hk, hf]; exact a5
  · rw [hk, hs]; exact a6

theorem upd_self {α : Type} (h : Nat → Option α) (k : Nat) (v : Option α) :
    upd h k v k = v := by simp [upd]

theorem upd_other {α : Type} (h : Nat → Option α) (k i : Nat) (v : Option α) (hne : i ≠ k) :
    upd h k v i = h i := by simp [upd, hne]

/-- Opening a dialog for a node that carries no datum keeps the invariant. -/
theorem inv_open_node (w w1 : World) (h : Inv w) (n : NodeId) (k : DialogKey) (id : Nat)
    (hreg : w.regs n = some none) (hkm : k.mbnode = some n)
    (hkd : k.dialog = some (id, false, false))
    (hk : w1.keys = upd w.keys w.next_cdd (some k))
    (hr : w1.regs = upd w.regs n (some (some w.next_cdd)))
    (hf : w1.fcw_new = w.fcw_new) (hs : w1.sdd_new = w.sdd_new)
    (hc : w1.next_cdd = w.next_cdd + 1) (hn : w1.next_node = w.next_node) : Inv w1 := by
  obtain ⟨a1, a2, a3, a4, a5, a6⟩ := h
  have hfresh : w.keys w.next_cdd = none := a1 _ (le_refl _)
  refine ⟨?_, ?_, ?_, ?_, ?_, ?_⟩
  · intro c hle
    rw [hk, upd_other _ _ _ _ (by omega)]
    exact a1 c (by omega)
  · intro m hle
    have hmn : m ≠ n := by
      intro e
      subst e
      rw [a2 m (by omega)] at hreg
      cases hreg
    rw [hr, upd_other _ _ _ _ hmn]
    exact a2 m (by omega)
  · intro m c hm
    rw [hr] at hm
    by_cases hmn : m = n
    · subst hmn
      rw [upd_self] at hm
      cases hm
      exact ⟨k, by rw [hk, upd_self], hkm⟩
    · rw [upd_other _ _ _ _ hmn] at hm
      obtain ⟨k1, hk1, hk2⟩ := a3 m c hm
      have hcn : c ≠ w.next_cdd := by
        intro e
        rw [e, hfresh] at hk1
        cases hk1
      exact ⟨k1, by rw [hk, upd_other _ _ _ _ hcn]; exact hk1, hk2⟩
  · intro c k1 hc1
    rw [hk] at hc1
    by_cases hcn : c = w.next_cdd
    · subst hcn
      rw [upd_self] at hc1
      cases hc1
      refine ⟨id, false, false, hkd, ?_⟩
      rw [hkm]
      exact ⟨by rw [hr, upd_self], rfl, rfl⟩
    · rw [upd_other _ _ _ _ hcn] at hc1
      obtain ⟨i1, wf, ws, hd, hm⟩ := a4 c k1 hc1
      refine ⟨i1, wf, ws, hd, ?_⟩
      cases hkm1 : k1.mbnode with
      | none =>
        rw [hkm1] at hm
        dsimp only at hm ⊢
        rw [hf, hs]
        exact hm
      | some m =>
        rw [hkm1] at hm
        dsimp only at hm ⊢
        have hmn : m ≠ n := by
          intro e
          have h1 := hm.1
          rw [e, hreg] at h1
          cases h1
        rw [hr, upd_other _ _ _ _ hmn]
        exact hm
  · intro c hc1
    rw [hf] at hc1
    obtain ⟨k1, hk1, hk2⟩ := a5 c hc1
    have hcn : c ≠ w.next_cdd := by
      intro e
      rw [e, hfresh] at hk1
      cases hk1
    exact ⟨k1, by rw [hk, upd_other _ _ _ _ hcn]; exact hk1, hk2⟩
  · intro c hc1
    rw [hs] at hc1
    obtain ⟨k1, hk1, hk2⟩ := a6 c hc1
    have hcn : c ≠ w.next_cdd := by
      intro e
      rw [e, hfresh] at hk1
      cases hk1
    exact ⟨k1, by rw [hk, upd_other _ _ _ _ hcn]; exact hk1, hk2⟩

/-- Opening the folder-creation dialog while its static slot is NULL keeps the
invariant. -/
theorem inv_open_new_folder (w w1 : World) (h : Inv w) (k : DialogKey) (id : Nat)
    (hslot : w.fcw_new = none) (hkf : k.is_folder = true) (hkm : k.mbnode = none)
    (hkd : k.dialog = some (id, true, false))
    (hk : w1.keys = upd w.keys w.next_cdd (some k)) (hr : w1.regs = w.regs)
    (hf : w1.fcw_new = some w.next_cdd) (hs : w1.sdd_new = w.sdd_new)
    (hc : w1.next_cdd = w.next_cdd + 1) (hn : w1.next_node = w.next_node) : Inv w1 := by
  obtain ⟨a1, a2, a3, a4, a5, a6⟩ := h
  have hfresh : w.keys w.next_cdd = none := a1 _ (le_refl _)
  have hold : ∀ c k1, w.keys c = some k1 → w1.keys c = some k1 := by
    intro c k1 hk1
    have hcn : c ≠ w.next_cdd := by
      intro e
      rw [e, hfresh] at hk1
      cases hk1
    rw [hk, upd_other _ _ _ _ hcn]
    exact hk1
  refine ⟨?_, ?_, ?_, ?_, ?_, ?_⟩
  · intro c hle
    rw [hk, upd_other _ _ _ _ (by omega)]
    exact a1 c (by omega)
  · rw [hr, hn]; exact a2
  · intro m c hm
    rw [hr] at hm
    obtain ⟨k1, hk1, hk2⟩ := a3 m c hm
    exact ⟨k1, hold c k1 hk1, hk2⟩
  · intro c k1 hc1
    rw [hk] at hc1
    by_cases hcn : c = w.next_cdd
    · subst hcn
      rw [upd_self] at hc1
      cases hc1
      refine ⟨id, true, false, hkd, ?_⟩
      rw [hkm]
      dsimp only
      rw [hkf, if_pos rfl]
      exact ⟨hf, rfl, rfl⟩
    · rw [upd_other _ _ _ _ hcn] at hc1
      obtain ⟨i1, wf, ws, hd, hm⟩ := a4 c k1 hc1
      refine ⟨i1, wf, ws, hd, ?_⟩
      cases hkm1 : k1.mbnode with
      | none =>
        rw [hkm1] at hm
        dsimp only at hm ⊢
        cases hkf1 : k1.is_folder with
        | true =>
          rw [hkf1, if_pos rfl, hslot] at hm
          cases hm.1
        | false =>
          rw [hkf1] at hm
          simp only [Bool.false_eq_true, if_false] at hm ⊢
          rw [hs]
          exact hm
      | some m =>
        rw [hkm1] at hm
        dsimp only at hm ⊢
        rw [hr]
        exact hm
  · intro c hc1
    rw [hf] at hc1
    cases hc1
    exact ⟨k, by rw [hk, upd_self], hkf, hkm⟩
  · intro c hc1
    rw [hs] at hc1
    obtain ⟨k1, hk1, hk2⟩ := a6 c hc1
    exact ⟨k1, hold c k1 hk1, hk2⟩

/-- Opening the subfolder-creation dialog while its static slot is NULL keeps
the invariant. -/
theorem inv_open_new_subfolder (w w1 : World) (h : Inv w) (k : DialogKey) (id : Nat)
    (hslot : w.sdd_new = none) (hkf : k.is_folder = false) (hkm : k.mbnode = none)
    (hkd : k.dialog = some (id, false, true))
    (hk : w1.keys = upd w.keys w.next_cdd (some k)) (hr : w1.regs = w.regs)
    (hf : w1.fcw_new = w.fcw_new) (hs : w1.sdd_new = some w.next_cdd)
    (hc : w1.next_cdd = w.next_cdd + 1) (hn : w1.next_node = w.next_node) : Inv w1 := by
  obtain ⟨a1, a2, a3, a4, a5, a6⟩ := h
  have hfresh : w.keys w.next_cdd = none := a1 _ (le_refl _)
  have hold : ∀ c k1, w.keys c = some k1 → w1.keys c = some k1 := by
    intro c k1 hk1
    have hcn : c ≠ w.next_cdd := by
      intro e
      rw [e, hfresh] at hk1
      cases hk1
    rw [hk, upd_other _ _ _ _ hcn]
    exact hk1
  refine ⟨?_, ?_, ?_, ?_, ?_, ?_⟩
  · intro c hle
    rw [hk, upd_other _ _ _ _ (by omega)]
    exact a1 c (by omega)
  · rw [hr, hn]; exact a2
  · intro m c hm
    rw [hr] at hm
    obtain ⟨k1, hk1, hk2⟩ := a3 m c hm
    exact ⟨k1, hold c k1 hk1, hk2⟩
  · intro c k1 hc1
    rw [hk] at hc1
    by_cases hcn : c = w.next_cdd
    · subst hcn
      rw [upd_self] at hc1
      cases hc1
      refine ⟨id, false, true, hkd, ?_⟩
      rw [hkm]
      dsimp only
      rw [hkf, if_neg Bool.false_ne_true]
      exact ⟨hs, rfl, rfl⟩
    · rw [upd_other _ _ _ _ hcn] at hc1
      obtain ⟨i1, wf, ws, hd, hm⟩ := a4 c k1 hc1
      refine ⟨i1, wf, ws, hd, ?_⟩
      cases hkm1 : k1.mbnode with
      | none =>
        rw [hkm1] at hm
        dsimp only at hm ⊢
        cases hkf1 : k1.is_folder with
        | true =>
          rw [hkf1, if_pos rfl] at hm
          rw [if_pos rfl, hf]
          exact hm
        | false =>
          rw [hkf1] at hm
          simp only [Bool.false_eq_true, if_false] at hm
          rw [hslot] at hm
          cases hm.1
      | some m =>
        rw [hkm1] at hm
        dsimp only at hm ⊢
        rw [hr]
        exact hm
  · intro c hc1
    rw [hf] at hc1
    obtain ⟨k1, hk1, hk2⟩ := a5 c hc1
    exact ⟨k1, hold c k1 hk1, hk2⟩
  · intro c hc1
    rw [hs] at hc1
    cases hc1
    exact ⟨k, by rw [hk, upd_self], hkf, hkm⟩

/-- Closing the dialog of a node (its record is freed and the node's datum is
cleared) keeps the invariant. -/
theorem inv_close_node (w w1 : World) (h : Inv w) (c : DataId) (k : DialogKey) (n : NodeId)
    (hkc : w.keys c = some k) (hkm : k.mbnode = some n)
    (hk : w1.keys = upd w.keys c none) (hr : w1.regs = upd w.regs n (some none))
    (hf : w1.fcw_new = w.fcw_new) (hs : w1.sdd_new = w.sdd_new)
    (hc : w1.next_cdd = w.next_cdd) (hn : w1.next_node = w.next_node) : Inv w1 := by
  obtain ⟨a1, a2, a3, a4, a5, a6⟩ := h
  have hregn : w.regs n = some (some c) := by
    obtain ⟨_, _, _, _, hm⟩ := a4 c k hkc
    rw [hkm] at hm
    exact hm.1
  refine ⟨?_, ?_, ?_, ?_, ?_, ?_⟩
  · intro c1 hle
    rw [hk, hc] at *
    by_cases hcc : c1 = c
    · rw [hcc, upd_self]
    · rw [upd_other _ _ _ _ hcc]
      exact a1 c1 hle
  · intro m hle
    rw [hn] at hle
    have hmn : m ≠ n := by
      intro e
      rw [← e, a2 m hle] at hregn
      cases hregn
    rw [hr, upd_other _ _ _ _ hmn]
    exact a2 m hle
  · intro m c1 hm
    rw [hr] at hm
    by_cases hmn : m = n
    · rw [hmn, upd_self] at hm
      cases hm
    · rw [upd_other _ _ _ _ hmn] at hm
      obtain ⟨k1, hk1, hk2⟩ := a3 m c1 hm
      have hcc : c1 ≠ c := by
        intro e
        rw [e, hkc] at hk1
        cases hk1
        rw [hkm] at hk2
        exact hmn (Option.some.inj hk2).symm
      exact ⟨k1, by rw [hk, upd_other _ _ _ _ hcc]; exact hk1, hk2⟩
  · intro c1 k1 hc1
    rw [hk] at hc1
    by_cases hcc : c1 = c
    · rw [hcc, upd_self] at hc1
      cases hc1
    · rw [upd_other _ _ _ _ hcc] at hc1
      obtain ⟨i1, wf, ws, hd, hm⟩ := a4 c1 k1 hc1
      refine ⟨i1, wf, ws, hd, ?_⟩
      cases hkm1 : k1.mbnode with
      | none =>
        rw [hkm1] at hm
        dsimp only at hm ⊢
        rw [hf, hs]
        exact hm
      | some m =>
        rw [hkm1] at hm
        dsimp only at hm ⊢
        have hmn : m ≠ n := by
          intro e
          have h1 := hm.1
          rw [e, hregn] at h1
          exact hcc (Option.some.inj (Option.some.inj h1)).symm
        rw [hr, upd_other _ _ _ _ hmn]
        exact hm
  · intro c1 hc1
    rw [hf] at hc1
    obtain ⟨k1, hk1, hk2, hk3⟩ := a5 c1 hc1
    have hcc : c1 ≠ c := by
      intro e
      rw [e, hkc] at hk1
      cases hk1
      rw [hkm] at hk3
      cases hk3
    exact ⟨k1, by rw [hk, upd_other _ _ _ _ hcc]; exact hk1, hk2, hk3⟩
  · intro c1 hc1
    rw [hs] at hc1
    obtain ⟨k1, hk1, hk2, hk3⟩ := a6 c1 hc1
    have hcc : c1 ≠ c := by
      intro e
      rw [e, hkc] at hk1
      cases hk1
      rw [hkm] at hk3
      cases hk3
    exact ⟨k1, by rw [hk, upd_other _ _ _ _ hcc]; exact hk1, hk2, hk3⟩

/-- Closing the folder-creation dialog keeps the invariant. -/
theorem inv_close_new_folder (w w1 : World) (h : Inv w) (c : DataId) (k : DialogKey)
    (hkc : w.keys c = some k) (hkf : k.is_folder = true) (hkm : k.mbnode = none)
    (hk : w1.keys = upd w.keys c none) (hr : w1.regs = w.regs)
    (hf : w1.fcw_new = none) (hs : w1.sdd_new = w.sdd_new)
    (hc : w1.next_cdd = w.next_cdd) (hn : w1.next_node = w.next_node) : Inv w1 := by
  obtain ⟨a1, a2, a3, a4, a5, a6⟩ := h
  have hslot : w.fcw_new = some c := by
    obtain ⟨_, _, _, _, hm⟩ := a4 c k hkc
    rw [hkm] at hm
    dsimp only at hm
    rw [hkf, if_pos rfl] at hm
    exact hm.1
  have hold : ∀ c1 k1, w.keys c1 = some k1 → (k1.mbnode ≠ none ∨ k1.is_folder = false) →
      w1.keys c1 = some k1 := by
    intro c1 k1 hk1 hne
    have hcc : c1 ≠ c := by
      intro e
      rw [e, hkc] at hk1
      cases hk1
      rcases hne with hne | hne
      · exact hne hkm
      · rw [hkf] at hne
        cases hne
    rw [hk, upd_other _ _ _ _ hcc]
    exact hk1
  refine ⟨?_, ?_, ?_, ?_, ?_, ?_⟩
  · intro c1 hle
    rw [hk]
    by_cases hcc : c1 = c
    · rw [hcc, upd_self]
    · rw [upd_other _ _ _ _ hcc]
      exact a1 c1 (by omega)
  · rw [hr, hn]; exact a2
  · intro m c1 hm
    rw [hr] at hm
    obtain ⟨k1, hk1, hk2⟩ := a3 m c1 hm
    exact ⟨k1, hold c1 k1 hk1 (Or.inl (by rw [hk2]; simp)), hk2⟩
  · intro c1 k1 hc1
    rw [hk] at hc1
    by_cases hcc : c1 = c
    · rw [hcc, upd_self] at hc1
      cases hc1
    · rw [upd_other _ _ _ _ hcc] at hc1
      obtain ⟨i1, wf, ws, hd, hm⟩ := a4 c1 k1 hc1
      refine ⟨i1, wf, ws, hd, ?_⟩
      cases hkm1 : k1.mbnode with
      | none =>
        rw [hkm1] at hm
        dsimp only at hm ⊢
        cases hkf1 : k1.is_folder with
        | true =>
          rw [hkf1, if_pos rfl, hslot] at hm
          exact absurd (Option.some.inj hm.1).symm hcc
        | false =>
          rw [hkf1, if_neg Bool.false_ne_true] at hm
          rw [if_neg Bool.false_ne_true, hs]
          exact hm
      | some m =>
        rw [hkm1] at hm
        dsimp only at hm ⊢
        rw [hr]
        exact hm
  · intro c1 hc1
    rw [hf] at hc1
    cases hc1
  · intro c1 hc1
    rw [hs] at hc1
    obtain ⟨k1, hk1, hk2, hk3⟩ := a6 c1 hc1
    exact ⟨k1, hold c1 k1 hk1 (Or.inr hk2), hk2, hk3⟩

/-- Closing the subfolder-creation dialog keeps the invariant. -/
theorem inv_close_new_subfolder (w w1 : World) (h : Inv w) (c : DataId) (k : DialogKey)
    (hkc : w.keys c = some k) (hkf : k.is_folder = false) (hkm : k.mbnode = none)
    (hk : w1.keys = upd w.keys c none) (hr : w1.regs = w.regs)
    (hf : w1.fcw_new = w.fcw_new) (hs : w1.sdd_new = none)
    (hc : w1.next_cdd = w.next_cdd) (hn : w1.next_node = w.next_node) : Inv w1 := by
  obtain ⟨a1, a2, a3, a4, a5, a6⟩ := h
  have hslot : w.sdd_new = some c := by
    obtain ⟨_, _, _, _, hm⟩ := a4 c k hkc
    rw [hkm] at hm
    dsimp only at hm
    rw [hkf, if_neg Bool.false_ne_true] at hm
    exact hm.1
  have hold : ∀ c1 k1, w.keys c1 = some k1 → (k1.mbnode ≠ none ∨ k1.is_folder = true) →
      w1.keys c1 = some k1 := by
    intro c1 k1 hk1 hne
    have hcc : c1 ≠ c := by
      intro e
      rw [e, hkc] at hk1
      cases hk1
      rcases hne with hne | hne
      · exact hne hkm
      · rw [hkf] at hne
        cases hne
    rw [hk, upd_other _ _ _ _ hcc]
    exact hk1
  refine ⟨?_, ?_, ?_, ?_, ?_, ?_⟩
  · intro c1 hle
    rw [hk]
    by_cases hcc : c1 = c
    · rw [hcc, upd_self]
    · rw [upd_other _ _ _ _ hcc]
      exact a1 c1 (by omega)
  · rw [hr, hn]; exact a2
  · intro m c1 hm
    rw [hr] at hm
    obtain ⟨k1, hk1, hk2⟩ := a3 m c1 hm
    exact ⟨k1, hold c1 k1 hk1 (Or.inl (by rw [hk2]; simp)), hk2⟩
  · intro c1 k1 hc1
    rw [hk] at hc1
    by_cases hcc : c1 = c
    · rw [hcc, upd_self] at hc1
      cases hc1
    · rw [upd_other _ _ _ _ hcc] at hc1
      obtain ⟨i1, wf, ws, hd, hm⟩ := a4 c1 k1 hc1
      refine ⟨i1, wf, ws, hd, ?_⟩
      cases hkm1 : k1.mbnode with
      | none =>
        rw [hkm1] at hm
        dsimp only at hm ⊢
        cases hkf1 : k1.is_folder with
        | true =>
          rw [hkf1, if_pos rfl] at hm
          rw [if_pos rfl, hf]
          exact hm
        | false =>
          rw [hkf1, if_neg Bool.false_ne_true, hslot] at hm
          exact absurd (Option.some.inj hm.1).symm hcc
      | some m =>
        rw [hkm1] at hm
        dsimp only at hm ⊢
        rw [hr]
        exact hm
  · intro c1 hc1
    rw [hf] at hc1
    obtain ⟨k1, hk1, hk2, hk3⟩ := a5 c1 hc1
    exact ⟨k1, hold c1 k1 hk1 (Or.inr hk2), hk2, hk3⟩
  · intro c1 hc1
    rw [hs] at hc1
    cases hc1

/-- Allocating a node that carries no datum keeps the invariant. -/
theorem inv_new_node (w w1 : World) (h : Inv w)
    (hk : w1.keys = w.keys) (hr : w1.regs = upd w.regs w.next_node (some none))
    (hf : w1.fcw_new = w.fcw_new) (hs : w1.sdd_new = w.sdd_new)
    (hc : w1.next_cdd = w.next_cdd) (hn : w1.next_node = w.next_node + 1) : Inv w1 := by
  obtain ⟨a1, a2, a3, a4, a5, a6⟩ := h
  have hfresh : w.regs w.next_node = none := a2 _ (le_refl _)
  refine ⟨?_, ?_, ?_, ?_, ?_, ?_⟩
  · rw [hk, hc]; exact a1
  · intro m hle
    rw [hr, upd_other _ _ _ _ (by omega)]
    exact a2 m (by omega)
  · intro m c1 hm
    rw [hr] at hm
    by_cases hmn : m = w.next_node
    · rw [hmn, upd_self] at hm
      cases hm
    · rw [upd_other _ _ _ _ hmn] at hm
      rw [hk]
      exact a3 m c1 hm
  · intro c1 k1 hc1
    rw [hk] at hc1
    obtain ⟨i1, wf, ws, hd, hm⟩ := a4 c1 k1 hc1
    refine ⟨i1, wf, ws, hd, ?_⟩
    cases hkm1 : k1.mbnode with
    | none =>
      rw [hkm1] at hm
      dsimp only at hm ⊢
      rw [hf, hs]
      exact hm
    | some m =>
      rw [hkm1] at hm
      dsimp only at hm ⊢
      have hmn : m ≠ w.next_node := by
        intro e
        have h1 := hm.1
        rw [e, hfresh] at h1
        cases h1
      rw [hr, upd_other _ _ _ _ hmn]
      exact hm
  · rw [hk, hf]; exact a5
  · rw [hk, hs]; exact a6

/-! ## The bookkeeping view of the operations -/

@[simp] theorem server_set_next_cdd (w : World) (s : Option ServerId)
    (f : LibBalsaServer → LibBalsaServer) : (server_set w s f).next_cdd = w.next_cdd := by
  rw [server_set_eq]
@[simp] theorem server_set_next_dialog (w : World) (s : Option ServerId)
    (f : LibBalsaServer → LibBalsaServer) :
    (server_set w s f).next_dialog = w.next_dialog := by
  rw [server_set_eq]
@[simp] theorem server_set_bbds (w : World) (s : Option ServerId)
    (f : LibBalsaServer → LibBalsaServer) : (server_set w s f).bbds = w.bbds := by
  rw [server_set_eq]

@[simp] theorem keys_emit (w : World) (e : Event) : (w.emit e).keys = w.keys := rfl
@[simp] theorem regs_emit (w : World) (e : Event) : (w.emit e).regs = w.regs := rfl

@[simp] theorem keys_server_set (w : World) (s : Option ServerId)
    (f : LibBalsaServer → LibBalsaServer) : (server_set w s f).keys = w.keys := by
  funext c; simp only [World.keys, server_set_cdds]
@[simp] theorem regs_server_set (w : World) (s : Option ServerId)
    (f : LibBalsaServer → LibBalsaServer) : (server_set w s f).regs = w.regs := by
  funext n; simp only [World.regs, server_set_nodes]
@[simp] theorem keys_node_set (w : World) (mn : Option NodeId)
    (f : BalsaMailboxNode → BalsaMailboxNode) : (node_set w mn f).keys = w.keys := by
  funext c; simp only [World.keys, node_set_cdds]

/-- A node setter that leaves the registered datum alone leaves the view alone. -/
theorem regs_node_set_same (w : World) (mn : Option NodeId)
    (f : BalsaMailboxNode → BalsaMailboxNode) (hf : ∀ nd, (f nd).conf_data = nd.conf_data) :
    (node_set w mn f).regs = w.regs := by
  funext j
  simp only [World.regs, node_set_get]
  split
  · cases w.nodes j <;> simp [hf]
  · rfl

/-- Registering or clearing the datum of an existing node. -/
theorem regs_node_set_conf (w : World) (n : NodeId) (v x : Option DataId)
    (h : w.regs n = some x) :
    (node_set w (some n) (fun nd => { nd with conf_data := v })).regs
      = upd w.regs n (some v) := by
  funext j
  simp only [World.regs, node_set_get, upd]
  by_cases hj : j = n
  · subst hj
    simp only [World.regs] at h
    cases hnd : w.nodes j with
    | none => rw [hnd] at h; cases h
    | some nd => simp
  · have hj1 : ¬ (some n : Option NodeId) = some j := fun e => hj (Option.some.inj e).symm
    simp [hj, hj1]

/-- The effect of `g_clear_pointer(&cdd->dialog, gtk_widget_destroy)` on a
record whose window is open. -/
theorem destroy_dialog_eq (c : DataId) (w : World) (d : DialogData) (g : GtkDialog)
    (hd : w.cdds c = some d) (hg : d.cdd.dialog = some g) :
    (destroy_dialog c w).cdds
        = upd w.cdds c (some (d.set_cdd { d.cdd with dialog := none })) ∧
    (destroy_dialog c w).nodes = w.nodes ∧
    (destroy_dialog c w).fcw_new = (if g.weak_fcw_new then none else w.fcw_new) ∧
    (destroy_dialog c w).sdd_new = (if g.weak_sdd_new then none else w.sdd_new) ∧
    (destroy_dialog c w).next_cdd = w.next_cdd ∧
    (destroy_dialog c w).next_node = w.next_node ∧
    (destroy_dialog c w).trace = w.trace ++ [.gtk_widget_destroy g.id] := by
  unfold destroy_dialog
  simp only [hd, hg]
  cases g.weak_fcw_new <;> cases g.weak_sdd_new <;> simp [World.emit]

theorem set_cdd_cdd (d : DialogData) (x : CommonDialogData) : (d.set_cdd x).cdd = x := by
  cases d <;> rfl

theorem default_view_node (c : DataId) (w : World) (d : DialogData) (g : GtkDialog)
    (n : NodeId) (hd : w.cdds c = some d) (hg : d.cdd.dialog = some g)
    (hm : d.cdd.mbnode = some n) (hreg : w.regs n = some (some c)) :
    (folder_conf_response_default c w).keys = upd w.keys c none ∧
    (folder_conf_response_default c w).regs = upd w.regs n (some none) ∧
    (folder_conf_response_default c w).fcw_new
      = (if g.weak_fcw_new then none else w.fcw_new) ∧
    (folder_conf_response_default c w).sdd_new
      = (if g.weak_sdd_new then none else w.sdd_new) ∧
    (folder_conf_response_default c w).next_cdd = w.next_cdd ∧
    (folder_conf_response_default c w).next_node = w.next_node := by
  obtain ⟨e1, e2, e3, e4, e5, e6, _⟩ := destroy_dialog_eq c w d g hd hg
  have hc2 : (destroy_dialog c w).cdds c = some (d.set_cdd { d.cdd with dialog := none }) := by
    rw [e1, upd_self]
  have hreg2 : (destroy_dialog c w).regs n = some (some c) := by
    simp only [World.regs, e2]; exact hreg
  have hold : get_conf_data (destroy_dialog c w) (some n) = some c := by
    simp only [World.regs] at hreg2
    simp only [get_conf_data, Option.bind]
    cases hnd : (destroy_dialog c w).nodes n with
    | none => rw [hnd] at hreg2; cases hreg2
    | some nd =>
      rw [hnd] at hreg2
      simpa using hreg2
  unfold folder_conf_response_default
  simp only [hc2, set_cdd_cdd, hm, g_object_set_data_null, hold]
  unfold folder_conf_destroy_cdd
  simp only [node_set_cdds, hc2, set_cdd_cdd, Option.isSome_none, Bool.false_eq_true, if_false]
  refine ⟨?_, ?_, ?_, ?_, ?_, ?_⟩
  · funext i
    simp only [World.keys, g_free_cdd, node_set_cdds, e1, upd]
    split <;> rfl
  · have : (g_free_cdd c (node_set (destroy_dialog c w) (some n)
        (fun nd => { nd with conf_data := none }))).regs
        = (node_set (destroy_dialog c w) (some n)
            (fun nd => { nd with conf_data := none })).regs := rfl
    have hregs : (destroy_dialog c w).regs = w.regs := by
      funext j; simp only [World.regs, e2]
    rw [this, regs_node_set_conf _ n none (some c) hreg2, hregs]
  · simp [g_free_cdd, e3]
  · simp [g_free_cdd, e4]
  · simp [g_free_cdd, e5]
  · simp [g_free_cdd, e6]

theorem default_view_no_node (c : DataId) (w : World) (d : DialogData) (g : GtkDialog)
    (hd : w.cdds c = some d) (hg : d.cdd.dialog = some g) (hm : d.cdd.mbnode = none) :
    (folder_conf_response_default c w).keys = upd w.keys c none ∧
    (folder_conf_response_default c w).regs = w.regs ∧
    (folder_conf_response_default c w).fcw_new
      = (if g.weak_fcw_new then none else w.fcw_new) ∧
    (folder_conf_response_default c w).sdd_new
      = (if g.weak_sdd_new then none else w.sdd_new) ∧
    (folder_conf_response_default c w).next_cdd = w.next_cdd ∧
    (folder_conf_response_default c w).next_node = w.next_node := by
  obtain ⟨e1, e2, e3, e4, e5, e6, _⟩ := destroy_dialog_eq c w d g hd hg
  have hc2 : (destroy_dialog c w).cdds c = some (d.set_cdd { d.cdd with dialog := none }) := by
    rw [e1, upd_self]
  unfold folder_conf_response_default
  simp only [hc2, set_cdd_cdd, hm]
  refine ⟨?_, ?_, ?_, ?_, ?_, ?_⟩
  · funext i
    simp only [World.keys, g_free_cdd, e1, upd]
    split <;> rfl
  · funext j; simp only [World.regs, g_free_cdd, e2]
  · simp [g_free_cdd, e3]
  · simp [g_free_cdd, e4]
  · simp [g_free_cdd, e5]
  · simp [g_free_cdd, e6]

/-- From the view of a live record back to the record. -/
theorem key_dialog (d : DialogData) (id : Nat) (wf ws : Bool)
    (h : d.key.dialog = some (id, wf, ws)) :
    ∃ g, d.cdd.dialog = some g ∧ g.weak_fcw_new = wf ∧ g.weak_sdd_new = ws := by
  simp only [DialogData.key] at h
  cases hg : d.cdd.dialog with
  | none => rw [hg] at h; cases h
  | some g =>
    rw [hg] at h
    simp only [Option.map_some', Option.some.injEq, Prod.mk.injEq] at h
    exact ⟨g, rfl, h.2.1, h.2.2⟩

theorem keys_of_cdds (w : World) (c : DataId) (d : DialogData) (h : w.cdds c = some d) :
    w.keys c = some d.key := by
  simp [World.keys, h]

/-- The `default:` arm of folder_conf_response keeps the invariant. -/
theorem inv_default (c : DataId) (w : World) (h : Inv w) :
    Inv (folder_conf_response_default c w) := by
  cases hd : w.cdds c with
  | none =>
    have : folder_conf_response_default c w = w := by
      unfold folder_conf_response_default destroy_dialog
      simp [hd]
    rw [this]; exact h
  | some d =>
    have hk := keys_of_cdds w c d hd
    obtain ⟨id, wf, ws, hkd, hown⟩ := h.live c d.key hk
    obtain ⟨g, hg, hwf, hws⟩ := key_dialog d id wf ws hkd
    cases hm : d.cdd.mbnode with
    | some n =>
      have hkm : d.key.mbnode = some n := hm
      rw [hkm] at hown
      dsimp only at hown
      obtain ⟨hreg, hwf0, hws0⟩ := hown
      obtain ⟨v1, v2, v3, v4, v5, v6⟩ := default_view_node c w d g n hd hg hm hreg
      rw [hwf, hwf0] at v3
      rw [hws, hws0] at v4
      exact inv_close_node w _ h c d.key n hk hkm v1 v2 (by simpa using v3) (by simpa using v4)
        v5 v6
    | none =>
      have hkm : d.key.mbnode = none := hm
      rw [hkm] at hown
      dsimp only at hown
      obtain ⟨v1, v2, v3, v4, v5, v6⟩ := default_view_no_node c w d g hd hg hm
      cases hf : d.key.is_folder with
      | true =>
        rw [hf, if_pos rfl] at hown
        obtain ⟨_, hwf0, hws0⟩ := hown
        rw [hwf, hwf0] at v3
        rw [hws, hws0] at v4
        exact inv_close_new_folder w _ h c d.key hk hf hkm v1 v2 (by simpa using v3)
          (by simpa using v4) v5 v6
      | false =>
        rw [hf, if_neg Bool.false_ne_true] at hown
        obtain ⟨_, hwf0, hws0⟩ := hown
        rw [hwf, hwf0] at v3
        rw [hws, hws0] at v4
        exact inv_close_new_subfolder w _ h c d.key hk hf hkm v1 v2 (by simpa using v3)
          (by simpa using v4) v5 v6

theorem same_view_refl (w : World) : same_view w w := ⟨rfl, rfl, rfl, rfl, rfl, rfl⟩

theorem same_view_emit (w w1 : World) (e : Event) (h : same_view w w1) :
    same_view w (w1.emit e) := h

theorem same_view_set_dir (w w1 : World) (mn : Option NodeId) (v : String)
    (h : same_view w w1) : same_view w (balsa_mailbox_node_set_dir w1 mn v) := by
  obtain ⟨h1, h2, h3, h4, h5, h6⟩ := h
  unfold balsa_mailbox_node_set_dir
  refine ⟨by simp [h1], ?_, by simp [h3], by simp [h4], by simp [h5], by simp [h6]⟩
  have hreg := regs_node_set_same w1 mn (fun nd => { nd with dir := some v }) (fun _ => rfl)
  rw [hreg, h2]

theorem rescan_after_rename_view (env : Env) (fuel : Nat) (sdd : SubfolderDialogData)
    (parent : String) (w0 w w1 : World) (h : same_view w0 w)
    (he : rescan_after_rename env fuel sdd parent w = some w1) : same_view w0 w1 := by
  have hs := same_view_set_dir w0 w sdd.cdd.mbnode parent h
  unfold rescan_after_rename at he
  dsimp only at he
  split at he
  · split at he <;> (cases he; exact hs)
  · split at he
    · split at he <;> (cases he; exact hs)
    · split at he
      · cases he
      · cases he; exact hs

theorem subfolder_conf_clicked_ok_view (env : Env) (fuel : Nat) (sdd : SubfolderDialogData)
    (w w1 : World) (b : Bool) (he : subfolder_conf_clicked_ok env fuel sdd w = some (b, w1)) :
    same_view w w1 := by
  unfold subfolder_conf_clicked_ok at he
  rw [debug_emit_eq] at he
  have h0 : same_view w { w with trace := w.trace ++ debug_events sdd w } :=
    ⟨rfl, rfl, rfl, rfl, rfl, rfl⟩
  generalize ({ w with trace := w.trace ++ debug_events sdd w } : World) = wa at he h0
  dsimp only at he
  split at he
  · have h1 : same_view w (match balsa_mailbox_node_get_mailbox wa sdd.cdd.mbnode with
        | some m => wa.emit (.mailbox_conf_view_check sdd.mcv m.id)
        | none => wa) := by
      split
      · exact h0
      · exact h0
    generalize (match balsa_mailbox_node_get_mailbox wa sdd.cdd.mbnode with
        | some m => wa.emit (.mailbox_conf_view_check sdd.mcv m.id)
        | none => wa) = wb at he h1
    split at he
    · have h2 : same_view w (if (g_strcmp0 sdd.old_folder (some "INBOX") == 0
            && (decide (sdd.old_parent = none) || decide (sdd.old_parent = some ""))) = true then
          (env.rename_inbox_answer,
            wb.emit (.gtk_dialog_run (gettext "Question")
              (rename_inbox_msg sdd.folder_name sdd.parent_folder)))
          else (GTK_RESPONSE_OK, wb)).2 := by
        split
        · exact h1
        · exact h1
      generalize (if (g_strcmp0 sdd.old_folder (some "INBOX") == 0
            && (decide (sdd.old_parent = none) || decide (sdd.old_parent = some ""))) = true then
          (env.rename_inbox_answer,
            wb.emit (.gtk_dialog_run (gettext "Question")
              (rename_inbox_msg sdd.folder_name sdd.parent_folder)))
          else (GTK_RESPONSE_OK, wb)) = p at he h2
      obtain ⟨btn, wc⟩ := p
      dsimp only at he h2
      split at he
      · split at he
        · cases he; exact h2
        · cases hr : rescan_after_rename env fuel sdd sdd.parent_folder
              ((wc.emit (.balsa_window_close_mbnode sdd.cdd.mbnode)).emit
                (.libbalsa_imap_rename_subfolder
                  ((balsa_mailbox_node_get_mailbox
                      (wc.emit (.balsa_window_close_mbnode sdd.cdd.mbnode))
                      sdd.cdd.mbnode).map (fun m => m.id))
                  sdd.parent_folder sdd.folder_name
                  (balsa_mailbox_node_get_subscribed
                    (wc.emit (.balsa_window_close_mbnode sdd.cdd.mbnode)) sdd.cdd.mbnode))) with
          | none => rw [hr] at he; cases he
          | some wd =>
            rw [hr] at he
            cases he
            exact rescan_after_rename_view env fuel sdd _ w _ _
              (same_view_emit _ _ _ (same_view_emit _ _ _ h2)) hr
      · cases he; exact h2
    · cases he; exact h1
  · split at he <;> (cases he; exact h0)

theorem upd_upd {α : Type} (h : Nat → Option α) (k : Nat) (v v1 : Option α) :
    upd (upd h k v) k v1 = upd h k v1 := by
  funext i
  simp only [upd]
  split <;> rfl

theorem folder_conf_clicked_ok_update_view (env : Env) (c : DataId) (fcw : FolderDialogData)
    (w : World) (n : NodeId) (hm : fcw.cdd.mbnode = some n) :
    same_view w (folder_conf_clicked_ok env c fcw w).2.2 := by
  simp only [folder_conf_clicked_ok, hm,
      libbalsa_server_set_security, libbalsa_imap_server_set_max_connections,
      libbalsa_imap_server_enable_persistent_cache, libbalsa_imap_server_set_use_idle,
      libbalsa_imap_server_set_bug_fetch, libbalsa_imap_server_set_use_status,
      libbalsa_server_set_username, libbalsa_server_set_try_anonymous,
      libbalsa_server_set_remember_passwd, libbalsa_server_set_password,
      libbalsa_server_set_host, balsa_mailbox_node_set_dir, balsa_mailbox_node_set_name,
      balsa_mailbox_node_set_subscribed, balsa_mailbox_node_set_list_inbox]
  refine ⟨by simp, ?_, by simp, by simp, by simp, by simp⟩
  simp [regs_node_set_same]

theorem folder_conf_clicked_ok_create_view (env : Env) (c : DataId) (fcw : FolderDialogData)
    (w : World) (hm : fcw.cdd.mbnode = none) :
    (folder_conf_clicked_ok env c fcw w).2.2.cdds = w.cdds ∧
    (folder_conf_clicked_ok env c fcw w).2.2.regs = upd w.regs w.next_node (some (some c)) ∧
    (folder_conf_clicked_ok env c fcw w).2.2.fcw_new = w.fcw_new ∧
    (folder_conf_clicked_ok env c fcw w).2.2.sdd_new = w.sdd_new ∧
    (folder_conf_clicked_ok env c fcw w).2.2.next_cdd = w.next_cdd ∧
    (folder_conf_clicked_ok env c fcw w).2.2.next_node = w.next_node + 1 := by
  simp only [folder_conf_clicked_ok, hm, libbalsa_imap_server_new,
      balsa_mailbox_node_new_imap_folder,
      libbalsa_server_set_security, libbalsa_imap_server_set_max_connections,
      libbalsa_imap_server_enable_persistent_cache, libbalsa_imap_server_set_use_idle,
      libbalsa_imap_server_set_bug_fetch, libbalsa_imap_server_set_use_status,
      libbalsa_server_set_username, libbalsa_server_set_try_anonymous,
      libbalsa_server_set_remember_passwd, libbalsa_server_set_password,
      libbalsa_server_set_host, balsa_mailbox_node_set_dir, balsa_mailbox_node_set_name,
      balsa_mailbox_node_set_subscribed, balsa_mailbox_node_set_list_inbox]
  refine ⟨by simp, ?_, by simp, by simp, by simp, by simp⟩
  funext j
  by_cases hj : j = w.next_node
  · subst hj
    simp [World.regs, node_set_get, upd]
  · have hj1 : ¬ w.next_node = j := fun e => hj e.symm
    simp [World.regs, node_set_get, upd, hj, hj1]

/-- Creating a folder from the folder-creation dialog and closing it (a node
without datum is allocated, the record is freed, the static slot is cleared)
keeps the invariant. -/
theorem inv_create_close (w w1 : World) (h : Inv w) (c : DataId) (k : DialogKey)
    (hkc : w.keys c = some k) (hkf : k.is_folder = true) (hkm : k.mbnode = none)
    (hk : w1.keys = upd w.keys c none)
    (hr : w1.regs = upd w.regs w.next_node (some none))
    (hf : w1.fcw_new = none) (hs : w1.sdd_new = w.sdd_new)
    (hc : w1.next_cdd = w.next_cdd) (hn : w1.next_node = w.next_node + 1) : Inv w1 := by
  let nd : BalsaMailboxNode :=
    { name := none, dir := none, server := none, subscribed := false, list_inbox := false,
      parent := none, mailbox := none, config_pfx := none, conf_data := none }
  let wi : World := { w with nodes := upd w.nodes w.next_node (some nd),
                             next_node := w.next_node + 1 }
  have hri : wi.regs = upd w.regs w.next_node (some none) := by
    funext j
    simp only [World.regs, wi, upd]
    split <;> rfl
  have hi : Inv wi := inv_new_node w wi h rfl hri rfl rfl rfl rfl
  exact inv_close_new_folder wi w1 hi c k hkc hkf hkm hk (by rw [hr, hri]) hf hs hc hn

theorem inv_of_same_view (w w1 : World) (h : Inv w) (hv : same_view w w1) : Inv w1 := by
  obtain ⟨h1, h2, h3, h4, h5, h6⟩ := hv
  exact inv_congr w w1 h (by funext i; simp only [World.keys, h1]) h2 h3 h4 h5 h6

/-- Every response other than Help keeps the invariant. -/
theorem inv_response (env : Env) (fuel : Nat) (r : Int) (c : DataId) (w w1 : World)
    (h : Inv w) (hr : r ≠ GTK_RESPONSE_HELP)
    (he : folder_conf_response env fuel r c w = some w1) : Inv w1 := by
  unfold folder_conf_response at he
  cases hd : w.cdds c with
  | none =>
    rw [hd] at he
    cases he
    exact h
  | some d =>
    rw [hd] at he
    simp only [if_neg hr] at he
    by_cases hok : r = GTK_RESPONSE_OK
    · simp only [if_pos hok] at he
      cases d with
      | subfolder sdd =>
        simp only [cdd_ok] at he
        cases hres : subfolder_conf_clicked_ok env fuel sdd w with
        | none => rw [hres] at he; cases he
        | some p =>
          obtain ⟨b, w2⟩ := p
          rw [hres] at he
          have h2 : Inv w2 :=
            inv_of_same_view w w2 h (subfolder_conf_clicked_ok_view env fuel sdd w w2 b hres)
          cases b with
          | false => cases he; exact h2
          | true => cases he; exact inv_default c w2 h2
      | folder fcw =>
        simp only [cdd_ok] at he
        cases hm : fcw.cdd.mbnode with
        | some n =>
          obtain ⟨e1, e2, _⟩ := folder_conf_clicked_ok_update env c fcw w n hm
          have hv := folder_conf_clicked_ok_update_view env c fcw w n hm
          generalize folder_conf_clicked_ok env c fcw w = res at he e1 e2 hv
          obtain ⟨b, fcw1, w2⟩ := res
          simp only at e1 e2 hv he
          subst e1 e2
          cases he
          apply inv_default
          apply inv_of_same_view w _ h
          obtain ⟨v1, v2, v3, v4, v5, v6⟩ := hv
          refine ⟨?_, v2, v3, v4, v5, v6⟩
          funext i
          simp only [v1, upd]
          split
          · rename_i hi
            rw [hi, hd]
          · rfl
        | none =>
          obtain ⟨e1, e2, _⟩ := folder_conf_clicked_ok_create env c fcw w hm
          obtain ⟨v1, v2, v3, v4, v5, v6⟩ := folder_conf_clicked_ok_create_view env c fcw w hm
          generalize folder_conf_clicked_ok env c fcw w = res at he e1 e2 v1 v2 v3 v4 v5 v6
          obtain ⟨b, fcw1, w2⟩ := res
          simp only at e1 e2 v1 v2 v3 v4 v5 v6 he
          subst e1
          cases he
          have hk := keys_of_cdds w c _ hd
          obtain ⟨id, wf, ws, hkd, hown⟩ := h.live c _ hk
          obtain ⟨g, hg, hwf, hws⟩ := key_dialog _ id wf ws hkd
          have hkm : (DialogData.folder fcw).key.mbnode = none := hm
          rw [hkm] at hown
          dsimp only at hown
          have hkf : (DialogData.folder fcw).key.is_folder = true := rfl
          rw [hkf, if_pos rfl] at hown
          obtain ⟨_, hwf0, hws0⟩ := hown
          have hg1 : (DialogData.folder fcw1).cdd.dialog = some g := by
            rw [e2]; exact hg
          have hm1 : (DialogData.folder fcw1).cdd.mbnode = some w.next_node := by
            rw [e2]; rfl
          obtain ⟨u1, u2, u3, u4, u5, u6⟩ :=
            default_view_node c { w2 with cdds := upd w2.cdds c (some (.folder fcw1)) }
              (.folder fcw1) g w.next_node (upd_self _ _ _) hg1 hm1
              (by
                show w2.regs w.next_node = some (some c)
                rw [v2, upd_self])
          refine inv_create_close w _ h c _ hk hkf hkm ?_ ?_ ?_ ?_ ?_ ?_
          · rw [u1]
            funext i
            simp only [World.keys, v1, upd]
            split <;> rfl
          · rw [u2]
            show upd w2.regs w.next_node (some none) = _
            rw [v2, upd_upd]
          · rw [u3, hwf, hwf0]; rfl
          · rw [u4, hws, hws0]; exact v4
          · rw [u5]; exact v5
          · rw [u6]; exact v6
    · simp only [if_neg hok] at he
      cases he
      exact inv_default c w h

theorem regs_of_nodes (w : World) (n : NodeId) (hex : w.nodes n ≠ none)
    (hc : get_conf_data w (some n) = none) : w.regs n = some none := by
  simp only [World.regs]
  cases hnd : w.nodes n with
  | none => exact absurd hnd hex
  | some nd =>
    simp only [get_conf_data, Option.bind, hnd] at hc
    simp [hc]

/-- The bookkeeping view after `folder_conf_imap_node` made a new dialog. -/
theorem folder_conf_imap_node_new_view (crypt : NetClientCryptMode) (env : Env)
    (bsc0 : BalsaServerConf)
    (mn : Option NodeId) (w : World)
    (hnone : (if mn.isSome then get_conf_data w mn else w.fcw_new) = none) :
    (folder_conf_imap_node crypt env bsc0 mn w).keys
      = upd w.keys w.next_cdd
          (some { is_folder := true, mbnode := mn,
                  dialog := some (w.next_dialog, mn.isNone, false) }) ∧
    (folder_conf_imap_node crypt env bsc0 mn w).regs
      = (node_set w mn (fun nd => { nd with conf_data := some w.next_cdd })).regs ∧
    (folder_conf_imap_node crypt env bsc0 mn w).fcw_new
      = (if mn.isSome then w.fcw_new else some w.next_cdd) ∧
    (folder_conf_imap_node crypt env bsc0 mn w).sdd_new = w.sdd_new ∧
    (folder_conf_imap_node crypt env bsc0 mn w).next_cdd = w.next_cdd + 1 ∧
    (folder_conf_imap_node crypt env bsc0 mn w).next_node = w.next_node := by
  unfold folder_conf_imap_node
  simp only [hnone]
  cases mn with
  | none =>
    refine ⟨?_, ?_, ?_, ?_, ?_, ?_⟩
    · funext i
      simp only [World.keys, upd]
      split
      · simp [DialogData.key, DialogData.cdd, validate_folder, set_ok_response_sensitive,
          set_default_response, folder_conf_imap_node_form]
      · rfl
    · rfl
    · rfl
    · rfl
    · rfl
    · rfl
  | some n =>
    refine ⟨?_, ?_, ?_, ?_, ?_, ?_⟩
    · funext i
      simp only [World.keys, upd, node_set_cdds, emit_cdds]
      split
      · simp [DialogData.key, DialogData.cdd, validate_folder, set_ok_response_sensitive,
          set_default_response, folder_conf_imap_node_form]
      · rfl
    · funext j
      simp only [World.regs, node_set_get, emit_nodes]
    · simp
    · simp
    · simp
    · simp

/-- Opening a folder dialog keeps the invariant. -/
theorem inv_open_folder (crypt : NetClientCryptMode) (env : Env) (bsc0 : BalsaServerConf)
    (mn : Option NodeId) (w : World)
    (h : Inv w) (hex : ∀ n, mn = some n → w.nodes n ≠ none) :
    Inv (folder_conf_imap_node crypt env bsc0 mn w) := by
  cases hsel : (if mn.isSome then get_conf_data w mn else w.fcw_new) with
  | some c =>
    have : folder_conf_imap_node crypt env bsc0 mn w
        = w.emit (.gtk_window_present
            (((w.cdds c).bind (fun d => d.cdd.dialog)).map (fun d => d.id))) := by
      unfold folder_conf_imap_node
      simp only [hsel]
    rw [this]
    exact inv_of_same_view w _ h (same_view_emit w w _ (same_view_refl w))
  | none =>
    obtain ⟨v1, v2, v3, v4, v5, v6⟩ := folder_conf_imap_node_new_view crypt env bsc0 mn w hsel
    cases mn with
    | none =>
      simp only [Option.isSome_none, Bool.false_eq_true, if_false] at hsel v3
      exact inv_open_new_folder w _ h _ w.next_dialog hsel rfl rfl rfl v1 v2 v3 v4 v5 v6
    | some n =>
      simp only [Option.isSome_some, if_true] at hsel v3
      have hreg := regs_of_nodes w n (hex n rfl) hsel
      rw [regs_node_set_conf w n _ none hreg] at v2
      exact inv_open_node w _ h n _ w.next_dialog hreg rfl rfl v1 v2 v3 v4 v5 v6

/-- The bookkeeping view after `folder_conf_imap_sub_node` made a new dialog. -/
theorem folder_conf_imap_sub_node_new_view (mn : Option NodeId) (w : World)
    (hnone : (if mn.isSome then get_conf_data w mn else w.sdd_new) = none)
    (hmb : (mn.isSome && (balsa_mailbox_node_get_mailbox w mn).isNone) = false) :
    (folder_conf_imap_sub_node mn w).keys
      = upd w.keys w.next_cdd
          (some { is_folder := false, mbnode := mn,
                  dialog := some (w.next_dialog, false, mn.isNone) }) ∧
    (folder_conf_imap_sub_node mn w).regs
      = (node_set w mn (fun nd => { nd with conf_data := some w.next_cdd })).regs ∧
    (folder_conf_imap_sub_node mn w).fcw_new = w.fcw_new ∧
    (folder_conf_imap_sub_node mn w).sdd_new
      = (if mn.isSome then w.sdd_new else some w.next_cdd) ∧
    (folder_conf_imap_sub_node mn w).next_cdd = w.next_cdd + 1 ∧
    (folder_conf_imap_sub_node mn w).next_node = w.next_node := by
  cases mn with
  | none =>
    simp only [Option.isSome_none, Bool.false_eq_true, if_false] at hnone
    unfold folder_conf_imap_sub_node
    simp only [Option.isSome_none, Bool.false_eq_true, if_false, hnone, Bool.false_and,
      Option.isNone_none, if_true]
    refine ⟨?_, ?_, ?_, ?_, ?_, ?_⟩
    · funext i
      by_cases hi : i = w.next_cdd
      · subst hi
        simp [World.keys, upd, DialogData.key, DialogData.cdd, validate_sub_folder,
          set_ok_response_sensitive]
      · simp [World.keys, upd, hi]
    all_goals first | rfl | trivial
  | some n =>
    simp only [Option.isSome_some, if_true, Bool.true_and] at hnone hmb
    unfold folder_conf_imap_sub_node
    simp only [Option.isSome_some, if_true, hnone, Bool.true_and, hmb, Bool.false_eq_true,
      if_false, Option.isNone_some]
    refine ⟨?_, ?_, by simp, by simp, by simp, by simp⟩
    · funext i
      by_cases hi : i = w.next_cdd
      · subst hi
        simp [World.keys, upd, DialogData.key, DialogData.cdd, set_ok_response_sensitive]
      · simp [World.keys, upd, hi]
    · funext j
      simp only [World.regs, node_set_get, emit_nodes]

/-- Opening a subfolder dialog keeps the invariant. -/
theorem inv_open_subfolder (mn : Option NodeId) (w : World)
    (h : Inv w) (hex : ∀ n, mn = some n → w.nodes n ≠ none) :
    Inv (folder_conf_imap_sub_node mn w) := by
  cases hsel : (if mn.isSome then get_conf_data w mn else w.sdd_new) with
  | some c =>
    have : folder_conf_imap_sub_node mn w
        = w.emit (.gtk_window_present
            (((w.cdds c).bind (fun d => d.cdd.dialog)).map (fun d => d.id))) := by
      unfold folder_conf_imap_sub_node
      simp only [hsel]
    rw [this]
    exact inv_of_same_view w _ h (same_view_emit w w _ (same_view_refl w))
  | none =>
    cases hmb : (mn.isSome && (balsa_mailbox_node_get_mailbox w mn).isNone) with
    | true =>
      have : folder_conf_imap_sub_node mn w
          = w.emit (.balsa_information .LIBBALSA_INFORMATION_ERROR
              (gettext ("An IMAP folder that is not a mailbox\n"
                ++ "has no properties that can be changed."))) := by
        unfold folder_conf_imap_sub_node
        simp only [hsel, hmb, if_true]
      rw [this]
      exact inv_of_same_view w _ h (same_view_emit w w _ (same_view_refl w))
    | false =>
      obtain ⟨v1, v2, v3, v4, v5, v6⟩ := folder_conf_imap_sub_node_new_view mn w hsel hmb
      cases mn with
      | none =>
        simp only [Option.isSome_none, Bool.false_eq_true, if_false] at hsel v4
        exact inv_open_new_subfolder w _ h _ w.next_dialog hsel rfl rfl rfl v1 v2 v3 v4 v5 v6
      | some n =>
        simp only [Option.isSome_some, if_true] at hsel v4
        have hreg := regs_of_nodes w n (hex n rfl) hsel
        rw [regs_node_set_conf w n _ none hreg] at v2
        exact inv_open_node w _ h n _ w.next_dialog hreg rfl rfl v1 v2 v3 v4 v5 v6

/-- Form edits that leave the record's node and window alone keep the invariant. -/
theorem inv_edit_folder (c : DataId) (f : FolderDialogData → FolderDialogData) (w : World)
    (h : Inv w) (hf : ∀ x, (DialogData.folder (f x)).key = (DialogData.folder x).key) :
    Inv (w.on_folder c f) := by
  refine inv_congr w _ h ?_ ?_ ?_ ?_ ?_ ?_
  · funext i
    unfold World.on_folder
    split
    · rename_i fcw hc
      simp only [World.keys, upd]
      split
      · rename_i hi
        rw [hi, hc]
        simp [hf]
      · rfl
    · rfl
  all_goals (unfold World.on_folder; split <;> rfl)

theorem inv_edit_subfolder (c : DataId) (f : SubfolderDialogData → SubfolderDialogData)
    (w : World) (h : Inv w)
    (hf : ∀ x, (DialogData.subfolder (f x)).key = (DialogData.subfolder x).key) :
    Inv (w.on_subfolder c f) := by
  refine inv_congr w _ h ?_ ?_ ?_ ?_ ?_ ?_
  · funext i
    unfold World.on_subfolder
    split
    · rename_i sdd hc
      simp only [World.keys, upd]
      split
      · rename_i hi
        rw [hi, hc]
        simp [hf]
      · rfl
    · rfl
  all_goals (unfold World.on_subfolder; split <;> rfl)

theorem regs_of_conf_data (w : World) (n : NodeId) (c : DataId)
    (h : get_conf_data w (some n) = some c) : w.regs n = some (some c) := by
  simp only [World.regs]
  cases hnd : w.nodes n with
  | none => simp [get_conf_data, hnd] at h
  | some nd =>
    simp only [get_conf_data, Option.bind, hnd] at h
    simp [h]

theorem cdds_of_keys (w : World) (c : DataId) (k : DialogKey) (h : w.keys c = some k) :
    ∃ d, w.cdds c = some d ∧ d.key = k := by
  simp only [World.keys] at h
  cases hd : w.cdds c with
  | none => rw [hd] at h; cases h
  | some d =>
    rw [hd] at h
    exact ⟨d, rfl, Option.some.inj h⟩

/-- Removing a node on which no datum is registered keeps the invariant. -/
theorem inv_remove_node (w w1 : World) (h : Inv w) (n : NodeId)
    (hreg : ∀ c, w.regs n ≠ some (some c))
    (hk : w1.keys = w.keys) (hr : w1.regs = upd w.regs n none)
    (hf : w1.fcw_new = w.fcw_new) (hs : w1.sdd_new = w.sdd_new)
    (hc : w1.next_cdd = w.next_cdd) (hn : w1.next_node = w.next_node) : Inv w1 := by
  obtain ⟨a1, a2, a3, a4, a5, a6⟩ := h
  refine ⟨?_, ?_, ?_, ?_, ?_, ?_⟩
  · rw [hk, hc]; exact a1
  · intro m hle
    rw [hn] at hle
    rw [hr]
    by_cases hmn : m = n
    · rw [hmn, upd_self]
    · rw [upd_other _ _ _ _ hmn]
      exact a2 m hle
  · intro m c1 hm
    rw [hr] at hm
    by_cases hmn : m = n
    · rw [hmn, upd_self] at hm
      cases hm
    · rw [upd_other _ _ _ _ hmn] at hm
      rw [hk]
      exact a3 m c1 hm
  · intro c1 k1 hc1
    rw [hk] at hc1
    obtain ⟨i1, wf, ws, hd, hm⟩ := a4 c1 k1 hc1
    refine ⟨i1, wf, ws, hd, ?_⟩
    cases hkm1 : k1.mbnode with
    | none =>
      rw [hkm1] at hm
      dsimp only at hm ⊢
      rw [hf, hs]
      exact hm
    | some m =>
      rw [hkm1] at hm
      dsimp only at hm ⊢
      have hmn : m ≠ n := by
        intro e
        exact hreg c1 (e ▸ hm.1)
      rw [hr, upd_other _ _ _ _ hmn]
      exact hm
  · rw [hk, hf]; exact a5
  · rw [hk, hs]; exact a6

/-- The bookkeeping view after `folder_conf_destroy_cdd` ran on a record whose
window is open. -/
theorem folder_conf_destroy_cdd_view (c : DataId) (w : World) (d : DialogData) (g : GtkDialog)
    (hd : w.cdds c = some d) (hg : d.cdd.dialog = some g) :
    (folder_conf_destroy_cdd c w).keys = upd w.keys c none ∧
    (folder_conf_destroy_cdd c w).nodes = w.nodes ∧
    (folder_conf_destroy_cdd c w).fcw_new = (if g.weak_fcw_new then none else w.fcw_new) ∧
    (folder_conf_destroy_cdd c w).sdd_new = (if g.weak_sdd_new then none else w.sdd_new) ∧
    (folder_conf_destroy_cdd c w).next_cdd = w.next_cdd ∧
    (folder_conf_destroy_cdd c w).next_node = w.next_node := by
  have hd1 : (set_mbnode c none w).cdds c
      = some (d.set_cdd { d.cdd with mbnode := none }) := by
    simp [set_mbnode, hd, upd]
  have hg1 : (d.set_cdd { d.cdd with mbnode := none }).cdd.dialog = some g := by
    rw [set_cdd_cdd]; exact hg
  obtain ⟨e1, e2, e3, e4, e5, e6, _⟩ := destroy_dialog_eq c (set_mbnode c none w) _ g hd1 hg1
  have s1 : (set_mbnode c none w).nodes = w.nodes := by simp only [set_mbnode, hd]
  have s2 : (set_mbnode c none w).fcw_new = w.fcw_new := by simp only [set_mbnode, hd]
  have s3 : (set_mbnode c none w).sdd_new = w.sdd_new := by simp only [set_mbnode, hd]
  have s4 : (set_mbnode c none w).next_cdd = w.next_cdd := by simp only [set_mbnode, hd]
  have s5 : (set_mbnode c none w).next_node = w.next_node := by simp only [set_mbnode, hd]
  have s6 : ∀ i, i ≠ c → (set_mbnode c none w).cdds i = w.cdds i := by
    intro i hi
    simp [set_mbnode, hd, upd, hi]
  unfold folder_conf_destroy_cdd
  simp only [hd, hg, Option.isSome_some, if_true]
  refine ⟨?_, ?_, ?_, ?_, ?_, ?_⟩
  · funext i
    simp only [World.keys, g_free_cdd, e1, upd]
    split
    · rfl
    · rename_i hi
      rw [s6 i hi]
  · simp only [g_free_cdd, e2, s1]
  · simp only [g_free_cdd, e3, s2]
  · simp only [g_free_cdd, e4, s3]
  · simp only [g_free_cdd, e5, s4]
  · simp only [g_free_cdd, e6, s5]

/-- The finalization of a node keeps the invariant. -/
theorem inv_finalize (n : NodeId) (w : World) (h : Inv w) : Inv (node_finalize n w) := by
  unfold node_finalize
  cases hc : get_conf_data w (some n) with
  | none =>
    dsimp only
    refine inv_remove_node w _ h n ?_ rfl ?_ rfl rfl rfl rfl
    · intro c hreg
      simp only [World.regs] at hreg
      cases hnd : w.nodes n with
      | none => rw [hnd] at hreg; cases hreg
      | some nd =>
        rw [hnd] at hreg
        simp only [get_conf_data, Option.bind, hnd] at hc
        simp [hc] at hreg
    · funext j
      simp only [World.regs, upd]
      split <;> rfl
  | some c =>
    dsimp only
    have hreg := regs_of_conf_data w n c hc
    obtain ⟨k, hk, hkm⟩ := h.registered n c hreg
    obtain ⟨d, hd, hdk⟩ := cdds_of_keys w c k hk
    obtain ⟨id, wf, ws, hkd, hown⟩ := h.live c k hk
    rw [hkm] at hown
    dsimp only at hown
    obtain ⟨_, hwf0, hws0⟩ := hown
    rw [← hdk] at hkd
    obtain ⟨g, hg, hwf, hws⟩ := key_dialog d id wf ws hkd
    obtain ⟨v1, v2, v3, v4, v5, v6⟩ := folder_conf_destroy_cdd_view c w d g hd hg
    rw [hwf, hwf0] at v3
    rw [hws, hws0] at v4
    let wi : World :=
      { w with cdds := upd w.cdds c none,
               nodes := (node_set w (some n) (fun nd => { nd with conf_data := none })).nodes }
    have hki : wi.keys = upd w.keys c none := by
      funext i
      simp only [World.keys, wi, upd]
      split <;> rfl
    have hri : wi.regs = upd w.regs n (some none) := regs_node_set_conf w n none (some c) hreg
    have hi : Inv wi := inv_close_node w wi h c k n hk hkm hki hri rfl rfl rfl rfl
    refine inv_remove_node wi _ hi n ?_ ?_ ?_ ?_ ?_ ?_ ?_
    · intro c1 e
      rw [hri, upd_self] at e
      cases e
    · show (folder_conf_destroy_cdd c w).keys = wi.keys
      rw [v1, hki]
    · rw [hri, upd_upd]
      funext j
      simp only [World.regs, upd, v2]
      split <;> rfl
    · show (folder_conf_destroy_cdd c w).fcw_new = w.fcw_new
      simpa using v3
    · show (folder_conf_destroy_cdd c w).sdd_new = w.sdd_new
      simpa using v4
    · exact v5
    · exact v6

/-- Every reachable world satisfies the bookkeeping invariant. -/
theorem inv_of_reachable (w : World) (h : Reachable w) : Inv w := by
  induction h with
  | init w h0 => exact inv_of_no_dialogs w h0
  | open_folder crypt env bsc0 mn w _ hex ih => exact inv_open_folder crypt env bsc0 mn w ih hex
  | open_subfolder mn w _ hex ih => exact inv_open_subfolder mn w ih hex
  | response env fuel r c w w1 _ hr he ih => exact inv_response env fuel r c w w1 ih hr he
  | finalize n w _ ih => exact inv_finalize n w ih
  | edit_folder c f w _ hf ih => exact inv_edit_folder c f w ih hf
  | edit_subfolder c f w _ hf ih => exact inv_edit_subfolder c f w ih hf

theorem world_ex_no_dialogs : world_ex.no_dialogs := by
  refine ⟨fun _ => rfl, rfl, rfl, ?_⟩
  intro n nd h
  simp only [world_ex, upd] at h
  split at h
  · rename_i h1
    cases h
    subst h1
    exact ⟨rfl, by decide⟩
  · split at h
    · rename_i h0
      cases h
      subst h0
      exact ⟨rfl, by decide⟩
    · cases h

/-- C9: in every world reached by opening dialogs, by OK, Cancel and close
responses and by the finalization of nodes (with arbitrary form edits in
between), at most one dialog data record exists per mailbox node and at most one record without node per dialog
kind, and every record has an open window.  Whenever a datum is registered on
node n under BALSA_FOLDER_CONF_IMAP_KEY, folder_conf_imap_node and
folder_conf_imap_sub_node called for n only present the window of that record;
whenever the static slot of a creation dialog is set, the function of that kind
called with NULL only presents that dialog's window: the world is otherwise
unchanged, so no dialog is created and no data is registered. -/
theorem one_dialog_per_node (w : World) (h : Reachable w) :
    (∀ c1 c2 d1 d2 n, w.cdds c1 = some d1 → w.cdds c2 = some d2 →
      d1.cdd.mbnode = some n → d2.cdd.mbnode = some n → c1 = c2) ∧
    (∀ c1 c2 d1 d2, w.cdds c1 = some d1 → w.cdds c2 = some d2 →
      d1.cdd.mbnode = none → d2.cdd.mbnode = none →
      d1.key.is_folder = d2.key.is_folder → c1 = c2) ∧
    (∀ c d, w.cdds c = some d → d.cdd.dialog ≠ none) ∧
    (∀ crypt env bsc0 n c, get_conf_data w (some n) = some c →
      ∃ d g, w.cdds c = some d ∧ d.cdd.dialog = some g ∧ d.cdd.mbnode = some n ∧
        folder_conf_imap_node crypt env bsc0 (some n) w
          = w.emit (.gtk_window_present (some g.id)) ∧
        folder_conf_imap_sub_node (some n) w = w.emit (.gtk_window_present (some g.id))) ∧
    (∀ crypt env bsc0 c, w.fcw_new = some c →
      ∃ fcw g, w.cdds c = some (.folder fcw) ∧ fcw.cdd.dialog = some g ∧
        fcw.cdd.mbnode = none ∧
        folder_conf_imap_node crypt env bsc0 none w = w.emit (.gtk_window_present (some g.id))) ∧
    (∀ c, w.sdd_new = some c →
      ∃ sdd g, w.cdds c = some (.subfolder sdd) ∧ sdd.cdd.dialog = some g ∧
        sdd.cdd.mbnode = none ∧
        folder_conf_imap_sub_node none w = w.emit (.gtk_window_present (some g.id))) := by
  have hi := inv_of_reachable w h
  refine ⟨?_, ?_, ?_, ?_, ?_, ?_⟩
  · intro c1 c2 d1 d2 n h1 h2 m1 m2
    obtain ⟨_, _, _, _, o1⟩ := hi.live c1 d1.key (keys_of_cdds w c1 d1 h1)
    obtain ⟨_, _, _, _, o2⟩ := hi.live c2 d2.key (keys_of_cdds w c2 d2 h2)
    have k1 : d1.key.mbnode = some n := m1
    have k2 : d2.key.mbnode = some n := m2
    rw [k1] at o1
    rw [k2] at o2
    dsimp only at o1 o2
    have e := o1.1.symm.trans o2.1
    exact Option.some.inj (Option.some.inj e)
  · intro c1 c2 d1 d2 h1 h2 m1 m2 hf
    obtain ⟨_, _, _, _, o1⟩ := hi.live c1 d1.key (keys_of_cdds w c1 d1 h1)
    obtain ⟨_, _, _, _, o2⟩ := hi.live c2 d2.key (keys_of_cdds w c2 d2 h2)
    have k1 : d1.key.mbnode = none := m1
    have k2 : d2.key.mbnode = none := m2
    rw [k1] at o1
    rw [k2, ← hf] at o2
    dsimp only at o1 o2
    cases hk : d1.key.is_folder with
    | true =>
      rw [hk, if_pos rfl] at o1 o2
      exact Option.some.inj (o1.1.symm.trans o2.1)
    | false =>
      rw [hk, if_neg Bool.false_ne_true] at o1 o2
      exact Option.some.inj (o1.1.symm.trans o2.1)
  · intro c d hd
    obtain ⟨id, wf, ws, hk, _⟩ := hi.live c d.key (keys_of_cdds w c d hd)
    obtain ⟨g, hg, _⟩ := key_dialog d id wf ws hk
    rw [hg]
    simp
  · intro crypt env bsc0 n c hc
    obtain ⟨k, hk, hkm⟩ := hi.registered n c (regs_of_conf_data w n c hc)
    obtain ⟨d, hd, hdk⟩ := cdds_of_keys w c k hk
    obtain ⟨id, wf, ws, hkd, _⟩ := hi.live c k hk
    rw [← hdk] at hkd hkm
    obtain ⟨g, hg, _⟩ := key_dialog d id wf ws hkd
    refine ⟨d, g, hd, hg, hkm, ?_, ?_⟩
    · unfold folder_conf_imap_node
      simp [hc, hd, hg]
    · unfold folder_conf_imap_sub_node
      simp [hc, hd, hg]
  · intro crypt env bsc0 c hc
    obtain ⟨k, hk, hkf, hkm⟩ := hi.fcw_new_ok c hc
    obtain ⟨d, hd, hdk⟩ := cdds_of_keys w c k hk
    obtain ⟨id, wf, ws, hkd, _⟩ := hi.live c k hk
    rw [← hdk] at hkd hkm hkf
    obtain ⟨g, hg, _⟩ := key_dialog d id wf ws hkd
    cases d with
    | subfolder sdd => cases hkf
    | folder fcw =>
      refine ⟨fcw, g, hd, hg, hkm, ?_⟩
      have hg1 : fcw.cdd.dialog = some g := hg
      unfold folder_conf_imap_node
      simp [hc, hd, DialogData.cdd, hg1]
  · intro c hc
    obtain ⟨k, hk, hkf, hkm⟩ := hi.sdd_new_ok c hc
    obtain ⟨d, hd, hdk⟩ := cdds_of_keys w c k hk
    obtain ⟨id, wf, ws, hkd, _⟩ := hi.live c k hk
    rw [← hdk] at hkd hkm hkf
    obtain ⟨g, hg, _⟩ := key_dialog d id wf ws hkd
    cases d with
    | folder fcw => cases hkf
    | subfolder sdd =>
      refine ⟨sdd, g, hd, hg, hkm, ?_⟩
      have hg1 : sdd.cdd.dialog = some g := hg
      unfold folder_conf_imap_sub_node
      simp [hc, hd, DialogData.cdd, hg1]

/-- Witness for C9: the world in which the folder dialog of node 0 is open is
reachable, and its only record has an open window. -/
theorem one_dialog_per_node_witness :
    Reachable world_open_ex ∧
    (∀ c d, world_open_ex.cdds c = some d → d.cdd.dialog ≠ none) :=
  have hr : Reachable world_open_ex :=
    Reachable.open_folder crypt_ex env_ex bsc_empty (some 0) world_ex
      (Reachable.init world_ex world_ex_no_dialogs)
      (by
        intro n hn
        cases hn
        simp [world_ex, upd])
  ⟨hr, (one_dialog_per_node world_open_ex hr).2.2.1⟩

/-! ## The security selector -/

/-- The rename branch of `subfolder_conf_clicked_ok` for a dialog with a node
whose parent path or folder name was changed: either the rename-Inbox question
is declined and the function returns TRUE at once, or the mailbox is closed
and the rename is requested. -/
theorem subfolder_conf_clicked_ok_rename (env : Env) (fuel : Nat)
    (sdd : SubfolderDialogData) (w : World) (n : NodeId)
    (hm : sdd.cdd.mbnode = some n)
    (hdue : some sdd.parent_folder ≠ sdd.old_parent ∨ some sdd.folder_name ≠ sdd.old_folder) :
    subfolder_conf_clicked_ok env fuel sdd w =
      if (sdd.old_folder = some "INBOX" ∧ (sdd.old_parent = none ∨ sdd.old_parent = some ""))
          ∧ env.rename_inbox_answer ≠ GTK_RESPONSE_OK then
        some (true, { w with trace := w.trace ++
          (debug_events sdd w ++ view_events sdd w ++ question_events sdd) })
      else
        match env.rename_result with
        | .fail err =>
          some (false, { w with trace := w.trace ++
            (debug_events sdd w ++ view_events sdd w ++ question_events sdd ++
              [.balsa_window_close_mbnode (some n),
               .libbalsa_imap_rename_subfolder
                 ((balsa_mailbox_node_get_mailbox w (some n)).map (fun m => m.id))
                 sdd.parent_folder sdd.folder_name
                 (balsa_mailbox_node_get_subscribed w (some n)),
               .balsa_information .LIBBALSA_INFORMATION_ERROR
                 ("Folder rename failed. Reason: " ++ err.getD "unknown")]) })
        | .ok =>
          (rescan_after_rename env fuel sdd sdd.parent_folder
            { w with trace := w.trace ++
              (debug_events sdd w ++ view_events sdd w ++ question_events sdd ++
                [.balsa_window_close_mbnode (some n),
                 .libbalsa_imap_rename_subfolder
                   ((balsa_mailbox_node_get_mailbox w (some n)).map (fun m => m.id))
                   sdd.parent_folder sdd.folder_name
                   (balsa_mailbox_node_get_subscribed w (some n))]) }).map
            (fun w1 => (true, w1)) := by
  have hdue1 : (g_strcmp0 (some sdd.parent_folder) sdd.old_parent != 0
      || g_strcmp0 (some sdd.folder_name) sdd.old_folder != 0) = true := by
    rw [Bool.or_eq_true, g_strcmp0_bne_zero, g_strcmp0_bne_zero]
    exact hdue
  unfold subfolder_conf_clicked_ok
  simp only [hm, hdue1, if_true, debug_emit_eq]
  by_cases hq : (g_strcmp0 sdd.old_folder (some "INBOX") == 0
      && (decide (sdd.old_parent = none) || decide (sdd.old_parent = some ""))) = true
  · have hq1 : sdd.old_folder = some "INBOX" ∧
        (sdd.old_parent = none ∨ sdd.old_parent = some "") := by
      simpa [g_strcmp0_eq_zero] using hq
    by_cases hans : env.rename_inbox_answer = GTK_RESPONSE_OK
    · cases hr : env.rename_result <;>
        cases hmb : balsa_mailbox_node_get_mailbox w (some n) <;>
        simp only [hq, question_events, if_true] <;>
        simp [hq1, hans, view_events, hm, hmb, World.emit, gettext]
    · cases hmb : balsa_mailbox_node_get_mailbox w (some n) <;>
        simp only [hq, question_events, if_true] <;>
        simp [hq1, hans, view_events, hm, hmb, World.emit, gettext]
  · have hq1 : ¬ (sdd.old_folder = some "INBOX" ∧
        (sdd.old_parent = none ∨ sdd.old_parent = some "")) := by
      intro h
      apply hq
      simpa [g_strcmp0_eq_zero] using h
    cases hr : env.rename_result <;>
      cases hmb : balsa_mailbox_node_get_mailbox w (some n) <;>
      simp only [hq, question_events, if_false, Bool.false_eq_true] <;>
      simp [hq1, view_events, hm, hmb, World.emit, gettext]

/-- C15: when a rename is due for a dialog with a node, the question dialog is
run exactly when the old folder name is "INBOX" and the old parent path is
NULL or empty.  If it is run and the answer is not OK, subfolder_conf_clicked_ok
returns TRUE having closed no mailbox, requested no rename and rescanned
nothing, and only the trace has changed (the node's directory is untouched).
In every other case the mailbox is closed once and
libbalsa_imap_rename_subfolder is called once, after which the function goes
on according to the outcome of the rename. -/
theorem rename_inbox_question (env : Env) (fuel : Nat) (sdd : SubfolderDialogData)
    (w : World) (n : NodeId)
    (hm : sdd.cdd.mbnode = some n)
    (hdue : some sdd.parent_folder ≠ sdd.old_parent ∨ some sdd.folder_name ≠ sdd.old_folder) :
    ∃ evs,
      (evs.filter Event.is_dialog_run =
        if sdd.old_folder = some "INBOX" ∧ (sdd.old_parent = none ∨ sdd.old_parent = some "")
        then [.gtk_dialog_run "Question" (rename_inbox_msg sdd.folder_name sdd.parent_folder)]
        else []) ∧
      if (sdd.old_folder = some "INBOX" ∧ (sdd.old_parent = none ∨ sdd.old_parent = some ""))
          ∧ env.rename_inbox_answer ≠ GTK_RESPONSE_OK then
        subfolder_conf_clicked_ok env fuel sdd w
          = some (true, { w with trace := w.trace ++ evs }) ∧
        evs.filter Event.is_close_mbnode = [] ∧ evs.filter Event.is_rename = [] ∧
        evs.filter Event.is_rescan = []
      else
        evs.filter Event.is_close_mbnode = [.balsa_window_close_mbnode (some n)] ∧
        evs.filter Event.is_rename
          = [.libbalsa_imap_rename_subfolder
              ((balsa_mailbox_node_get_mailbox w (some n)).map (fun m => m.id))
              sdd.parent_folder sdd.folder_name
              (balsa_mailbox_node_get_subscribed w (some n))] ∧
        subfolder_conf_clicked_ok env fuel sdd w =
          match env.rename_result with
          | .fail err =>
            some (false, { w with trace := w.trace ++
              (evs ++ [.balsa_information .LIBBALSA_INFORMATION_ERROR
                        ("Folder rename failed. Reason: " ++ err.getD "unknown")]) })
          | .ok =>
            (rescan_after_rename env fuel sdd sdd.parent_folder
              { w with trace := w.trace ++ evs }).map (fun w1 => (true, w1)) := by
  have hmain := subfolder_conf_clicked_ok_rename env fuel sdd w n hm hdue
  have hqe : question_events sdd =
      if sdd.old_folder = some "INBOX" ∧ (sdd.old_parent = none ∨ sdd.old_parent = some "")
      then [.gtk_dialog_run "Question" (rename_inbox_msg sdd.folder_name sdd.parent_folder)]
      else [] := by
    unfold question_events
    by_cases hq : sdd.old_folder = some "INBOX" ∧
        (sdd.old_parent = none ∨ sdd.old_parent = some "")
    · have hb : (g_strcmp0 sdd.old_folder (some "INBOX") == 0
          && (decide (sdd.old_parent = none) || decide (sdd.old_parent = some ""))) = true := by
        simpa [g_strcmp0_eq_zero] using hq
      rw [if_pos hb, if_pos hq]
      rfl
    · have hb : ¬ (g_strcmp0 sdd.old_folder (some "INBOX") == 0
          && (decide (sdd.old_parent = none) || decide (sdd.old_parent = some ""))) = true := by
        intro h
        apply hq
        simpa [g_strcmp0_eq_zero] using h
      rw [if_neg hb, if_neg hq]
  have hpre : ∀ (p : Event → Bool), (∀ t, p (.g_print t) = false) →
      (∀ a b, p (.mailbox_conf_view_check a b) = false) →
      (debug_events sdd w ++ view_events sdd w).filter p = [] := by
    intro p h1 h2
    simp only [List.filter_append, debug_events, view_events]
    split <;> split <;> simp [List.filter, h1, h2]
  by_cases hdec : (sdd.old_folder = some "INBOX" ∧
      (sdd.old_parent = none ∨ sdd.old_parent = some ""))
        ∧ env.rename_inbox_answer ≠ GTK_RESPONSE_OK
  · rw [if_pos hdec] at hmain
    refine ⟨debug_events sdd w ++ view_events sdd w ++ question_events sdd, ?_, ?_⟩
    · rw [List.filter_append, hpre _ (fun _ => rfl) (fun _ _ => rfl), hqe]
      split <;> simp [List.filter, Event.is_dialog_run]
    · rw [if_pos hdec]
      refine ⟨hmain, ?_, ?_, ?_⟩
      · rw [List.filter_append, hpre _ (fun _ => rfl) (fun _ _ => rfl), hqe]
        split <;> simp [List.filter, Event.is_close_mbnode]
      · rw [List.filter_append, hpre _ (fun _ => rfl) (fun _ _ => rfl), hqe]
        split <;> simp [List.filter, Event.is_rename]
      · rw [List.filter_append, hpre _ (fun _ => rfl) (fun _ _ => rfl), hqe]
        split <;> simp [List.filter, Event.is_rescan]
  · rw [if_neg hdec] at hmain
    refine ⟨debug_events sdd w ++ view_events sdd w ++ question_events sdd ++
      [.balsa_window_close_mbnode (some n),
       .libbalsa_imap_rename_subfolder
         ((balsa_mailbox_node_get_mailbox w (some n)).map (fun m => m.id))
         sdd.parent_folder sdd.folder_name
         (balsa_mailbox_node_get_subscribed w (some n))], ?_, ?_⟩
    · rw [List.filter_append, List.filter_append, hpre _ (fun _ => rfl) (fun _ _ => rfl), hqe]
      split <;> simp [List.filter, Event.is_dialog_run]
    · rw [if_neg hdec]
      refine ⟨?_, ?_, ?_⟩
      · rw [List.filter_append, List.filter_append, hpre _ (fun _ => rfl) (fun _ _ => rfl),
          hqe]
        split <;> simp [List.filter, Event.is_close_mbnode]
      · rw [List.filter_append, List.filter_append, hpre _ (fun _ => rfl) (fun _ _ => rfl),
          hqe]
        split <;> simp [List.filter, Event.is_rename]
      · rw [hmain]
        cases env.rename_result <;> simp [List.append_assoc]

/-- Witness for C15: renaming the top-level Inbox with the question declined. -/
theorem rename_inbox_question_witness :
    ∃ evs, subfolder_conf_clicked_ok env_decline_ex 0 sdd_inbox_ex world_ex
        = some (true, { world_ex with trace := world_ex.trace ++ evs }) ∧
      evs.filter Event.is_close_mbnode = [] ∧ evs.filter Event.is_rename = [] ∧
      evs.filter Event.is_rescan = [] :=
  (rename_inbox_question env_decline_ex 0 sdd_inbox_ex world_ex 1 rfl (by decide)).elim
    fun evs h => ⟨evs, by
      have h2 := h.2
      rw [if_pos (by decide)] at h2
      exact h2⟩

/-! ## The rescan after a successful rename -/

theorem get_parent_node_set (w : World) (mn x : Option NodeId)
    (f : BalsaMailboxNode → BalsaMailboxNode) (hf : ∀ nd, (f nd).parent = nd.parent) :
    balsa_mailbox_node_get_parent (node_set w mn f) x = balsa_mailbox_node_get_parent w x := by
  cases x with
  | none => rfl
  | some j =>
    simp only [balsa_mailbox_node_get_parent, Option.some_bind, node_set_get]
    by_cases hmn : mn = some j
    · rw [if_pos hmn]
      cases w.nodes j <;> simp [hf]
    · rw [if_neg hmn]

theorem get_mailbox_node_set (w : World) (mn x : Option NodeId)
    (f : BalsaMailboxNode → BalsaMailboxNode) (hf : ∀ nd, (f nd).mailbox = nd.mailbox) :
    balsa_mailbox_node_get_mailbox (node_set w mn f) x = balsa_mailbox_node_get_mailbox w x := by
  cases x with
  | none => rfl
  | some j =>
    simp only [balsa_mailbox_node_get_mailbox, Option.some_bind, node_set_get]
    by_cases hmn : mn = some j
    · rw [if_pos hmn]
      cases w.nodes j <;> simp [hf]
    · rw [if_neg hmn]

theorem get_server_node_set (w : World) (mn x : Option NodeId)
    (f : BalsaMailboxNode → BalsaMailboxNode) (hf : ∀ nd, (f nd).server = nd.server) :
    balsa_mailbox_node_get_server (node_set w mn f) x = balsa_mailbox_node_get_server w x := by
  cases x with
  | none => rfl
  | some j =>
    simp only [balsa_mailbox_node_get_server, Option.some_bind, node_set_get]
    by_cases hmn : mn = some j
    · rw [if_pos hmn]
      cases w.nodes j <;> simp [hf]
    · rw [if_neg hmn]

/-- The sideways loop reads only the parent links and the mailboxes. -/
theorem sideways_walk_congr (w w1 : World)
    (hp : ∀ x, balsa_mailbox_node_get_parent w1 x = balsa_mailbox_node_get_parent w x)
    (hb : ∀ x, balsa_mailbox_node_get_mailbox w1 x = balsa_mailbox_node_get_mailbox w x)
    (fuel : Nat) (mb : Option NodeId) : sideways_walk w1 fuel mb = sideways_walk w fuel mb := by
  induction fuel generalizing mb with
  | zero => rfl
  | succ k ih =>
    simp only [sideways_walk, hp, hb]
    split
    · exact ih _
    · rfl

/-- The part of `subfolder_conf_clicked_ok` after a successful rename, by the
strategy of the specification. -/
theorem rescan_after_rename_eq (env : Env) (fuel : Nat) (sdd : SubfolderDialogData)
    (parent : String) (w : World) :
    rescan_after_rename env fuel sdd parent w =
      match rescan_strategy sdd.old_parent parent with
      | .up =>
        some (match env.find_from_dir (balsa_mailbox_node_get_server w sdd.parent) parent with
          | some m => (balsa_mailbox_node_set_dir w sdd.cdd.mbnode parent).emit
                        (.balsa_mailbox_node_rescan (some m))
          | none => (balsa_mailbox_node_set_dir w sdd.cdd.mbnode parent).emit
                        (.printf "Parent not found!?\n"))
      | .down =>
        some (match env.find_from_dir (balsa_mailbox_node_get_server w sdd.parent)
                      (entry_text sdd.old_parent) with
          | some m => (balsa_mailbox_node_set_dir w sdd.cdd.mbnode parent).emit
                        (.balsa_mailbox_node_rescan (some m))
          | none => balsa_mailbox_node_set_dir w sdd.cdd.mbnode parent)
      | .sideways =>
        (sideways_walk w fuel (balsa_mailbox_node_get_parent w sdd.cdd.mbnode)).map
          (fun mb => ((balsa_mailbox_node_set_dir w sdd.cdd.mbnode parent).emit
                        (.balsa_mailbox_node_rescan mb)).emit
                        (.balsa_mailbox_node_rescan sdd.cdd.mbnode)) := by
  have hsrv : ∀ x, balsa_mailbox_node_get_server
      (balsa_mailbox_node_set_dir w sdd.cdd.mbnode parent) x
        = balsa_mailbox_node_get_server w x :=
    fun x => get_server_node_set w _ x _ (fun _ => rfl)
  have hpar : ∀ x, balsa_mailbox_node_get_parent
      (balsa_mailbox_node_set_dir w sdd.cdd.mbnode parent) x
        = balsa_mailbox_node_get_parent w x :=
    fun x => get_parent_node_set w _ x _ (fun _ => rfl)
  have hmbx : ∀ x, balsa_mailbox_node_get_mailbox
      (balsa_mailbox_node_set_dir w sdd.cdd.mbnode parent) x
        = balsa_mailbox_node_get_mailbox w x :=
    fun x => get_mailbox_node_set w _ x _ (fun _ => rfl)
  unfold rescan_after_rename rescan_strategy
  simp only [hsrv, hpar, sideways_walk_congr _ _ hpar hmbx]
  cases hop : sdd.old_parent with
  | none =>
    simp only [Bool.false_eq_true, if_false]
    cases sideways_walk w fuel (balsa_mailbox_node_get_parent w sdd.cdd.mbnode) <;> rfl
  | some old =>
    simp only [entry_text, Option.getD]
    by_cases hup : ( g_str_has_prefix old parent) = true
    · simp only [hup, if_true]
      cases env.find_from_dir (balsa_mailbox_node_get_server w sdd.parent) parent <;> rfl
    · by_cases hdown : ( g_str_has_prefix parent old) = true
      · simp only [hup, hdown, if_true, if_false]
        cases env.find_from_dir (balsa_mailbox_node_get_server w sdd.parent) old <;> rfl
      · simp only [hup, hdown, if_false]
        cases sideways_walk w fuel (balsa_mailbox_node_get_parent w sdd.cdd.mbnode) <;> rfl

/-- The events of a rename up to and including the rename request contain no rescan. -/
theorem rename_events_no_rescan (sdd : SubfolderDialogData) (w : World)
    (a : Option NodeId) (b : Option Nat) (p f : String) (s : Bool) :
    (debug_events sdd w ++ view_events sdd w ++ question_events sdd ++
      [Event.balsa_window_close_mbnode a, Event.libbalsa_imap_rename_subfolder b p f s]).filter
        Event.is_rescan = [] := by
  simp only [List.filter_append, debug_events, view_events, question_events]
  split <;> split <;> split <;> simp [List.filter, Event.is_rescan]

/-- The sideways loop on a finite parent chain: it stops within the chain, at
the first node that has a mailbox or has no parent. -/
theorem sideways_walk_stops (w : World) (k : Nat) :
    ∀ mb, balsa_mailbox_node_get_parent w (parent_iter w k mb) = none →
      ∃ j, j ≤ k ∧
        (∀ fuel, j < fuel → sideways_walk w fuel mb = some (parent_iter w j mb)) ∧
        (∀ i, i < j → balsa_mailbox_node_get_mailbox w (parent_iter w i mb) = none
            ∧ balsa_mailbox_node_get_parent w (parent_iter w i mb) ≠ none) ∧
        (balsa_mailbox_node_get_mailbox w (parent_iter w j mb) ≠ none
          ∨ balsa_mailbox_node_get_parent w (parent_iter w j mb) = none) := by
  induction k with
  | zero =>
    intro mb h
    refine ⟨0, Nat.le_refl 0, ?_, ?_, Or.inr h⟩
    · intro fuel hf
      cases fuel with
      | zero => exact absurd hf (Nat.lt_irrefl 0)
      | succ f =>
        have hp : balsa_mailbox_node_get_parent w mb = none := h
        simp [sideways_walk, parent_iter, hp]
    · intro i hi
      exact absurd hi (Nat.not_lt_zero i)
  | succ k ih =>
    intro mb h
    by_cases hc : balsa_mailbox_node_get_mailbox w mb = none
        ∧ balsa_mailbox_node_get_parent w mb ≠ none
    · obtain ⟨j, hjk, hwalk, hpass, hstop⟩ := ih (balsa_mailbox_node_get_parent w mb) h
      refine ⟨j + 1, Nat.succ_le_succ hjk, ?_, ?_, hstop⟩
      · intro fuel hf
        cases fuel with
        | zero => exact absurd hf (Nat.not_lt_zero _)
        | succ f =>
          have hcb : ((balsa_mailbox_node_get_mailbox w mb).isNone
              && (balsa_mailbox_node_get_parent w mb).isSome) = true := by
            rw [hc.1]
            cases hp : balsa_mailbox_node_get_parent w mb with
            | none => exact absurd hp hc.2
            | some _ => rfl
          simp only [sideways_walk, hcb, if_true, parent_iter]
          exact hwalk f (Nat.lt_of_succ_lt_succ hf)
      · intro i hi
        cases i with
        | zero => exact hc
        | succ i => exact hpass i (Nat.lt_of_succ_lt_succ hi)
    · refine ⟨0, Nat.zero_le _, ?_, ?_, ?_⟩
      · intro fuel hf
        cases fuel with
        | zero => exact absurd hf (Nat.lt_irrefl 0)
        | succ f =>
          have hcb : ((balsa_mailbox_node_get_mailbox w mb).isNone
              && (balsa_mailbox_node_get_parent w mb).isSome) = false := by
            cases hmx : balsa_mailbox_node_get_mailbox w mb with
            | some _ => rfl
            | none =>
              cases hp : balsa_mailbox_node_get_parent w mb with
              | none => rfl
              | some _ => exact absurd ⟨hmx, by rw [hp]; simp⟩ hc
          simp [sideways_walk, hcb, parent_iter]
      · intro i hi
        exact absurd hi (Nat.not_lt_zero i)
      · by_cases hmx : balsa_mailbox_node_get_mailbox w mb = none
        · right
          by_cases hp : balsa_mailbox_node_get_parent w mb = none
          · exact hp
          · exact absurd ⟨hmx, hp⟩ hc
        · left
          exact hmx
/-- C13: in the sideways case of a successful rename, when the parent chain of
the renamed node is finite (after k parent links from its parent a node
without parent is reached), the loop finishes for every fuel above the number
j ≤ k of links it follows, every node passed over has no mailbox and has a
parent, the node mb it stops at has a mailbox or has no parent, and
subfolder_conf_clicked_ok returns TRUE having rescanned mb and then the
renamed node, and nothing else. -/
theorem sideways_rescan_nearest (env : Env) (sdd : SubfolderDialogData)
    (w : World) (n : NodeId) (k : Nat)
    (hm : sdd.cdd.mbnode = some n)
    (hdue : some sdd.parent_folder ≠ sdd.old_parent ∨ some sdd.folder_name ≠ sdd.old_folder)
    (hq : ¬ ((sdd.old_folder = some "INBOX" ∧
              (sdd.old_parent = none ∨ sdd.old_parent = some ""))
            ∧ env.rename_inbox_answer ≠ GTK_RESPONSE_OK))
    (hok : env.rename_result = .ok)
    (hside : rescan_strategy sdd.old_parent sdd.parent_folder = .sideways)
    (hroot : balsa_mailbox_node_get_parent w
        (parent_iter w k (balsa_mailbox_node_get_parent w (some n))) = none) :
    ∃ j, j ≤ k ∧
      (∀ fuel, j < fuel →
        sideways_walk w fuel (balsa_mailbox_node_get_parent w (some n))
          = some (parent_iter w j (balsa_mailbox_node_get_parent w (some n)))) ∧
      (∀ i, i < j →
        balsa_mailbox_node_get_mailbox w
            (parent_iter w i (balsa_mailbox_node_get_parent w (some n))) = none
          ∧ balsa_mailbox_node_get_parent w
            (parent_iter w i (balsa_mailbox_node_get_parent w (some n))) ≠ none) ∧
      (balsa_mailbox_node_get_mailbox w
            (parent_iter w j (balsa_mailbox_node_get_parent w (some n))) ≠ none
          ∨ balsa_mailbox_node_get_parent w
            (parent_iter w j (balsa_mailbox_node_get_parent w (some n))) = none) ∧
      ∃ pre : List Event, pre.filter Event.is_rescan = [] ∧
        ∀ fuel, j < fuel →
          subfolder_conf_clicked_ok env fuel sdd w
            = some (true,
                { balsa_mailbox_node_set_dir w (some n) sdd.parent_folder with
                  trace := w.trace ++ pre ++
                    [.balsa_mailbox_node_rescan
                        (parent_iter w j (balsa_mailbox_node_get_parent w (some n))),
                     .balsa_mailbox_node_rescan (some n)] }) := by
  obtain ⟨j, hjk, hwalk, hpass, hstop⟩ :=
    sideways_walk_stops w k (balsa_mailbox_node_get_parent w (some n)) hroot
  refine ⟨j, hjk, hwalk, hpass, hstop,
    debug_events sdd w ++ view_events sdd w ++ question_events sdd ++
        [Event.balsa_window_close_mbnode (some n),
         Event.libbalsa_imap_rename_subfolder
           ((balsa_mailbox_node_get_mailbox w (some n)).map (fun m => m.id))
           sdd.parent_folder sdd.folder_name
           (balsa_mailbox_node_get_subscribed w (some n))],
    rename_events_no_rescan sdd w _ _ _ _ _, ?_⟩
  intro fuel hf
  have hmain := subfolder_conf_clicked_ok_rename env fuel sdd w n hm hdue
  rw [if_neg hq, hok] at hmain
  dsimp only at hmain
  rw [rescan_after_rename_eq, hm, hside] at hmain
  dsimp only at hmain
  have hpar : ∀ (t : List Event) (x : Option NodeId),
      balsa_mailbox_node_get_parent { w with trace := t } x
        = balsa_mailbox_node_get_parent w x := fun _ _ => rfl
  have hwalk1 : ∀ (t : List Event) (x : Option NodeId),
      sideways_walk { w with trace := t } fuel x = sideways_walk w fuel x :=
    fun t x => sideways_walk_congr w { w with trace := t } (fun _ => rfl) (fun _ => rfl) fuel x
  rw [hpar, hwalk1, hwalk fuel hf] at hmain
  rw [hmain]
  simp only [Option.map_some, balsa_mailbox_node_set_dir, node_set, World.emit]
  cases hnd : w.nodes n <;> simp [List.append_assoc]

theorem sideways_rescan_nearest_witness :
    ∃ pre : List Event, pre.filter Event.is_rescan = [] ∧
      subfolder_conf_clicked_ok env_ex 5 sdd_move_ex world_chain_ex
        = some (true,
            { balsa_mailbox_node_set_dir world_chain_ex (some 2) "Home" with
              trace := world_chain_ex.trace ++ pre ++
                [.balsa_mailbox_node_rescan (some 1), .balsa_mailbox_node_rescan (some 2)] }) := by
  have h := sideways_rescan_nearest env_ex sdd_move_ex world_chain_ex 2 2 rfl
    (Or.inl (by decide)) (by decide) rfl (by decide) (by decide)
  obtain ⟨j, hj, hw, hpass, hstop, pre, hpre, hrun⟩ := h
  have hj1 : j = 1 := by
    have h3 := hw 3 (Nat.lt_succ_of_le hj)
    have h4 : sideways_walk world_chain_ex 3
        (balsa_mailbox_node_get_parent world_chain_ex (some 2)) = some (some 1) := by decide
    rw [h4] at h3
    match j, hj, h3 with
    | 0, _, h3 => exact absurd h3 (by decide)
    | 1, _, _ => rfl
    | 2, _, h3 => exact absurd h3 (by decide)
  subst hj1
  exact ⟨pre, hpre, hrun 5 (by decide)⟩

/-! ## The up and down cases compare strings, not paths -/

/-- C14: for the old parent path INBOX/Work2 and the new parent path
INBOX/Work the up case is selected although the components of the new parent,
INBOX and Work, are not a prefix of the components INBOX and Work2 of the old
parent; with the two paths exchanged the down case is selected although the
old parent is not an ancestor of the new one.  In the first case
subfolder_conf_clicked_ok rescans the node of the new parent only. -/
theorem up_case_sibling_folder :
    rescan_strategy (some "INBOX/Work2") "INBOX/Work" = .up ∧
    (path_components '/' "INBOX/Work").isPrefixOf (path_components '/' "INBOX/Work2") = false ∧
    rescan_strategy (some "INBOX/Work") "INBOX/Work2" = .down ∧
    path_components '/' "INBOX/Work" = ["INBOX".data, "Work".data] ∧
    path_components '/' "INBOX/Work2" = ["INBOX".data, "Work2".data] ∧
    (subfolder_conf_clicked_ok env_find_ex 5 sdd_sibling_ex world_chain_ex).map
        (fun r => (r.1, r.2.trace.filter Event.is_rescan))
      = some (true, [.balsa_mailbox_node_rescan (some 3)]) := by
  refine ⟨by decide, by decide, by decide, by decide, by decide, ?_⟩
  have h := subfolder_conf_clicked_ok_rename env_find_ex 5 sdd_sibling_ex world_chain_ex 2 rfl
    (Or.inl (by decide))
  rw [if_neg (by decide)] at h
  have hq : question_events sdd_sibling_ex = [] := by
    simp [question_events, sdd_sibling_ex, sdd_move_ex, g_strcmp0_eq_zero]
  rw [h, hq]
  decide

/-! ## The parent-folder picker -/

/-- C19: folder_selection_func allows a row exactly when the server of the
row's node is an IMAP server and the dialog has no node (a new folder) or the
node of the dialog has that same server; hence for a dialog that edits an
existing folder every selectable row is on the folder's own server, which is
an IMAP server. -/
theorem folder_selection_func_iff (sdd : SubfolderDialogData) (row : Option NodeId)
    (w : World) :
    (folder_selection_func sdd row w = true ↔
      LIBBALSA_IS_IMAP_SERVER w (balsa_mailbox_node_get_server w row) = true ∧
        (sdd.cdd.mbnode = none ∨
          balsa_mailbox_node_get_server w sdd.cdd.mbnode
            = balsa_mailbox_node_get_server w row)) ∧
    (sdd.cdd.mbnode ≠ none → folder_selection_func sdd row w = true →
      balsa_mailbox_node_get_server w row = balsa_mailbox_node_get_server w sdd.cdd.mbnode
        ∧ LIBBALSA_IS_IMAP_SERVER w (balsa_mailbox_node_get_server w sdd.cdd.mbnode) = true) := by
  have hiff : folder_selection_func sdd row w = true ↔
      LIBBALSA_IS_IMAP_SERVER w (balsa_mailbox_node_get_server w row) = true ∧
        (sdd.cdd.mbnode = none ∨
          balsa_mailbox_node_get_server w sdd.cdd.mbnode
            = balsa_mailbox_node_get_server w row) := by
    simp [folder_selection_func]
  refine ⟨hiff, ?_⟩
  intro hn hsel
  obtain ⟨himap, hsame⟩ := hiff.1 hsel
  cases hsame with
  | inl h => exact absurd h hn
  | inr h => exact ⟨h.symm, by rw [h]; exact himap⟩

theorem folder_selection_func_iff_witness :
    folder_selection_func sdd_rename_ex (some 0) world_ex = true ∧
    balsa_mailbox_node_get_server world_ex (some 0)
      = balsa_mailbox_node_get_server world_ex sdd_rename_ex.cdd.mbnode :=
  ⟨by decide,
   ((folder_selection_func_iff sdd_rename_ex (some 0) world_ex).2 (by decide) (by decide)).1⟩

/-! ## The Help response -/

/-- C20: in the example world with the edit dialog of node 0 open, a Help
response leaves the dialog open but sets cdd->mbnode to NULL (the Help arm
ends with g_clear_object(&cdd->mbnode)); a later OK on that dialog then takes
the create path, making server 1 and node 2 and adding them to the list and
the configuration, whereas OK without a Help before it makes nothing new and
rescans node 0. -/
theorem help_response_clears_mbnode :
    (world_open_ex.cdds 0).map (fun d => d.cdd.mbnode) = some (some 0) ∧
    (folder_conf_response env_ex 0 GTK_RESPONSE_HELP 0 world_open_ex).map
        (fun w => (w.cdds 0).map (fun d => (d.cdd.mbnode, d.cdd.dialog.isSome)))
      = some (some (none, true)) ∧
    ((folder_conf_response env_ex 0 GTK_RESPONSE_HELP 0 world_open_ex).bind
        (folder_conf_response env_ex 0 GTK_RESPONSE_OK 0)).map
        (fun w => (w.trace.filter Event.is_creation, w.trace.filter Event.is_rescan))
      = some ([.libbalsa_imap_server_new 1 "u" "imap.example.org",
               .balsa_mailbox_node_new_imap_folder 2 (some 1),
               .balsa_mblist_mailbox_node_append (some 2),
               .config_folder_add (some 2)], []) ∧
    (folder_conf_response env_ex 0 GTK_RESPONSE_OK 0 world_open_ex).map
        (fun w => (w.trace.filter Event.is_creation, w.trace.filter Event.is_rescan))
      = some ([], [.balsa_mailbox_node_rescan (some 0)]) := by
  decide

/-! ## The permissions label -/

theorem g_strcmp0_bne_decide (a b : Option String) :
    (g_strcmp0 a b != 0) = decide (a ≠ b) := by
  by_cases h : a = b
  · have h0 := (g_strcmp0_eq_zero a b).2 h
    rw [h0]
    simp [h]
  · have h1 := (g_strcmp0_bne_zero a b).2 h
    rw [h1]
    simp [h]

/-- For a standard rights string the search ends at its key and the name
appended is the paired one. -/
theorem rights_name_standard (rights : String)
    (h : rights ∈ standard_rights.map (fun p => p.1)) :
    rights_name rights = standard_name rights ∧ (standard_name rights).isSome = true := by
  simp only [standard_rights, List.map, List.mem_cons, List.mem_singleton, List.not_mem_nil,
    or_false] at h
  rcases h with h | h | h | h | h | h <;> subst h <;>
    simp [rights_name, std_acls_search, std_acls_fuel, std_acls, g_strcmp0_bne_decide,
      std_acls_text, standard_name, standard_rights]

/-- C16: for the six standard rights strings the name shown is the one the
table pairs with it (lrs read-only, lrswipkxte read-write, lrswipkxtea admin,
lrsp post, lrsip append, lrxte delete), and the six strings are pairwise
distinct.  For a connected mailbox whose own rights are standard the label is
"mine: " and the name of the own rights when libbalsa_imap_get_acls gives no
list; when it gives a list whose rights are all standard the label goes on
with one line "uid '<uid>': <name>" per pair of the list, in the order of the
list. -/
theorem permissions_text_standard (m : ImapMailboxInfo) (rights : String)
    (hc : m.connected = true) (hr : m.rights = some rights)
    (hstd : rights ∈ standard_rights.map (fun p => p.1))
    (hall : ∀ acls, m.acls = some acls →
      ∀ p ∈ acls, p.2 ∈ standard_rights.map (fun p => p.1)) :
    (∃ name, standard_name rights = some name ∧ rights_name rights = some name ∧
      permissions_text m
        = some (match m.acls with
            | none => "mine: " ++ name
            | some acls =>
              "mine: " ++ name ++
                acls.foldr (fun p more =>
                  "\nuid '" ++ p.1 ++ "': " ++ (standard_name p.2).getD "" ++ more) "")) ∧
    (∀ acls, m.acls = some acls →
      ∀ p ∈ acls, rights_name p.2 = standard_name p.2 ∧ (standard_name p.2).isSome = true) ∧
    standard_rights.map (fun p => standard_name p.1)
      = standard_rights.map (fun p => some p.2) ∧
    (standard_rights.map (fun p => p.1)).Nodup ∧
    standard_rights.map (fun p => (some p.1, some p.2))
      = [(std_acls.getD 0 none, std_acls.getD 1 none),
         (std_acls.getD 2 none, std_acls.getD 3 none),
         (std_acls.getD 4 none, std_acls.getD 5 none),
         (std_acls.getD 6 none, std_acls.getD 7 none),
         (std_acls.getD 8 none, std_acls.getD 9 none),
         (std_acls.getD 10 none, std_acls.getD 11 none)] := by
  have hlines : ∀ l : List (String × String),
      (∀ p ∈ l, p.2 ∈ standard_rights.map (fun p => p.1)) →
      acl_lines l = some (l.foldr (fun p more =>
        "\nuid '" ++ p.1 ++ "': " ++ (standard_name p.2).getD "" ++ more) "") := by
    intro l
    induction l with
    | nil => intro _; rfl
    | cons p rest ih =>
      intro hl
      obtain ⟨uid, r⟩ := p
      have hp := rights_name_standard r (hl (uid, r) (List.mem_cons_self _ _))
      have hrest := ih (fun q hq => hl q (List.mem_cons_of_mem _ hq))
      obtain ⟨name, hname⟩ := Option.isSome_iff_exists.1 hp.2
      simp only [acl_lines, hp.1, hname, hrest, List.foldr_cons, Option.getD_some]
  obtain ⟨h1, h2⟩ := rights_name_standard rights hstd
  obtain ⟨name, hname⟩ := Option.isSome_iff_exists.1 h2
  refine ⟨⟨name, hname, h1.trans hname, ?_⟩,
    fun acls ha p hp => rights_name_standard p.2 (hall acls ha p hp),
    by decide, by decide, by decide⟩
  cases ha : m.acls with
  | none => simp [permissions_text, hc, hr, ha, h1, hname, gettext]
  | some acls =>
    simp [permissions_text, hc, hr, ha, h1, hname, hlines acls (hall acls ha), gettext]

theorem permissions_text_standard_witness :
    permissions_text mailbox_info_ex
      = some ("mine: append\nuid 'anna': read-only\nuid 'root': admin") ∧
    permissions_text { mailbox_info_ex with acls := none } = some "mine: append" := by
  have hn : ∀ name, standard_name "lrsip" = some name → name = "append" := by
    intro name hname
    have h : standard_name "lrsip" = some "append" := by decide
    rw [h] at hname
    exact (Option.some.inj hname).symm
  refine ⟨?_, ?_⟩
  · obtain ⟨⟨name, hname, _, htext⟩, _⟩ :=
      permissions_text_standard mailbox_info_ex "lrsip" rfl rfl (by decide)
        (fun acls ha => by
          have h : acls = [("anna", "lrs"), ("root", "lrswipkxtea")] :=
            (Option.some.inj ha).symm
          subst h
          decide)
    have := hn name hname
    subst this
    rw [htext]
    decide
  · obtain ⟨⟨name, hname, _, htext⟩, _⟩ :=
      permissions_text_standard { mailbox_info_ex with acls := none } "lrsip" rfl rfl
        (by decide) (fun acls ha => nomatch ha)
    have := hn name hname
    subst this
    rw [htext]
    decide

/-- C17: for a rights string that is none of the six standard strings the
search through std_acls does not stop at the NULL key at index 12, because
g_strcmp0 of NULL and a string is not 0: it goes on to index 14 and reads
behind the 14 entries of the array, so that no text is determined for the
label of a connected mailbox with such rights. -/
theorem std_acls_search_leaves_array (rights : String)
    (h : rights ∉ standard_rights.map (fun p => p.1)) :
    (g_strcmp0 none (some rights) != 0) = true ∧
    std_acls.length = 14 ∧ std_acls.get? 12 = some none ∧
    std_acls_search (some rights) std_acls_fuel 0 = .out_of_bounds 14 ∧
    std_acls_search (some rights) 2 12 = .out_of_bounds 14 ∧
    rights_name rights = none ∧
    (∀ m : ImapMailboxInfo, m.connected = true → m.rights = some rights →
      permissions_text m = none) := by
  simp only [standard_rights, List.map, List.mem_cons, List.mem_singleton, List.not_mem_nil,
    or_false, not_or] at h
  obtain ⟨h1, h2, h3, h4, h5, h6⟩ := h
  have hs : std_acls_search (some rights) std_acls_fuel 0 = .out_of_bounds 14 := by
    simp [std_acls_search, std_acls_fuel, std_acls, g_strcmp0_bne_decide,
      Ne.symm h1, Ne.symm h2, Ne.symm h3, Ne.symm h4, Ne.symm h5, Ne.symm h6]
  have hn : rights_name rights = none := by
    simp only [rights_name, hs]
  refine ⟨by simp [g_strcmp0_bne_decide], by decide, by decide, hs, ?_, hn, ?_⟩
  · simp [std_acls_search, std_acls, g_strcmp0_bne_decide]
  · intro m hc hr
    simp [permissions_text, hc, hr, hn]

theorem std_acls_search_leaves_array_witness :
    std_acls_search (some "lr") std_acls_fuel 0 = .out_of_bounds 14 ∧
    permissions_text mailbox_info_special_ex = none :=
  have h := std_acls_search_leaves_array "lr" (by decide)
  ⟨h.2.2.2.1, h.2.2.2.2.2.2 mailbox_info_special_ex rfl rfl⟩

/-! ## The quota label -/

theorem bit_length_aux_spec : ∀ (f n : Nat), n ≤ f → n ≠ 0 →
    2 ^ (bit_length_aux f n - 1) ≤ n ∧ n < 2 ^ bit_length_aux f n ∧ 1 ≤ bit_length_aux f n := by
  intro f
  induction f with
  | zero => intro n h h0; omega
  | succ f ih =>
    intro n h h0
    simp only [bit_length_aux, h0, if_false]
    by_cases h2 : n / 2 = 0
    · have h1 : n = 1 := by omega
      subst h1
      have : bit_length_aux f (1 / 2) = 0 := by
        cases f <;> simp [bit_length_aux]
      rw [this]
      simp
    · obtain ⟨i1, i2, i3⟩ := ih (n / 2) (by omega) h2
      refine ⟨?_, ?_, by omega⟩
      · have : bit_length_aux f (n / 2) + 1 - 1 = (bit_length_aux f (n / 2) - 1) + 1 := by omega
        rw [this, pow_succ]
        omega
      · rw [pow_succ]
        omega

theorem bit_length_spec (n : Nat) (h : n ≠ 0) :
    2 ^ (bit_length n - 1) ≤ n ∧ n < 2 ^ bit_length n ∧ 1 ≤ bit_length n :=
  bit_length_aux_spec n n (Nat.le_refl n) h

theorem round_div_spec (a b : Nat) (hb : 0 < b) :
    2 * (round_div a b * b) ≤ 2 * a + b ∧ 2 * a ≤ 2 * (round_div a b * b) + b := by
  have h1 := Nat.div_add_mod a b
  have h2 := Nat.mod_lt a hb
  have h3 : a / b * b = b * (a / b) := Nat.mul_comm _ _
  unfold round_div
  dsimp only
  split
  · rw [Nat.add_mul, h3]
    omega
  · rw [h3]
    omega

theorem bit_length_zero : bit_length 0 = 0 := rfl

theorem round_div_one (n : Nat) : round_div n 1 = n := by
  simp [round_div, Nat.mod_one]

/-- Rounding to p bits changes a number by at most its 2^p-th part. -/
theorem round_to_bits_nat (p n : Nat) :
    2 ^ p * round_to_bits p n ≤ (2 ^ p + 1) * n ∧
    (2 ^ p - 1) * n ≤ 2 ^ p * round_to_bits p n := by
  have hB : 1 ≤ 2 ^ p := Nat.one_le_two_pow
  by_cases hk : bit_length n - p = 0
  · have hR : round_to_bits p n = n := by
      simp [round_to_bits, hk, round_div_one]
    rw [hR]
    constructor
    · exact Nat.mul_le_mul_right n (Nat.le_succ _)
    · exact Nat.mul_le_mul_right n (Nat.sub_le _ _)
  · have hn : n ≠ 0 := by
      intro h0
      rw [h0, bit_length_zero] at hk
      exact hk (Nat.zero_sub p)
    obtain ⟨b1, _, _⟩ := bit_length_spec n hn
    obtain ⟨k, hk1⟩ : ∃ k, bit_length n - p = k + 1 := ⟨bit_length n - p - 1, by omega⟩
    have hbl : bit_length n - 1 = k + p := by omega
    rw [hbl, pow_add] at b1
    have hs := round_div_spec n (2 ^ (k + 1)) (Nat.pow_pos (by decide))
    have hR : round_to_bits p n = round_div n (2 ^ (k + 1)) * 2 ^ (k + 1) := by
      simp [round_to_bits, hk1]
    rw [← hR, pow_succ] at hs
    obtain ⟨s1, s2⟩ := hs
    have u1 : round_to_bits p n ≤ n + 2 ^ k := by omega
    have u2 : n ≤ round_to_bits p n + 2 ^ k := by omega
    have m1 := Nat.mul_le_mul_left (2 ^ p) u1
    have m2 := Nat.mul_le_mul_left (2 ^ p) u2
    rw [Nat.mul_add] at m1 m2
    have hc : 2 ^ p * 2 ^ k = 2 ^ k * 2 ^ p := Nat.mul_comm _ _
    constructor
    · rw [Nat.add_mul, Nat.one_mul]
      omega
    · rw [Nat.sub_mul, Nat.one_mul]
      omega

theorem round_to_bits_rat (p n : Nat) :
    (1 - 1 / 2 ^ p : ℚ) * n ≤ round_to_bits p n ∧
    (round_to_bits p n : ℚ) ≤ (1 + 1 / 2 ^ p) * n := by
  obtain ⟨h1, h2⟩ := round_to_bits_nat p n
  have hB : (0 : ℚ) < 2 ^ p := by positivity
  have q1 : ((2 ^ p * round_to_bits p n : ℕ) : ℚ) ≤ ((2 ^ p + 1) * n : ℕ) := by exact_mod_cast h1
  have hle : 1 ≤ 2 ^ p := Nat.one_le_two_pow
  have q2 : (((2 ^ p - 1) * n : ℕ) : ℚ) ≤ ((2 ^ p * round_to_bits p n : ℕ) : ℚ) := by
    exact_mod_cast h2
  push_cast [Nat.cast_sub hle] at q1 q2
  constructor
  · have e : (1 - 1 / 2 ^ p : ℚ) * n = ((2 ^ p - 1) * n) / 2 ^ p := by field_simp
    rw [e, div_le_iff₀ hB]
    linarith
  · have e : (1 + 1 / 2 ^ p : ℚ) * n = ((2 ^ p + 1) * n) / 2 ^ p := by field_simp
    rw [e, le_div_iff₀ hB]
    linarith

/-- The scaled quotient that `c_double_div` rounds has at least 53 bits. -/
theorem c_double_div_precision (a b : Nat) (ha : a ≠ 0) (hb : b ≠ 0) (e : Nat)
    (he : e = if b * 2 ^ (bit_length a - bit_length b) ≤ a * 2 ^ (bit_length b - bit_length a)
      then 52 + bit_length b else 53 + bit_length b) :
    2 ^ 52 * (b * 2 ^ (bit_length a - e)) ≤ a * 2 ^ (e - bit_length a) := by
  obtain ⟨a1, _, a3⟩ := bit_length_spec a ha
  obtain ⟨_, b2, b3⟩ := bit_length_spec b hb
  generalize bit_length a = la at *
  generalize bit_length b = lb at *
  split at he
  · rename_i htest
    subst he
    by_cases h : la ≤ 52 + lb
    · have hd : la - (52 + lb) = 0 := by omega
      rw [hd, pow_zero, Nat.mul_one]
      by_cases h2 : la ≤ lb
      · have h0 : la - lb = 0 := by omega
        rw [h0, pow_zero, Nat.mul_one] at htest
        have hx : 2 ^ (52 + lb - la) = 2 ^ (lb - la) * 2 ^ 52 := by
          rw [← pow_add]; congr 1; omega
        rw [hx, ← Nat.mul_assoc, Nat.mul_comm (2 ^ 52) b]
        exact Nat.mul_le_mul_right _ htest
      · have h0 : lb - la = 0 := by omega
        rw [h0, pow_zero, Nat.mul_one] at htest
        have hx : 2 ^ (la - lb) * 2 ^ (52 + lb - la) = 2 ^ 52 := by
          rw [← pow_add]; congr 1; omega
        calc 2 ^ 52 * b = b * (2 ^ (la - lb) * 2 ^ (52 + lb - la)) := by rw [hx, Nat.mul_comm]
          _ = b * 2 ^ (la - lb) * 2 ^ (52 + lb - la) := by rw [Nat.mul_assoc]
          _ ≤ a * 2 ^ (52 + lb - la) := Nat.mul_le_mul_right _ htest
    · have hu : 52 + lb - la = 0 := by omega
      have h0 : lb - la = 0 := by omega
      rw [h0, pow_zero, Nat.mul_one] at htest
      rw [hu, pow_zero, Nat.mul_one]
      have hx : 2 ^ 52 * 2 ^ (la - (52 + lb)) = 2 ^ (la - lb) := by
        rw [← pow_add]; congr 1; omega
      calc 2 ^ 52 * (b * 2 ^ (la - (52 + lb))) = b * (2 ^ 52 * 2 ^ (la - (52 + lb))) := by ring
        _ = b * 2 ^ (la - lb) := by rw [hx]
        _ ≤ a := htest
  · subst he
    by_cases h : la ≤ 53 + lb
    · have hd : la - (53 + lb) = 0 := by omega
      rw [hd, pow_zero, Nat.mul_one]
      have hx : 2 ^ (la - 1) * 2 ^ (53 + lb - la) = 2 ^ 52 * 2 ^ lb := by
        rw [← pow_add, ← pow_add]; congr 1; omega
      calc 2 ^ 52 * b ≤ 2 ^ 52 * 2 ^ lb := Nat.mul_le_mul_left _ (Nat.le_of_lt b2)
        _ = 2 ^ (la - 1) * 2 ^ (53 + lb - la) := hx.symm
        _ ≤ a * 2 ^ (53 + lb - la) := Nat.mul_le_mul_right _ a1
    · have hu : 53 + lb - la = 0 := by omega
      rw [hu, pow_zero, Nat.mul_one]
      have hx : 2 ^ 52 * (2 ^ lb * 2 ^ (la - (53 + lb))) = 2 ^ (la - 1) := by
        rw [← pow_add, ← pow_add]; congr 1; omega
      calc 2 ^ 52 * (b * 2 ^ (la - (53 + lb)))
          ≤ 2 ^ 52 * (2 ^ lb * 2 ^ (la - (53 + lb))) :=
            Nat.mul_le_mul_left _ (Nat.mul_le_mul_right _ (Nat.le_of_lt b2))
        _ = 2 ^ (la - 1) := hx
        _ ≤ a := a1

/-- The double quotient of two integers, the divisor not 0, is finite and
differs from the exact quotient by at most its 2^53-th part. -/
theorem c_double_div_spec (a b : Nat) (hb : b ≠ 0) :
    ∃ num den, c_double_div a b = .finite num den ∧ 0 < den ∧
      (1 - 1 / 2 ^ 53 : ℚ) * (a / b) ≤ num / den ∧
      (num / den : ℚ) ≤ (1 + 1 / 2 ^ 53) * (a / b) := by
  by_cases ha : a = 0
  · refine ⟨0, 1, by simp [c_double_div, hb, ha], Nat.one_pos, ?_, ?_⟩ <;> simp [ha]
  · obtain ⟨e, he⟩ : ∃ e, e = if b * 2 ^ (bit_length a - bit_length b)
        ≤ a * 2 ^ (bit_length b - bit_length a)
        then 52 + bit_length b else 53 + bit_length b := ⟨_, rfl⟩
    have hprec := c_double_div_precision a b ha hb e he
    have hB : 0 < b * 2 ^ (bit_length a - e) :=
      Nat.mul_pos (Nat.pos_of_ne_zero hb) (Nat.pow_pos (by decide))
    obtain ⟨s1, s2⟩ := round_div_spec (a * 2 ^ (e - bit_length a)) (b * 2 ^ (bit_length a - e)) hB
    refine ⟨round_div (a * 2 ^ (e - bit_length a)) (b * 2 ^ (bit_length a - e))
        * 2 ^ (bit_length a - e), 2 ^ (e - bit_length a), ?_, Nat.pow_pos (by decide), ?_, ?_⟩
    · simp only [c_double_div, hb, ha, if_false, ← he]
    · generalize round_div (a * 2 ^ (e - bit_length a)) (b * 2 ^ (bit_length a - e)) = m at *
      generalize hU : 2 ^ (e - bit_length a) = U at *
      generalize hD : 2 ^ (bit_length a - e) = D at *
      have hUpos : (0 : ℚ) < U := by
        have : 0 < U := by rw [← hU]; exact Nat.pow_pos (by decide)
        exact_mod_cast this
      have hbpos : (0 : ℚ) < b := by exact_mod_cast Nat.pos_of_ne_zero hb
      have q1 : ((2 * (m * (b * D)) : ℕ) : ℚ) ≤ ((2 * (a * U) + b * D : ℕ) : ℚ) := by
        exact_mod_cast s1
      have q2 : ((2 * (a * U) : ℕ) : ℚ) ≤ ((2 * (m * (b * D)) + b * D : ℕ) : ℚ) := by
        exact_mod_cast s2
      have q3 : ((2 ^ 52 * (b * D) : ℕ) : ℚ) ≤ ((a * U : ℕ) : ℚ) := by exact_mod_cast hprec
      push_cast at q1 q2 q3 ⊢
      rw [mul_div_assoc', div_le_div_iff₀ hbpos hUpos]
      nlinarith
    · generalize round_div (a * 2 ^ (e - bit_length a)) (b * 2 ^ (bit_length a - e)) = m at *
      generalize hU : 2 ^ (e - bit_length a) = U at *
      generalize hD : 2 ^ (bit_length a - e) = D at *
      have hUpos : (0 : ℚ) < U := by
        have : 0 < U := by rw [← hU]; exact Nat.pow_pos (by decide)
        exact_mod_cast this
      have hbpos : (0 : ℚ) < b := by exact_mod_cast Nat.pos_of_ne_zero hb
      have q1 : ((2 * (m * (b * D)) : ℕ) : ℚ) ≤ ((2 * (a * U) + b * D : ℕ) : ℚ) := by
        exact_mod_cast s1
      have q3 : ((2 ^ 52 * (b * D) : ℕ) : ℚ) ≤ ((a * U : ℕ) : ℚ) := by exact_mod_cast hprec
      push_cast at q1 q3 ⊢
      rw [mul_div_assoc', div_le_div_iff₀ hUpos hbpos]
      nlinarith

/-- The error of the percentage: two conversions to single precision, a
product and a quotient in double precision. -/
theorem percent_close (u mx Fu Fm P x : ℚ) (hu : 0 ≤ u) (hmx : 0 < mx)
    (c1l : (1 - 1 / 2 ^ 24) * u ≤ Fu) (c1u : Fu ≤ (1 + 1 / 2 ^ 24) * u)
    (c2l : (1 - 1 / 2 ^ 53) * (100 * Fu) ≤ P) (c2u : P ≤ (1 + 1 / 2 ^ 53) * (100 * Fu))
    (c3l : (1 - 1 / 2 ^ 24) * mx ≤ Fm) (c3u : Fm ≤ (1 + 1 / 2 ^ 24) * mx)
    (dl : (1 - 1 / 2 ^ 53) * (P / Fm) ≤ x) (du : x ≤ (1 + 1 / 2 ^ 53) * (P / Fm)) :
    |x - 100 * u / mx| ≤ (100 * u / mx) / 2 ^ 21 := by
  have hq : 0 ≤ 100 * u / mx := by positivity
  have hFm : 0 < Fm := lt_of_lt_of_le (by positivity) c3l
  have hFu : 0 ≤ Fu := le_trans (by positivity) c1l
  have hPu : P ≤ (1 + 1 / 2 ^ 53) * (100 * ((1 + 1 / 2 ^ 24) * u)) :=
    le_trans c2u (by gcongr)
  have hPl : (1 - 1 / 2 ^ 53) * (100 * ((1 - 1 / 2 ^ 24) * u)) ≤ P :=
    le_trans (by gcongr) c2l
  have hub : P / Fm ≤ (1 + 1 / 2 ^ 53) * (100 * ((1 + 1 / 2 ^ 24) * u))
      / ((1 - 1 / 2 ^ 24) * mx) :=
    div_le_div₀ (by positivity) hPu (by positivity) c3l
  have hlb : (1 - 1 / 2 ^ 53) * (100 * ((1 - 1 / 2 ^ 24) * u)) / ((1 + 1 / 2 ^ 24) * mx)
      ≤ P / Fm :=
    div_le_div₀ (le_trans (by positivity) hPl) hPl hFm c3u
  have eu : (1 + 1 / 2 ^ 53) * (100 * ((1 + 1 / 2 ^ 24) * u)) / ((1 - 1 / 2 ^ 24) * mx)
      = (100 * u / mx) * ((1 + 1 / 2 ^ 53) * (1 + 1 / 2 ^ 24) / (1 - 1 / 2 ^ 24)) := by
    field_simp
    ring
  have el : (1 - 1 / 2 ^ 53) * (100 * ((1 - 1 / 2 ^ 24) * u)) / ((1 + 1 / 2 ^ 24) * mx)
      = (100 * u / mx) * ((1 - 1 / 2 ^ 53) * (1 - 1 / 2 ^ 24) / (1 + 1 / 2 ^ 24)) := by
    field_simp
    ring
  rw [eu] at hub
  rw [el] at hlb
  have xu : x ≤ (100 * u / mx) *
      ((1 + 1 / 2 ^ 53) * ((1 + 1 / 2 ^ 53) * (1 + 1 / 2 ^ 24) / (1 - 1 / 2 ^ 24))) := by
    calc x ≤ (1 + 1 / 2 ^ 53) * (P / Fm) := du
      _ ≤ (1 + 1 / 2 ^ 53) * ((100 * u / mx) *
            ((1 + 1 / 2 ^ 53) * (1 + 1 / 2 ^ 24) / (1 - 1 / 2 ^ 24))) := by gcongr
      _ = _ := by ring
  have xl : (100 * u / mx) *
      ((1 - 1 / 2 ^ 53) * ((1 - 1 / 2 ^ 53) * (1 - 1 / 2 ^ 24) / (1 + 1 / 2 ^ 24))) ≤ x := by
    calc (100 * u / mx) *
        ((1 - 1 / 2 ^ 53) * ((1 - 1 / 2 ^ 53) * (1 - 1 / 2 ^ 24) / (1 + 1 / 2 ^ 24)))
        = (1 - 1 / 2 ^ 53) * ((100 * u / mx) *
            ((1 - 1 / 2 ^ 53) * (1 - 1 / 2 ^ 24) / (1 + 1 / 2 ^ 24))) := by ring
      _ ≤ (1 - 1 / 2 ^ 53) * (P / Fm) := by gcongr
      _ ≤ x := dl
  have ku : (1 + 1 / 2 ^ 53) * ((1 + 1 / 2 ^ 53) * (1 + 1 / 2 ^ 24) / (1 - 1 / 2 ^ 24))
      ≤ (1 + 1 / 2 ^ 21 : ℚ) := by norm_num
  have kl : (1 - 1 / 2 ^ 21 : ℚ)
      ≤ (1 - 1 / 2 ^ 53) * ((1 - 1 / 2 ^ 53) * (1 - 1 / 2 ^ 24) / (1 + 1 / 2 ^ 24)) := by
    norm_num
  have xu2 := le_trans xu (mul_le_mul_of_nonneg_left ku hq)
  have xl2 := le_trans (mul_le_mul_of_nonneg_left kl hq) xl
  rw [abs_le]
  constructor <;> linarith

theorem round_to_bits_ne_zero (p n : Nat) (hp : 1 ≤ p) (hn : n ≠ 0) :
    round_to_bits p n ≠ 0 := by
  intro h
  have h2 := (round_to_bits_nat p n).2
  rw [h, Nat.mul_zero] at h2
  have h3 : 2 ≤ 2 ^ p := by
    calc 2 = 2 ^ 1 := rfl
      _ ≤ 2 ^ p := Nat.pow_le_pow_right (by decide) hp
  have h4 : 0 < (2 ^ p - 1) * n := Nat.mul_pos (by omega) (Nat.pos_of_ne_zero hn)
  omega

/-- Division by zero: for used ≠ 0 and max = 0 the quotient is infinite. -/
theorem quota_percent_inf (used : Nat) (hu : used ≠ 0) : quota_percent used 0 = .inf := by
  have h0 : c_float_of_ulong 0 = 0 := by decide
  have h1 : c_double_mul 100 (c_float_of_ulong used) ≠ 0 :=
    round_to_bits_ne_zero 53 _ (by decide)
      (Nat.mul_ne_zero (by decide) (round_to_bits_ne_zero 24 used (by decide) hu))
  simp [quota_percent, c_double_div, h0, h1]

/-- For max ≠ 0 the text of the percentage is a decimal number with one digit
after the point that differs from 100 * used / max by at most 0.05 and the
2^21-th part of the percentage. -/
theorem quota_percent_spec (used max : Nat) (hm : max ≠ 0) :
    ∃ k : Nat,
      printf_1f (quota_percent used max) = toString (k / 10) ++ "." ++ toString (k % 10) ∧
      |(k : ℚ) / 10 - 100 * used / max| ≤ 1 / 20 + (100 * used / max) / 2 ^ 21 := by
  have hFm : c_float_of_ulong max ≠ 0 := round_to_bits_ne_zero 24 max (by decide) hm
  obtain ⟨num, den, hdiv, hden, dl, du⟩ :=
    c_double_div_spec (c_double_mul 100 (c_float_of_ulong used)) (c_float_of_ulong max) hFm
  refine ⟨round_div (10 * num) den, ?_, ?_⟩
  · rw [quota_percent, hdiv]
    rfl
  · obtain ⟨c1l, c1u⟩ := round_to_bits_rat 24 used
    obtain ⟨c3l, c3u⟩ := round_to_bits_rat 24 max
    obtain ⟨c2l, c2u⟩ := round_to_bits_rat 53 (100 * c_float_of_ulong used)
    push_cast at c2l c2u
    have hclose := percent_close used max (c_float_of_ulong used) (c_float_of_ulong max)
      (c_double_mul 100 (c_float_of_ulong used)) (num / den) (Nat.cast_nonneg _)
      (by exact_mod_cast Nat.pos_of_ne_zero hm) c1l c1u c2l c2u c3l c3u dl du
    obtain ⟨k1, k2⟩ := round_div_spec (10 * num) den hden
    have hdpos : (0 : ℚ) < den := by exact_mod_cast hden
    have q1 : ((2 * (round_div (10 * num) den * den) : ℕ) : ℚ) ≤ ((2 * (10 * num) + den : ℕ) : ℚ) := by
      exact_mod_cast k1
    have q2 : ((2 * (10 * num) : ℕ) : ℚ) ≤ ((2 * (round_div (10 * num) den * den) + den : ℕ) : ℚ) := by
      exact_mod_cast k2
    push_cast at q1 q2
    generalize (round_div (10 * num) den : ℚ) = k at *
    have hy : (num : ℚ) = (num : ℚ) / den * den := by
      rw [div_mul_cancel₀]
      exact ne_of_gt hdpos
    generalize (num : ℚ) / den = y at *
    rw [hy] at q1 q2
    have e1 : 2 * k ≤ 20 * y + 1 := by
      by_contra h
      push_neg at h
      nlinarith
    have e2 : 20 * y ≤ 2 * k + 1 := by
      by_contra h
      push_neg at h
      nlinarith
    have hk : |k / 10 - y| ≤ 1 / 20 := by
      rw [abs_le]
      constructor <;> linarith
    calc |k / 10 - 100 * (used : ℚ) / max|
        = |(k / 10 - y) + (y - 100 * used / max)| := by ring_nf
      _ ≤ |k / 10 - y| + |y - 100 * used / max| := abs_add _ _
      _ ≤ 1 / 20 + (100 * used / max) / 2 ^ 21 := add_le_add hk hclose

/-- C18: the quota text falls under exactly one of four cases.  For a mailbox
that is not connected it is "quota information available only for open
folders"; for a connected one whose quota query fails it is "the server does
not support quotas"; when the query gives max = 0 and used = 0 it is "no
limits"; in every other case it is "<used> of <max> (<percent>%) used", where
the sizes are formatted from the kilobyte counts times 1024 as unsigned 64-bit
values and the percentage is what %.1f prints for
100.0 * (float) used / (float) max: for max = 0 the text inf, and for max other
than 0 a decimal number with one digit after the point that differs from
100 * used / max by at most 0.05 and the 2^21-th part of that percentage. -/
theorem quota_text_cases (size : Nat → String) (m : ImapMailboxInfo) :
    (m.connected = false →
      quota_text size m = "quota information available only for open folders") ∧
    (m.connected = true → m.quota = none →
      quota_text size m = "the server does not support quotas") ∧
    (m.connected = true → m.quota = some (0, 0) → quota_text size m = "no limits") ∧
    (∀ max used, m.connected = true → m.quota = some (max, used) → ¬ (max = 0 ∧ used = 0) →
      quota_text size m
        = size (used * 1024 % 2 ^ 64) ++ " of " ++ size (max * 1024 % 2 ^ 64) ++ " ("
            ++ printf_1f (quota_percent used max) ++ "%) used"
      ∧ (used < 2 ^ 54 → used * 1024 % 2 ^ 64 = used * 1024)
      ∧ (max < 2 ^ 54 → max * 1024 % 2 ^ 64 = max * 1024)
      ∧ (max = 0 → printf_1f (quota_percent used max) = "inf")
      ∧ (max ≠ 0 → ∃ k : Nat,
          printf_1f (quota_percent used max)
            = toString (k / 10) ++ "." ++ toString (k % 10) ∧
          |(k : ℚ) / 10 - 100 * used / max| ≤ 1 / 20 + (100 * used / max) / 2 ^ 21)) ∧
    ((m.connected = false ∨ (m.connected = true ∧ m.quota = none)) ∨
      (m.connected = true ∧ m.quota = some (0, 0)) ∨
      ∃ max used, m.connected = true ∧ m.quota = some (max, used) ∧ ¬ (max = 0 ∧ used = 0)) := by
  refine ⟨?_, ?_, ?_, ?_, ?_⟩
  · intro hc
    simp [quota_text, hc, gettext]
  · intro hc hq
    simp [quota_text, hc, hq, gettext]
  · intro hc hq
    simp [quota_text, hc, hq, gettext]
  · intro max used hc hq hne
    refine ⟨?_, ?_, ?_, ?_, ?_⟩
    · simp only [quota_text, hc, hq, Bool.not_true, Bool.false_eq_true, if_false, if_neg hne]
    · intro hu
      exact Nat.mod_eq_of_lt (by omega)
    · intro hu
      exact Nat.mod_eq_of_lt (by omega)
    · intro h0
      subst h0
      have hu : used ≠ 0 := fun h => hne ⟨rfl, h⟩
      rw [quota_percent_inf used hu]
      rfl
    · intro h0
      exact quota_percent_spec used max h0
  · cases hc : m.connected with
    | false => exact Or.inl (Or.inl rfl)
    | true =>
      cases hq : m.quota with
      | none => exact Or.inl (Or.inr ⟨rfl, rfl⟩)
      | some p =>
        obtain ⟨max, used⟩ := p
        by_cases hz : max = 0 ∧ used = 0
        · right; left
          refine ⟨rfl, ?_⟩
          rw [hz.1, hz.2]
        · right; right
          exact ⟨max, used, rfl, rfl, hz⟩

theorem quota_text_cases_witness :
    quota_text size_bytes_ex mailbox_info_ex
      = "524288 bytes of 2097152 bytes (25.0%) used" ∧
    quota_text size_bytes_ex mailbox_info_zero_max_ex = "5120 bytes of 0 bytes (inf%) used" := by
  constructor
  · rw [((quota_text_cases size_bytes_ex mailbox_info_ex).2.2.2.1 2048 512 rfl rfl
      (by decide)).1]
    decide
  · rw [((quota_text_cases size_bytes_ex mailbox_info_zero_max_ex).2.2.2.1 0 5 rfl rfl
      (by decide)).1]
    decide

end FolderConf
